import Mathlib

/-!
# IPv4 network layer of the INET framework

A shallow embedding of two source files:

* `src/networklayer/ipv4/IPv4.cc`: the datagram pipeline (ingress dispatch, unicast
  routing, multicast forwarding, TTL discipline, fragmentation producer, encapsulation and
  decapsulation, local delivery, higher-layer ingress, output, lifecycle);
* `Network/IPv4/Core/LocalDeliver.cc`: the flat-array reassembly buffer
  (`insertInFragmentBuf`, `datagramComplete`, `removeFragmentFromBuf`,
  `eraseTimeoutFragmentsFromBuf`).

Conventions of the embedding.

* C++ integer values are mathematical integers (`Int`). Arithmetic inside one integer type
  is exact: signed overflow is undefined behaviour in C++ and is given no value. The field
  types of the datagram classes are declared in generated headers outside the sources, so
  a field holds the value written to it. A conversion to a narrower type has a value, and
  it is modelled where the sources declare the narrower variable: the hop count chosen in
  `encapsulate` is stored in a `short` (line 792), and the payload length in
  `fragmentAndSend`, computed from the 64-bit byte length of the packet, is stored in an
  `int` (line 725); see `narrowShort` and `narrowInt`.
* C++ integer division truncates toward zero: it is `Int.tdiv`.
* A `while`/`for` loop that may fail to terminate takes a `fuel : Nat` bounding the number
  of iterations; running out of fuel is reported in the result, never silently dropped.
* Calls into collaborators (ICMP, interface output, sibling handlers that are not expanded)
  are recorded as a trace of `Event`s in call order.
* A duplicate made by `dup()` has every modelled field of the original except the control
  info: the copy has none attached (`IPv4Datagram.dup`).
* A thrown `cRuntimeError`, a failed `ASSERT` and a null dereference end the call; they are
  reported in the result (`Status`, or `none` for a function that returns a value).
* Simulation time (`simtime_t`, a number of seconds) is an integer, so that `+ 1` in
  `handleMessage` is one second.
* `LocalDeliver.cc` compares `fragmentOffset` with sums of stored lengths
  (`length()/8 - headerLength()`); the embedding keeps both as the code has them and
  attaches no unit to either.
-/

namespace IPv4

/-! ## Data model of `IPv4.cc` -/

/-- An IPv4 address as a 32-bit number (the class `IPv4Address` is declared outside the
sources); `0` is the unspecified address. -/
abbrev IPv4Address := Nat

/-- The constant `IPv4Address::UNSPECIFIED_ADDRESS` (0.0.0.0). -/
def UNSPECIFIED_ADDRESS : IPv4Address := 0

/-- The constant `IPv4Address::ALLONES_ADDRESS` (255.255.255.255). -/
def ALLONES_ADDRESS : IPv4Address := 4294967295

/-- The test `IPv4Address::isUnspecified`. -/
def isUnspecified (a : IPv4Address) : Bool := a == 0

/-- The test `IPv4Address::isLimitedBroadcastAddress` (255.255.255.255). -/
def isLimitedBroadcastAddress (a : IPv4Address) : Bool := a == 4294967295

/-- The test `IPv4Address::isMulticast`: class D, 224.0.0.0/4. -/
def isMulticast (a : IPv4Address) : Bool := a / 268435456 == 14

/-- The test `IPv4Address::isLinkLocalMulticast`: 224.0.0.0/24. -/
def isLinkLocalMulticast (a : IPv4Address) : Bool := a / 256 == 14680064

/-- ICMP error types requested by `IPv4.cc` through `sendErrorMessage`. -/
inductive ICMPType where
  | ICMP_DESTINATION_UNREACHABLE
  | ICMP_TIME_EXCEEDED
  | ICMP_PARAMETER_PROBLEM
deriving DecidableEq, Repr

/-- Modelled from the spec: the constant `ICMP_FRAGMENTATION_ERROR_CODE` is declared in
`ICMPMessage_m.h`, outside the sources; the spec gives the fragmentation-needed code as 4. -/
def ICMP_FRAGMENTATION_ERROR_CODE : Int := 4

/-- Protocol numbers used by the pipeline; the enum `IPProtocolId` is declared outside the
sources, so its values are parameters of the model. -/
structure IPProtocolId where
  IP_PROT_ICMP : Int
  IP_PROT_IGMP : Int
  IP_PROT_IP : Int
  IP_PROT_DSR : Int
  IP_PROT_MANET : Int
deriving DecidableEq, Repr

/-- A higher-layer packet (`cPacket`) as far as the pipeline looks at it: its name and its
length in bytes. -/
structure cPacket where
  name : String
  byteLength : Int
deriving DecidableEq, Repr

/-- Header fields of `IPv4Datagram` that `IPv4.cc` reads or writes, with the packet name,
the bit-error flag, the presence of an attached control info and the encapsulated
higher-layer packet. -/
structure IPv4Datagram where
  name : String
  srcAddress : IPv4Address
  destAddress : IPv4Address
  typeOfService : Int
  identification : Int
  moreFragments : Bool
  dontFragment : Bool
  fragmentOffset : Int
  timeToLive : Int
  transportProtocol : Int
  headerLength : Int
  byteLength : Int
  hasBitError : Bool
  hasControlInfo : Bool
  encapsulatedPacket : Option cPacket
deriving DecidableEq, Repr

/-- The value that a conversion to `short` stores: the 16-bit two's complement reading of
the number, in the range -32768 .. 32767. -/
def narrowShort (x : Int) : Int := (x + 32768) % 65536 - 32768

/-- The value that a conversion to `int` stores: the 32-bit two's complement reading of
the number, in the range -2147483648 .. 2147483647. -/
def narrowInt (x : Int) : Int := (x + 2147483648) % 4294967296 - 2147483648

/-- Modelled from the spec: the call `datagram->dup()` runs the copy operation of the
simulation kernel and of generated code, outside the sources; by 4.A duplication is a deep
copy of header fields and payload. The copy has the name, the header fields, the lengths,
the bit-error flag and the encapsulated packet of the original; the control info attached
to the original is none of these, and the copy has none. -/
def IPv4Datagram.dup (datagram : IPv4Datagram) : IPv4Datagram :=
  { datagram with hasControlInfo := false }

/-- The control info exchanged with a higher layer (`IPv4ControlInfo`), as far as
`IPv4.cc` reads or writes it; `origDatagram` is the datagram recorded by
`setOrigDatagram`. -/
structure IPv4ControlInfo where
  destAddr : IPv4Address
  srcAddr : IPv4Address
  interfaceId : Int
  nextHopAddr : IPv4Address
  protocol : Int
  typeOfService : Int
  dontFragment : Bool
  timeToLive : Int
  multicastLoop : Bool
  origDatagram : Option IPv4Datagram
deriving DecidableEq, Repr

/-- A MAC address as a 48-bit number (the class `MACAddress` is declared outside the
sources); `0` is the unspecified address. -/
abbrev MACAddress := Nat

/-- The constant `MACAddress::BROADCAST_ADDRESS` (ff:ff:ff:ff:ff:ff). -/
def BROADCAST_ADDRESS : MACAddress := 281474976710655

/-- The control-info objects that `IPv4.cc` casts to or attaches. -/
inductive ControlInfo where
  /-- An `IPRegisterProtocolCommand` with its `getProtocol()`. -/
  | registerProtocolCommand (protocol : Int)
  /-- An `IPv4ControlInfo`. -/
  | ipv4ControlInfo (controlInfo : IPv4ControlInfo)
  /-- An `Ieee802Ctrl` with destination MAC address and EtherType. -/
  | ieee802Ctrl (dest : MACAddress) (etherType : Int)
  /-- An `IPv4RoutingDecision` with interface id and next-hop address. -/
  | routingDecision (interfaceId : Int) (nextHopAddr : IPv4Address)
deriving DecidableEq, Repr

/-- The C++ class of a packet as the `dynamic_cast`s of `endService` and
`handlePacketFromHL` tell it apart. -/
inductive PacketClass where
  /-- An `IPv4Datagram`. -/
  | datagram (datagram : IPv4Datagram)
  /-- An `ARPPacket`. -/
  | arpPacket (packet : cPacket)
  /-- Any other packet. -/
  | other (packet : cPacket)
deriving DecidableEq, Repr

/-- A message as `handleMessage` receives it: `getKind()`, `isSelfMessage()`, the arrival
gate (name and index, `none` for `NULL`), the attached control info and the packet. For a
datagram the field `hasControlInfo` mirrors the presence of `controlInfo`. -/
structure cMessage where
  kind : Int
  isSelfMessage : Bool
  arrivalGate : Option (String × Int)
  controlInfo : Option ControlInfo
  packet : PacketClass
deriving DecidableEq, Repr

/-- The output gates of the module that `IPv4.cc` sends on. -/
inductive Gate where
  | arpOut
  | arpDgramOut
  | transportOut (index : Int)
  | preRoutingOut
  | queueOut (index : Int)
deriving DecidableEq, Repr

/-- The part of `InterfaceEntry` (with its `IPv4InterfaceData`) that the pipeline consults.
Pointer comparisons of interface entries are comparisons of `interfaceId`. -/
structure InterfaceEntry where
  interfaceId : Int
  isLoopback : Bool
  mtu : Int
  ipAddress : IPv4Address
  isBroadcast : Bool
  multicastGroups : List IPv4Address
  multicastTtlThreshold : Int
  multicastListeners : List IPv4Address
  macAddress : MACAddress
  networkBroadcastAddress : IPv4Address
  networkLayerGateIndex : Int
deriving DecidableEq, Repr

/-- A unicast route: `getInterface()` (possibly `NULL`) and `getGateway()`. -/
structure IPv4Route where
  interface : Option InterfaceEntry
  gateway : IPv4Address
deriving DecidableEq, Repr

/-- A child of a multicast route (`IPv4MulticastRoute::ChildInterface`): `getInterface()`
and `isLeaf()`. -/
structure ChildInterface where
  interface : InterfaceEntry
  isLeaf : Bool
deriving DecidableEq, Repr

/-- A multicast route: `getParent()` (possibly `NULL`) and `getChildren()`. -/
structure IPv4MulticastRoute where
  parent : Option InterfaceEntry
  children : List ChildInterface
deriving DecidableEq, Repr

/-- The queries of `IIPv4RoutingTable` used by the pipeline. -/
structure IIPv4RoutingTable where
  isLocalAddress : IPv4Address → Bool
  findInterfaceByLocalBroadcastAddress : IPv4Address → Option InterfaceEntry
  isIPForwardingEnabled : Bool
  isMulticastForwardingEnabled : Bool
  findBestMatchingRoute : IPv4Address → Option IPv4Route
  findBestMatchingMulticastRoute : IPv4Address → IPv4Address → Option IPv4MulticastRoute
  getInterfaceForDestAddr : IPv4Address → Option InterfaceEntry
  getInterfaceByAddress : IPv4Address → Option InterfaceEntry
  isLocalBroadcastAddress : IPv4Address → Bool

/-- The queries of `IInterfaceTable` used by the pipeline; `interfaces` lists
`getInterface(0)`, ..., `getInterface(getNumInterfaces() - 1)`. -/
structure IInterfaceTable where
  interfaces : List InterfaceEntry
  getInterfaceById : Int → Option InterfaceEntry
  getFirstLoopbackInterface : Option InterfaceEntry
  getFirstMulticastInterface : Option InterfaceEntry
  getInterfaceByNetworkLayerGateIndex : Int → Option InterfaceEntry

/-- Calls that leave the modelled functions, in call order. -/
inductive Event where
  /-- A call `icmpAccess.get()->sendErrorMessage(datagram, type, code)`. -/
  | sendErrorMessage (datagram : IPv4Datagram) (type : ICMPType) (code : Int)
  /-- A call `sendDatagramToOutput(datagram, ie, nextHopAddr)`. -/
  | sendDatagramToOutput (datagram : IPv4Datagram) (ie : InterfaceEntry)
      (nextHopAddr : IPv4Address)
  /-- A call `reassembleAndDeliver(datagram)`. -/
  | reassembleAndDeliver (datagram : IPv4Datagram)
  /-- A call `forwardMulticastPacket(datagram, fromIE)`. -/
  | forwardMulticastPacket (datagram : IPv4Datagram) (fromIE : InterfaceEntry)
  /-- A call `sendRouteUpdateMessageToManet(datagram)`. -/
  | sendRouteUpdateMessageToManet (datagram : IPv4Datagram)
  /-- A call `sendNoRouteMessageToManet(datagram)`. -/
  | sendNoRouteMessageToManet (datagram : IPv4Datagram)
  /-- A call `send(packet, gate)` of the simulation kernel, with the control info attached
  to the packet. -/
  | send (packet : PacketClass) (controlInfo : Option ControlInfo) (gate : Gate)
  /-- A call `fragbuf.purgeStaleFragments(lastupdate)`. -/
  | purgeStaleFragments (lastupdate : Int)
  /-- A call `fragbuf.addFragment(datagram, now)`. -/
  | addFragment (datagram : IPv4Datagram) (now : Int)
  /-- A call `handleIncomingICMP(packet)` with the decapsulated packet. -/
  | handleIncomingICMP (packet : cPacket) (controlInfo : IPv4ControlInfo)
  /-- A call `sendToManet(packet)`. -/
  | sendToManet (datagram : IPv4Datagram)
  /-- A call `QueueBase::handleMessage(msg)` of the base class. -/
  | queueBaseHandleMessage (msg : cMessage)
  /-- A call `handlePacketFromHL(packet)`. -/
  | handlePacketFromHL (packet : cMessage)
  /-- A call `handlePacketFromARP(packet)`. -/
  | handlePacketFromARP (packet : cMessage)
  /-- A call `handleIncomingARPPacket(packet, fromIE)`. -/
  | handleIncomingARPPacket (packet : cMessage) (fromIE : Option InterfaceEntry)
  /-- A call `handleIncomingDatagram(datagram, fromIE)`. -/
  | handleIncomingDatagram (datagram : IPv4Datagram) (fromIE : Option InterfaceEntry)
  /-- A call `cancelService()` of the base class. -/
  | cancelService
  /-- A call `queue.clear()`. -/
  | queueClear
deriving DecidableEq, Repr

/-- How a modelled call ended. -/
inductive Status where
  /-- The call returned. -/
  | returned
  /-- The loop was still running when the fuel ran out. -/
  | outOfFuel
  /-- The call executed an integer division by zero. -/
  | divisionByZero
  /-- An `ASSERT` of the call failed. -/
  | assertionFailed
  /-- The call threw a `cRuntimeError`. -/
  | runtimeError
  /-- The call dereferenced a null pointer. -/
  | nullPointer
deriving DecidableEq, Repr

/-- Modelled from the spec: the class `ProtocolMapping` is declared outside the sources; by
4.D it records for a protocol number the egress slot index registered for it, one slot per
protocol. -/
abbrev ProtocolMapping := List (Int × Int)

/-- Modelled from the spec: `ProtocolMapping::addProtocolMapping(protocol, gateIndex)`; by
4.D a registration records the mapping and replaces a prior mapping of the same
protocol. -/
def ProtocolMapping.addProtocolMapping (mapping : ProtocolMapping) (protocol gateIndex : Int) :
    ProtocolMapping :=
  (protocol, gateIndex) :: mapping.filter fun e => e.1 != protocol

/-- Modelled from the spec: `ProtocolMapping::findOutputGateForProtocol(protocol)`; by 4.D
the lookup gives the slot index registered for the protocol, if any. `IPv4.cc` tests the
result with `gateindex >= 0`, so "none" is `-1`. -/
def ProtocolMapping.findOutputGateForProtocol (mapping : ProtocolMapping) (protocol : Int) :
    Int :=
  match mapping.find? fun e => e.1 == protocol with
  | some e => e.2
  | none => -1

/-- Member variables of the `IPv4` module that the modelled functions read or write. -/
structure State where
  numMulticast : Int
  numLocalDeliver : Int
  numDropped : Int
  numUnroutable : Int
  numForwarded : Int
  manetRouting : Bool
  curFragmentId : Int
  defaultTimeToLive : Int
  defaultMCTimeToLive : Int
  isUp : Bool
  forceBroadcast : Bool
  lastCheckTime : Int
  fragmentTimeoutTime : Int
  mapping : ProtocolMapping
deriving DecidableEq, Repr

/-- The result of a modelled call: the module state afterwards, the trace of outgoing
calls, and how the call ended. -/
structure Result where
  state : State
  events : List Event
  status : Status
deriving DecidableEq, Repr

/-! ## `IPv4::fragmentAndSend` -/

/-- The `for (int offset=0; offset < payloadLength; offset+=fragmentLength)` loop of
`fragmentAndSend` (lines 736-755), started at `offset` and run for at most `fuel`
iterations. Returns the `sendDatagramToOutput` calls made and whether the loop exited. -/
def fragmentLoop (datagram : IPv4Datagram) (ie : InterfaceEntry) (nextHopAddr : IPv4Address)
    (headerLength payloadLength fragmentLength offsetBase : Int) (fragMsgName : String) :
    Nat → Int → List Event × Bool
  | 0, offset => ([], decide (¬ offset < payloadLength))
  | fuel + 1, offset =>
    if offset < payloadLength then
      let lastFragment : Bool := decide (offset + fragmentLength ≥ payloadLength)
      let thisFragmentLength : Int :=
        if lastFragment then payloadLength - offset else fragmentLength
      let fragment : IPv4Datagram := datagram.dup
      let fragment : IPv4Datagram := { fragment with name := fragMsgName }
      let fragment : IPv4Datagram :=
        if !lastFragment then { fragment with moreFragments := true } else fragment
      let fragment : IPv4Datagram :=
        { fragment with byteLength := headerLength + thisFragmentLength }
      let fragment : IPv4Datagram :=
        { fragment with fragmentOffset := offsetBase + offset }
      let rest := fragmentLoop datagram ie nextHopAddr headerLength payloadLength
        fragmentLength offsetBase fragMsgName fuel (offset + fragmentLength)
      (Event.sendDatagramToOutput fragment ie nextHopAddr :: rest.1, rest.2)
    else ([], true)

/-- The function `IPv4::fragmentAndSend(datagram, ie, nextHopAddr)` (lines 677-758). -/
def fragmentAndSend (fuel : Nat) (st : State) (datagram : IPv4Datagram) (ie : InterfaceEntry)
    (nextHopAddr : IPv4Address) : Result :=
  -- fill in source address
  let datagram : IPv4Datagram :=
    if isUnspecified datagram.srcAddress then { datagram with srcAddress := ie.ipAddress }
    else datagram
  -- hop counter decrement; but not if it will be locally delivered
  let datagram : IPv4Datagram :=
    if !ie.isLoopback then { datagram with timeToLive := datagram.timeToLive - 1 }
    else datagram
  -- hop counter check
  if datagram.timeToLive < 0 then
    { state := { st with numDropped := st.numDropped + 1 },
      events := [Event.sendErrorMessage datagram ICMPType.ICMP_TIME_EXCEEDED 0],
      status := Status.returned }
  else
    let mtu := ie.mtu
    -- check if datagram does not require fragmentation
    if datagram.byteLength ≤ mtu then
      { state := st, events := [Event.sendDatagramToOutput datagram ie nextHopAddr],
        status := Status.returned }
    -- if "don't fragment" bit is set, throw datagram away and send ICMP error message
    else if datagram.dontFragment then
      { state := { st with numDropped := st.numDropped + 1 },
        events := [Event.sendErrorMessage datagram ICMPType.ICMP_DESTINATION_UNREACHABLE
          ICMP_FRAGMENTATION_ERROR_CODE],
        status := Status.returned }
    -- optimization: do not fragment and reassemble on the loopback interface
    else if ie.isLoopback then
      { state := st, events := [Event.sendDatagramToOutput datagram ie nextHopAddr],
        status := Status.returned }
    else
      let headerLength := datagram.headerLength
      -- int payloadLength = datagram->getByteLength() - headerLength;
      let payloadLength := narrowInt (datagram.byteLength - headerLength)
      let fragmentLength := Int.tdiv (mtu - headerLength) 8 * 8
      let offsetBase := datagram.fragmentOffset
      -- int noOfFragments = (payloadLength + fragmentLength - 1) / fragmentLength;
      if fragmentLength = 0 then
        { state := st, events := [], status := Status.divisionByZero }
      else
        let fragMsgName := datagram.name ++ "-frag"
        let r := fragmentLoop datagram ie nextHopAddr headerLength payloadLength
          fragmentLength offsetBase fragMsgName fuel 0
        { state := st, events := r.1,
          status := if r.2 then Status.returned else Status.outOfFuel }

/-! ## `IPv4::routeUnicastPacket` and `IPv4::handleIncomingDatagram` -/

/-- The function `IPv4::routeUnicastPacket(datagram, destIE, destNextHopAddr)`
(lines 435-490); `withManet` is the compile-time switch `WITH_MANET`. -/
def routeUnicastPacket (withManet : Bool) (rt : IIPv4RoutingTable) (fuel : Nat) (st : State)
    (datagram : IPv4Datagram) (destIE : Option InterfaceEntry)
    (destNextHopAddr : IPv4Address) : Result :=
  let destAddr := datagram.destAddress
  -- if output port was explicitly requested, use that, otherwise use IPv4 routing
  let choice : Option InterfaceEntry × IPv4Address :=
    match destIE with
    | some ie =>
      if st.manetRouting && !isUnspecified destNextHopAddr then
        (some ie, destNextHopAddr)
      else if ie.isBroadcast then
        match rt.findBestMatchingRoute destAddr with
        | some re =>
          if re.interface.map (fun i => i.interfaceId) = some ie.interfaceId then
            (some ie, re.gateway)
          else (some ie, UNSPECIFIED_ADDRESS)
        | none => (some ie, UNSPECIFIED_ADDRESS)
      else (some ie, UNSPECIFIED_ADDRESS)
    | none =>
      match rt.findBestMatchingRoute destAddr with
      | some re => (re.interface, re.gateway)
      | none => (none, UNSPECIFIED_ADDRESS)
  match choice.1 with
  | none =>
    -- no route found
    if withManet && st.manetRouting then
      { state := st, events := [Event.sendNoRouteMessageToManet datagram],
        status := Status.returned }
    else
      { state := { st with numUnroutable := st.numUnroutable + 1 },
        events := [Event.sendErrorMessage datagram ICMPType.ICMP_DESTINATION_UNREACHABLE 0],
        status := Status.returned }
  | some ie =>
    -- fragment and send
    fragmentAndSend fuel { st with numForwarded := st.numForwarded + 1 } datagram ie choice.2

/-- Sequencing of two modelled calls: the second runs from the state left by the first,
if the first returned. -/
def Result.andThen (r : Result) (k : State → Result) : Result :=
  match r.status with
  | Status.returned =>
    let r2 := k r.state
    { state := r2.state, events := r.events ++ r2.events, status := r2.status }
  | _ => r

/-- The function `IPv4::handleIncomingDatagram(datagram, fromIE)` (lines 169-258).
`headerHit` is the outcome of the floating-point test
`dblrand() <= relativeHeaderLength`, consulted only when the datagram has a bit error. -/
def handleIncomingDatagram (withManet : Bool) (prot : IPProtocolId) (rt : IIPv4RoutingTable)
    (headerHit : Bool) (fuel : Nat) (st : State) (datagram : IPv4Datagram)
    (fromIE : InterfaceEntry) : Result :=
  -- check for header biterror
  if datagram.hasBitError && headerHit then
    { state := st,
      events := [Event.sendErrorMessage datagram ICMPType.ICMP_PARAMETER_PROBLEM 0],
      status := Status.returned }
  else
    -- remove control info, but keep the one on the last fragment of DSR and MANET datagrams
    let protocol := datagram.transportProtocol
    let isManetDatagram : Bool :=
      protocol == prot.IP_PROT_MANET || protocol == prot.IP_PROT_DSR
    let datagram : IPv4Datagram :=
      if !isManetDatagram || datagram.moreFragments then
        { datagram with hasControlInfo := false }
      else datagram
    -- route packet
    let destAddr := datagram.destAddress
    if fromIE.isLoopback then
      { state := st, events := [Event.reassembleAndDeliver datagram],
        status := Status.returned }
    else if isMulticast destAddr then
      -- check for local delivery
      let localCopy : List Event :=
        if fromIE.multicastGroups.contains destAddr ||
            (rt.isMulticastForwardingEnabled &&
              datagram.transportProtocol == prot.IP_PROT_IGMP) then
          [Event.reassembleAndDeliver datagram.dup]
        else []
      -- don't forward if IP forwarding is off, or if dest address is link-scope
      if !rt.isIPForwardingEnabled || isLinkLocalMulticast destAddr then
        { state := st, events := localCopy, status := Status.returned }
      else if datagram.timeToLive = 0 then
        { state := st, events := localCopy, status := Status.returned }
      else
        { state := st, events := localCopy ++ [Event.forwardMulticastPacket datagram fromIE],
          status := Status.returned }
    else
      let manet : List Event :=
        if withManet && st.manetRouting then [Event.sendRouteUpdateMessageToManet datagram]
        else []
      let r0 : Result := { state := st, events := manet, status := Status.returned }
      -- check for local delivery; also accept packets coming from the interfaces that
      -- do not yet have an IP address assigned
      if rt.isLocalAddress destAddr || isUnspecified fromIE.ipAddress then
        r0.andThen fun s =>
          { state := s, events := [Event.reassembleAndDeliver datagram],
            status := Status.returned }
      else
        let broadcastIE : Option InterfaceEntry :=
          if isLimitedBroadcastAddress destAddr then none
          else rt.findInterfaceByLocalBroadcastAddress destAddr
        if isLimitedBroadcastAddress destAddr || broadcastIE.isSome then
          -- broadcast datagram on the target subnet if we are a router
          let r1 : Result :=
            match broadcastIE with
            | some bie =>
              if fromIE.interfaceId ≠ bie.interfaceId && rt.isIPForwardingEnabled then
                r0.andThen fun s => fragmentAndSend fuel s datagram.dup bie ALLONES_ADDRESS
              else r0
            | none => r0
          r1.andThen fun s =>
            { state := s, events := [Event.reassembleAndDeliver datagram],
              status := Status.returned }
        else if !rt.isIPForwardingEnabled then
          r0.andThen fun s =>
            { state := { s with numDropped := s.numDropped + 1 }, events := [],
              status := Status.returned }
        else
          r0.andThen fun s =>
            routeUnicastPacket withManet rt fuel s datagram none UNSPECIFIED_ADDRESS

/-! ## `IPv4::forwardMulticastPacket` -/

/-- The `for` loop of `forwardMulticastPacket` over the route's children (lines 559-575),
from child list `children` on. -/
def forwardToChildren (fuel : Nat) (datagram : IPv4Datagram) (fromIE : InterfaceEntry)
    (destAddr : IPv4Address) : List ChildInterface → State → Result
  | [], st => { state := st, events := [], status := Status.returned }
  | child :: children, st =>
    let destIE := child.interface
    if destIE.interfaceId ≠ fromIE.interfaceId then
      let ttlThreshold := destIE.multicastTtlThreshold
      if datagram.timeToLive ≤ ttlThreshold then
        -- not forwarding (ttl treshold reached)
        forwardToChildren fuel datagram fromIE destAddr children st
      else if child.isLeaf && !destIE.multicastListeners.contains destAddr then
        -- not forwarding (no listeners)
        forwardToChildren fuel datagram fromIE destAddr children st
      else
        (fragmentAndSend fuel st datagram.dup destIE destAddr).andThen
          (forwardToChildren fuel datagram fromIE destAddr children)
    else forwardToChildren fuel datagram fromIE destAddr children st

/-- The function `IPv4::getShortestPathInterfaceToSource(datagram)` (lines 518-521). -/
def getShortestPathInterfaceToSource (rt : IIPv4RoutingTable) (datagram : IPv4Datagram) :
    Option InterfaceEntry :=
  rt.getInterfaceForDestAddr datagram.srcAddress

/-- The function `IPv4::forwardMulticastPacket(datagram, fromIE)` (lines 523-579). The
argument `fromIE` is a non-null interface entry, so `ASSERT(fromIE)` holds. -/
def forwardMulticastPacket (rt : IIPv4RoutingTable) (fuel : Nat) (st : State)
    (datagram : IPv4Datagram) (fromIE : InterfaceEntry) : Result :=
  let origin := datagram.srcAddress
  let destAddr := datagram.destAddress
  -- ASSERT(destAddr.isMulticast());
  if !isMulticast destAddr then
    { state := st, events := [], status := Status.assertionFailed }
  else
    let st : State := { st with numMulticast := st.numMulticast + 1 }
    match rt.findBestMatchingMulticastRoute origin destAddr with
    | none =>
      -- no route, packet dropped
      { state := { st with numUnroutable := st.numUnroutable + 1 }, events := [],
        status := Status.returned }
    | some route =>
      if route.parent.isSome &&
          route.parent.map (fun i => i.interfaceId) ≠ some fromIE.interfaceId then
        -- did not arrive on parent interface, packet dropped
        { state := { st with numDropped := st.numDropped + 1 }, events := [],
          status := Status.returned }
      -- backward compatible: no parent means shortest path interface to source
      else if route.parent.isNone &&
          (getShortestPathInterfaceToSource rt datagram).map (fun i => i.interfaceId) ≠
            some fromIE.interfaceId then
        -- did not arrive on shortest path, packet dropped
        { state := { st with numDropped := st.numDropped + 1 }, events := [],
          status := Status.returned }
      else
        -- copy original datagram for multiple destinations
        forwardToChildren fuel datagram fromIE destAddr route.children
          { st with numForwarded := st.numForwarded + 1 }

/-! ## `IPv4::encapsulate` -/

/-- The function `IPv4::createIPv4Datagram(name)` (lines 809-812).
Modelled from the spec: the constructor of `IPv4Datagram` is generated code outside the
sources; the new datagram has the given name, a header of the minimum header size
`IP_HEADER_BYTES`, no payload, no control info, no bit error, and every other header field
zero or clear. -/
def createIPv4Datagram (IP_HEADER_BYTES : Int) (name : String) : IPv4Datagram :=
  { name := name, srcAddress := UNSPECIFIED_ADDRESS, destAddress := UNSPECIFIED_ADDRESS,
    typeOfService := 0, identification := 0, moreFragments := false, dontFragment := false,
    fragmentOffset := 0, timeToLive := 0, transportProtocol := 0,
    headerLength := IP_HEADER_BYTES, byteLength := 0, hasBitError := false,
    hasControlInfo := false, encapsulatedPacket := none }

/-- The function `IPv4::encapsulate(transportPacket, controlInfo)` (lines 760-807).
`IP_HEADER_BYTES` is a constant declared outside the sources and is a parameter. The
result is the module state afterwards and the datagram, or `none` when the `cRuntimeError`
of line 778 is thrown. -/
def encapsulate (IP_HEADER_BYTES : Int) (rt : IIPv4RoutingTable) (st : State)
    (transportPacket : cPacket) (controlInfo : IPv4ControlInfo) :
    State × Option IPv4Datagram :=
  let datagram := createIPv4Datagram IP_HEADER_BYTES transportPacket.name
  let datagram : IPv4Datagram := { datagram with byteLength := IP_HEADER_BYTES }
  let datagram : IPv4Datagram :=
    { datagram with byteLength := datagram.byteLength + transportPacket.byteLength,
                    encapsulatedPacket := some transportPacket }
  -- set source and destination address
  let dest := controlInfo.destAddr
  let datagram : IPv4Datagram := { datagram with destAddress := dest }
  let src := controlInfo.srcAddr
  -- when source address was given, use it; otherwise it'll get the address
  -- of the outgoing interface after routing
  if !isUnspecified src && (rt.getInterfaceByAddress src).isNone then
    -- if interface parameter does not match existing interface, do not send datagram
    (st, none)
  else
    let datagram : IPv4Datagram :=
      if !isUnspecified src then { datagram with srcAddress := src } else datagram
    -- set other fields
    let datagram : IPv4Datagram :=
      { datagram with typeOfService := controlInfo.typeOfService }
    let datagram : IPv4Datagram := { datagram with identification := st.curFragmentId }
    let st : State := { st with curFragmentId := st.curFragmentId + 1 }
    let datagram : IPv4Datagram :=
      { datagram with moreFragments := false, dontFragment := controlInfo.dontFragment,
                      fragmentOffset := 0 }
    -- short ttl;
    let ttl : Int :=
      if controlInfo.timeToLive > 0 then narrowShort controlInfo.timeToLive
      else if isLinkLocalMulticast datagram.destAddress then narrowShort 1
      else if isMulticast datagram.destAddress then narrowShort st.defaultMCTimeToLive
      else narrowShort st.defaultTimeToLive
    let datagram : IPv4Datagram := { datagram with timeToLive := ttl }
    let datagram : IPv4Datagram :=
      { datagram with transportProtocol := controlInfo.protocol }
    (st, some datagram)

end IPv4

namespace LocalDeliver

/-! ## Data model of `LocalDeliver.cc` -/

/-- Simulation time (`simtime_t`), in seconds. -/
abbrev simtime_t := Int

/-- Fields of `IPDatagram` that `LocalDeliver.cc` reads or writes. `length` is the message
length in bits, `headerLength` is in bytes, and `encapsulatedLength` is
`encapsulatedMsg()->length()`, in bits. -/
structure IPDatagram where
  srcAddress : Nat
  destAddress : Nat
  fragmentId : Int
  fragmentOffset : Int
  moreFragments : Bool
  length : Int
  headerLength : Int
  transportProtocol : Int
  diffServCodePoint : Int
  encapsulatedLength : Int
deriving DecidableEq, Repr

/-- One slot of the array `fragmentBuf` (`FragmentationBufferEntry`). -/
structure FragmentationBufferEntry where
  isFree : Bool
  fragmentId : Int
  fragmentOffset : Int
  moreFragments : Bool
  length : Int
  timeout : simtime_t
deriving DecidableEq, Repr

/-- The slots `fragmentBuf[0 .. fragmentBufSize-1]`; `fragmentBufSize` is the length of the
list. Slots at and beyond `fragmentBufSize` are never read by the module. The capacity
`FRAGMENT_BUFFER_MAXIMUM` of the array is declared outside the sources and the module
never tests it, so the list is unbounded. -/
abbrev FragmentBuf := List FragmentationBufferEntry

/-- Member variables of the `LocalDeliver` module. -/
structure State where
  fragmentTimeoutTime : simtime_t
  fragmentBuf : FragmentBuf
  lastCheckTime : simtime_t
deriving DecidableEq, Repr

/-- The state left by `LocalDeliver::initialize` (lines 31-43). -/
def initialState (fragmentTimeout : simtime_t) : State :=
  { fragmentTimeoutTime := fragmentTimeout, fragmentBuf := [], lastCheckTime := 0 }

/-- The function `LocalDeliver::eraseTimeoutFragmentsFromBuf` (lines 137-157), with
`curTime = simTime()`. -/
def eraseTimeoutFragmentsFromBuf (curTime : simtime_t) (fragmentBuf : FragmentBuf) :
    FragmentBuf :=
  fragmentBuf.map fun e =>
    if !e.isFree && decide (curTime > e.timeout) then { e with isFree := true } else e

/-- The slot search and assignment of `insertInFragmentBuf` (lines 164-177): the entry
goes into the first free slot, or is appended when no slot is free. -/
def insertEntry (e : FragmentationBufferEntry) : FragmentBuf → FragmentBuf
  | [] => [e]
  | x :: xs => if x.isFree == true then e :: xs else x :: insertEntry e xs

/-- The entry that `insertInFragmentBuf` writes for datagram `d` (lines 177-182). -/
def entryOf (simTime fragmentTimeoutTime : simtime_t) (d : IPDatagram) :
    FragmentationBufferEntry :=
  { isFree := false,
    fragmentId := d.fragmentId,
    fragmentOffset := d.fragmentOffset,
    moreFragments := d.moreFragments,
    length := Int.tdiv d.length 8 - d.headerLength,
    timeout := simTime + fragmentTimeoutTime }

/-- The function `LocalDeliver::insertInFragmentBuf(d)` (lines 159-184). -/
def insertInFragmentBuf (simTime fragmentTimeoutTime : simtime_t) (fragmentBuf : FragmentBuf)
    (d : IPDatagram) : FragmentBuf :=
  insertEntry (entryOf simTime fragmentTimeoutTime d) fragmentBuf

/-- One execution of the inner `for` loop of `datagramComplete` (lines 195-210) over the
remaining slots, from the current `nextFragmentOffset` and `newFragmentFound`.
`none` is the `return true` of line 206; otherwise the values of the two variables after
the last slot. -/
def scanBuf (fragmentId : Int) : FragmentBuf → Int → Bool → Option (Int × Bool)
  | [], nextFragmentOffset, newFragmentFound => some (nextFragmentOffset, newFragmentFound)
  | e :: es, nextFragmentOffset, newFragmentFound =>
    if !e.isFree && fragmentId == e.fragmentId && nextFragmentOffset == e.fragmentOffset then
      -- Datagram complete if last Fragment found
      if !e.moreFragments then none
      else scanBuf fragmentId es (nextFragmentOffset + e.length) true
    else scanBuf fragmentId es nextFragmentOffset newFragmentFound

/-- The `while(newFragmentFound)` loop of `datagramComplete` (lines 192-214), entered with
`newFragmentFound = true` and the given `nextFragmentOffset`, for at most `fuel` passes.
`none`: the loop was still running when the fuel ran out. -/
def completeLoop (fragmentBuf : FragmentBuf) (fragmentId : Int) : Nat → Int → Option Bool
  | 0, _ => none
  | fuel + 1, nextFragmentOffset =>
    match scanBuf fragmentId fragmentBuf nextFragmentOffset false with
    | none => some true
    | some (next, true) => completeLoop fragmentBuf fragmentId fuel next
    | some (_, false) => some false

/-- The function `LocalDeliver::datagramComplete(fragmentId)` (lines 186-215). -/
def datagramComplete (fuel : Nat) (fragmentBuf : FragmentBuf) (fragmentId : Int) :
    Option Bool :=
  completeLoop fragmentBuf fragmentId fuel 0

/-- The function `LocalDeliver::getPayloadSizeFromBuf(fragmentId)` (lines 217-231). -/
def getPayloadSizeFromBuf (fragmentBuf : FragmentBuf) (fragmentId : Int) : Int :=
  fragmentBuf.foldl
    (fun payload e =>
      if !e.isFree && e.fragmentId == fragmentId then payload + e.length else payload) 0

/-- The function `LocalDeliver::removeFragmentFromBuf(fragmentId)` (lines 233-246). -/
def removeFragmentFromBuf (fragmentBuf : FragmentBuf) (fragmentId : Int) : FragmentBuf :=
  fragmentBuf.map fun e =>
    if !e.isFree && e.fragmentId == fragmentId then
      { e with fragmentId := -1, isFree := true }
    else e

/-- The defragmentation block of `handleMessage` (lines 57-79) at time `simTime`.
Outer `none`: `datagramComplete` did not return within `fuel` passes. Otherwise the buffer
afterwards and the datagram that goes on to decapsulation, if any (`none`: the fragment was
stored and the handler returned at line 65). -/
def defragment (fuel : Nat) (fragmentTimeoutTime simTime : simtime_t)
    (fragmentBuf : FragmentBuf) (datagram : IPDatagram) :
    Option (FragmentBuf × Option IPDatagram) :=
  -- skip Degragmentation if single Fragment Datagram
  if datagram.fragmentOffset ≠ 0 || datagram.moreFragments then
    let buf := insertInFragmentBuf simTime fragmentTimeoutTime fragmentBuf datagram
    match datagramComplete fuel buf datagram.fragmentId with
    | none => none
    | some false => some (buf, none)
    | some true =>
      let datagram : IPDatagram :=
        { datagram with length := datagram.headerLength * 8 + datagram.encapsulatedLength }
      some (removeFragmentFromBuf buf datagram.fragmentId, some datagram)
  else some (fragmentBuf, some datagram)

/-- Protocol numbers tested by the `switch` of `handleMessage`; the enum is declared outside
the sources, so its values are parameters of the model. -/
structure IPProtocolFieldId where
  IP_PROT_ICMP : Int
  IP_PROT_IGMP : Int
  IP_PROT_IP : Int
  IP_PROT_TCP : Int
  IP_PROT_UDP : Int
  IP_PROT_RSVP : Int
deriving DecidableEq, Repr

/-- The control info that `decapsulateIP` attaches to the decapsulated packet. -/
structure IPControlInfo where
  protocol : Int
  srcAddr : Nat
  destAddr : Nat
  diffServCodePoint : Int
deriving DecidableEq, Repr

/-- Output gates of the module. -/
inductive Gate where
  | ICMPOut
  | multicastOut
  | preRoutingOut
  | transportOut (index : Nat)
deriving DecidableEq, Repr

/-- What a call of `handleMessage` did with the message. -/
inductive Action where
  /-- The fragment was stored and the handler returned (line 65). -/
  | stored
  /-- The packet decapsulated from `datagram` was sent on `gate` with `controlInfo`. -/
  | send (gate : Gate) (datagram : IPDatagram) (controlInfo : IPControlInfo)
  /-- The call `error("Unknown transport protocol number ...")` of line 108. -/
  | error (protocol : Int)
deriving DecidableEq, Repr

/-- The function `LocalDeliver::decapsulateIP(datagram)` (lines 117-130): the control info
set on the decapsulated packet. -/
def decapsulateIP (datagram : IPDatagram) : IPControlInfo :=
  { protocol := datagram.transportProtocol,
    srcAddr := datagram.srcAddress,
    destAddr := datagram.destAddress,
    diffServCodePoint := datagram.diffServCodePoint }

/-- The function `LocalDeliver::handleMessage(msg)` (lines 46-110) at time `simTime`.
`none`: `datagramComplete` did not return within `fuel` passes. -/
def handleMessage (prot : IPProtocolFieldId) (fuel : Nat) (simTime : simtime_t) (st : State)
    (datagram : IPDatagram) : Option (State × Action) :=
  -- erase timed out fragments in fragmentation buffer; check every 1 second max
  let st : State :=
    if simTime ≥ st.lastCheckTime + 1 then
      { st with lastCheckTime := simTime,
                fragmentBuf := eraseTimeoutFragmentsFromBuf simTime st.fragmentBuf }
    else st
  match defragment fuel st.fragmentTimeoutTime simTime st.fragmentBuf datagram with
  | none => none
  | some (buf, none) => some ({ st with fragmentBuf := buf }, Action.stored)
  | some (buf, some datagram) =>
    let st : State := { st with fragmentBuf := buf }
    let protocol := datagram.transportProtocol
    let controlInfo := decapsulateIP datagram
    if protocol = prot.IP_PROT_ICMP then
      some (st, Action.send Gate.ICMPOut datagram controlInfo)
    else if protocol = prot.IP_PROT_IGMP then
      some (st, Action.send Gate.multicastOut datagram controlInfo)
    else if protocol = prot.IP_PROT_IP then
      some (st, Action.send Gate.preRoutingOut datagram controlInfo)
    else if protocol = prot.IP_PROT_TCP then
      some (st, Action.send (Gate.transportOut 0) datagram controlInfo)
    else if protocol = prot.IP_PROT_UDP then
      some (st, Action.send (Gate.transportOut 1) datagram controlInfo)
    else if protocol = prot.IP_PROT_RSVP then
      some (st, Action.send (Gate.transportOut 3) datagram controlInfo)
    else some (st, Action.error protocol)

/-- A sequence of fragment arrivals `(simTime, datagram)` pushed through the
defragmentation block one after the other. `none`: some completion check did not return
within `fuel` passes. Otherwise the final buffer and, per arrival, the datagram
that went on to decapsulation (`none` for a stored fragment). -/
def defragmentAll (fuel : Nat) (fragmentTimeoutTime : simtime_t) :
    FragmentBuf → List (simtime_t × IPDatagram) → Option (FragmentBuf × List (Option IPDatagram))
  | buf, [] => some (buf, [])
  | buf, (t, d) :: rest =>
    match defragment fuel fragmentTimeoutTime t buf d with
    | none => none
    | some (buf1, out) =>
      match defragmentAll fuel fragmentTimeoutTime buf1 rest with
      | none => none
      | some (buf2, outs) => some (buf2, out :: outs)

end LocalDeliver

/-! ## Auxiliary definitions used in the statements -/

namespace IPv4

/-- The fragment that the loop body of `fragmentAndSend` builds at `offset`
(lines 738-752). -/
def fragmentAt (datagram : IPv4Datagram)
    (headerLength payloadLength fragmentLength offsetBase : Int) (fragMsgName : String)
    (offset : Int) : IPv4Datagram :=
  { datagram.dup with
    name := fragMsgName,
    moreFragments :=
      if offset + fragmentLength ≥ payloadLength then datagram.moreFragments else true,
    byteLength := headerLength +
      (if offset + fragmentLength ≥ payloadLength then payloadLength - offset
       else fragmentLength),
    fragmentOffset := offsetBase + offset }

/-- Successive calls `fragmentAndSend(datagram->dup(), ie, nextHopAddr)` for the given
interfaces, in list order; a call that does not return ends the sequence. -/
def fragmentAndSendAll (fuel : Nat) (datagram : IPv4Datagram) (nextHopAddr : IPv4Address) :
    List InterfaceEntry → State → Result
  | [], st => { state := st, events := [], status := Status.returned }
  | ie :: rest, st =>
    (fragmentAndSend fuel st datagram.dup ie nextHopAddr).andThen
      (fragmentAndSendAll fuel datagram nextHopAddr rest)

/-- Follows the spec's words (4.G step 3): a child is forwarded to unless its interface
equals `fromIE`, or `datagram.ttl ≤` the child interface's multicast TTL threshold, or the
child is marked leaf and its interface has no listener for the group. -/
def specForwardsTo (datagram : IPv4Datagram) (fromIE : InterfaceEntry) (group : IPv4Address)
    (child : ChildInterface) : Bool :=
  decide (child.interface.interfaceId ≠ fromIE.interfaceId) &&
    decide (datagram.timeToLive > child.interface.multicastTtlThreshold) &&
    (!child.isLeaf || child.interface.multicastListeners.contains group)

/-- The datagram as `fragmentAndSend` holds it after the source-address fill-in and the
hop-counter decrement (lines 679-685). -/
def prepared (datagram : IPv4Datagram) (ie : InterfaceEntry) : IPv4Datagram :=
  let datagram : IPv4Datagram :=
    if isUnspecified datagram.srcAddress then { datagram with srcAddress := ie.ipAddress }
    else datagram
  if !ie.isLoopback then { datagram with timeToLive := datagram.timeToLive - 1 }
  else datagram

end IPv4

namespace LocalDeliver

/-- The slot `e` of the buffer is occupied and holds a fragment of datagram `fragmentId`. -/
def Stored (fragmentBuf : FragmentBuf) (fragmentId : Int) (e : FragmentationBufferEntry) :
    Prop :=
  e ∈ fragmentBuf ∧ e.isFree = false ∧ e.fragmentId = fragmentId

instance (fragmentBuf : FragmentBuf) (fragmentId : Int) (e : FragmentationBufferEntry) :
    Decidable (Stored fragmentBuf fragmentId e) := by
  unfold Stored; infer_instance

/-- The entries `f_0, ..., f_n` form a complete chain starting at offset `next`:
`f_0.fragmentOffset = next`, every following entry starts at the offset plus the length of
the one before it, moreFragments is set on `f_0, ..., f_{n-1}` and clear on `f_n`. -/
def IsChain : Int → List FragmentationBufferEntry → Prop
  | _, [] => False
  | next, [e] => e.fragmentOffset = next ∧ e.moreFragments = false
  | next, e :: e' :: rest =>
    e.fragmentOffset = next ∧ e.moreFragments = true ∧ IsChain (next + e.length) (e' :: rest)

/-- The entries form a chain segment from offset `next` to offset `target`, with
moreFragments set on each of them. -/
def IsPath : Int → List FragmentationBufferEntry → Int → Prop
  | next, [], target => next = target
  | next, e :: rest, target =>
    e.fragmentOffset = next ∧ e.moreFragments = true ∧ IsPath (next + e.length) rest target


/-- The occupied slots of datagram `fragmentId` contain a complete chain starting at offset
`next`. -/
def Complete (fragmentBuf : FragmentBuf) (fragmentId : Int) (next : Int) : Prop :=
  ∃ chain, IsChain next chain ∧ ∀ e ∈ chain, Stored fragmentBuf fragmentId e

/-- Occupied slots of datagram `fragmentId` that start at the same offset agree in length
and in the moreFragments flag. -/
def Consistent (fragmentBuf : FragmentBuf) (fragmentId : Int) : Prop :=
  ∀ e1 e2, Stored fragmentBuf fragmentId e1 → Stored fragmentBuf fragmentId e2 →
    e1.fragmentOffset = e2.fragmentOffset →
    e1.length = e2.length ∧ e1.moreFragments = e2.moreFragments

/-- Every occupied slot of datagram `fragmentId` has a positive length. -/
def Positive (fragmentBuf : FragmentBuf) (fragmentId : Int) : Prop :=
  ∀ e, Stored fragmentBuf fragmentId e → 0 < e.length

/-- The slot test of line 197-199 together with a lower bound on the offset: the slots
that a pass starting at `next` or later can still match. -/
def ahead (fragmentId : Int) (next : Int) (e : FragmentationBufferEntry) : Bool :=
  !e.isFree && fragmentId == e.fragmentId && decide (next ≤ e.fragmentOffset)


/-- The payload length in bytes that `insertInFragmentBuf` records for a datagram
(line 181). -/
def payloadBytes (d : IPDatagram) : Int := Int.tdiv d.length 8 - d.headerLength

/-- The fragments tile a byte range exactly from offset `next` on: the first starts at
`next`, each next one starts where the previous one ends, all payload lengths are
positive, and moreFragments is clear on the final fragment only. -/
def tiles : Int → List IPDatagram → Bool
  | _, [] => false
  | next, [d] =>
    d.fragmentOffset == next && decide (0 < payloadBytes d) && !d.moreFragments
  | next, d :: d' :: rest =>
    d.fragmentOffset == next && decide (0 < payloadBytes d) && d.moreFragments &&
      tiles (next + payloadBytes d) (d' :: rest)

/-- The arrivals that belong to datagram `fragmentId`. -/
def arrivalsOf (fragmentId : Int) (arrivals : List (simtime_t × IPDatagram)) :
    List (simtime_t × IPDatagram) :=
  arrivals.filter fun p => p.2.fragmentId == fragmentId

/-- The per-arrival results for the arrivals of datagram `fragmentId`. -/
def outputsFor (fragmentId : Int) (arrivals : List (simtime_t × IPDatagram))
    (outs : List (Option IPDatagram)) : List (Option IPDatagram) :=
  ((arrivals.zip outs).filter fun p => p.1.2.fragmentId == fragmentId).map Prod.snd

/-- The datagram that leaves the defragmentation block when `d` completes its datagram:
a fragment has its length set to `headerLength*8 + encapsulatedMsg()->length()` (line 68),
an unfragmented datagram passes unchanged. -/
def delivered (d : IPDatagram) : IPDatagram :=
  if d.fragmentOffset ≠ 0 || d.moreFragments then
    { d with length := d.headerLength * 8 + d.encapsulatedLength }
  else d

/-- The stored fragments of datagram `fragmentId` are exactly the entries written for the
arrivals `seen`. -/
def Holds (fragmentTimeoutTime : simtime_t) (fragmentBuf : FragmentBuf) (fragmentId : Int)
    (seen : List (simtime_t × IPDatagram)) : Prop :=
  ∀ x, Stored fragmentBuf fragmentId x ↔ ∃ p ∈ seen, x = entryOf p.1 fragmentTimeoutTime p.2

end LocalDeliver
namespace IPv4

/-! ## `IPv4::decapsulate` and `IPv4::reassembleAndDeliver` -/

/-- Modelled from the spec: the kernel's `cPacket::decapsulate()` is declared outside the
sources; by 4.A decapsulation releases the payload that encapsulation took, and the byte
length of a datagram is header length plus payload length, so the payload leaves with its
length. Returns the datagram afterwards and the released packet (`none` for `NULL`). -/
def IPv4Datagram.decapsulate (datagram : IPv4Datagram) : IPv4Datagram × Option cPacket :=
  match datagram.encapsulatedPacket with
  | none => (datagram, none)
  | some packet =>
    ({ datagram with byteLength := datagram.byteLength - packet.byteLength,
                     encapsulatedPacket := none }, some packet)

/-- The function `IPv4::decapsulate(datagram)` (lines 653-675). `fromIE` is the value of
`getSourceInterfaceFrom(datagram)` and `blank` the object that `new IPv4ControlInfo()`
makes (a generated constructor outside the sources). The result is the packet and the
control info attached to it, or `none` when `datagram->decapsulate()` gave `NULL`, which
line 672 dereferences. -/
def decapsulate (fromIE : Option InterfaceEntry) (blank : IPv4ControlInfo)
    (datagram : IPv4Datagram) : Option (cPacket × IPv4ControlInfo) :=
  -- decapsulate transport packet
  let r := datagram.decapsulate
  let datagram := r.1
  match r.2 with
  | none => none
  | some packet =>
    -- create and fill in control info
    let controlInfo : IPv4ControlInfo := blank
    let controlInfo : IPv4ControlInfo :=
      { controlInfo with protocol := datagram.transportProtocol }
    let controlInfo : IPv4ControlInfo := { controlInfo with srcAddr := datagram.srcAddress }
    let controlInfo : IPv4ControlInfo := { controlInfo with destAddr := datagram.destAddress }
    let controlInfo : IPv4ControlInfo :=
      { controlInfo with typeOfService := datagram.typeOfService }
    let controlInfo : IPv4ControlInfo :=
      { controlInfo with interfaceId :=
          match fromIE with
          | some ie => ie.interfaceId
          | none => -1 }
    let controlInfo : IPv4ControlInfo := { controlInfo with timeToLive := datagram.timeToLive }
    -- original IPv4 datagram might be needed in upper layers to send back ICMP error message
    let controlInfo : IPv4ControlInfo := { controlInfo with origDatagram := some datagram }
    -- attach control info
    some (packet, controlInfo)

/-- The reassembly step of `reassembleAndDeliver` (lines 588-608). `completed` is the value
that `fragbuf.addFragment(datagram, simTime())` returns; the class of `fragbuf` is declared
outside the sources. Returns the state, the calls made, and the datagram that goes on to
line 610 (`none` when the function returns at line 605). -/
def reassemble (simTime : Int) (completed : Option IPv4Datagram) (st : State)
    (datagram : IPv4Datagram) : State × List Event × Option IPv4Datagram :=
  if datagram.fragmentOffset ≠ 0 || datagram.moreFragments then
    -- erase timed out fragments in fragmentation buffer; check every 10 seconds max
    let purge : State × List Event :=
      if simTime ≥ st.lastCheckTime + 10 then
        ({ st with lastCheckTime := simTime },
         [Event.purgeStaleFragments (simTime - st.fragmentTimeoutTime)])
      else (st, [])
    (purge.1, purge.2 ++ [Event.addFragment datagram simTime], completed)
  else (st, [], some datagram)

/-- The function `IPv4::reassembleAndDeliver(datagram)` (lines 581-651).
`ICMP_DU_PROTOCOL_UNREACHABLE` is a constant declared outside the sources; `isPathOK i` is
the value of `gate("transportOut", i)->isPathOK()`; `simTime`, `completed` are as in
`reassemble`, `fromIE` and `blank` as in `decapsulate`. The cast of line 616 is part of the
recorded call `handleIncomingICMP`. -/
def reassembleAndDeliver (withManet : Bool) (prot : IPProtocolId)
    (ICMP_DU_PROTOCOL_UNREACHABLE : Int) (isPathOK : Int → Bool) (simTime : Int)
    (completed : Option IPv4Datagram) (fromIE : Option InterfaceEntry)
    (blank : IPv4ControlInfo) (st : State) (datagram : IPv4Datagram) : Result :=
  -- reassemble the packet (if fragmented)
  let r := reassemble simTime completed st datagram
  let st := r.1
  let calls := r.2.1
  match r.2.2 with
  | none =>
    -- no complete datagram yet
    { state := st, events := calls, status := Status.returned }
  | some datagram =>
    -- decapsulate and send on appropriate output gate
    let protocol := datagram.transportProtocol
    if protocol = prot.IP_PROT_ICMP then
      -- incoming ICMP packets are handled specially
      match decapsulate fromIE blank datagram with
      | none => { state := st, events := calls, status := Status.nullPointer }
      | some p =>
        { state := { st with numLocalDeliver := st.numLocalDeliver + 1 },
          events := calls ++ [Event.handleIncomingICMP p.1 p.2],
          status := Status.returned }
    else if protocol = prot.IP_PROT_IP then
      -- tunnelled IP packets are handled separately
      match decapsulate fromIE blank datagram with
      | none => { state := st, events := calls, status := Status.nullPointer }
      | some p =>
        { state := st,
          events := calls ++ [Event.send (PacketClass.other p.1)
            (some (ControlInfo.ipv4ControlInfo p.2)) Gate.preRoutingOut],
          status := Status.returned }
    else if protocol = prot.IP_PROT_DSR then
      if withManet then
        -- if the protocol is Dsr send directely the datagram to manet routing
        if st.manetRouting then
          { state := st, events := calls ++ [Event.sendToManet datagram],
            status := Status.returned }
        else { state := st, events := calls, status := Status.returned }
      else { state := st, events := calls, status := Status.runtimeError }
    else
      let gateindex := st.mapping.findOutputGateForProtocol protocol
      -- check if the transportOut port are connected, otherwise discard the packet
      if gateindex ≥ 0 && isPathOK gateindex then
        match decapsulate fromIE blank datagram with
        | none => { state := st, events := calls, status := Status.nullPointer }
        | some p =>
          { state := { st with numLocalDeliver := st.numLocalDeliver + 1 },
            events := calls ++ [Event.send (PacketClass.other p.1)
              (some (ControlInfo.ipv4ControlInfo p.2)) (Gate.transportOut gateindex)],
            status := Status.returned }
      else
        { state := st,
          events := calls ++ [Event.sendErrorMessage datagram
            ICMPType.ICMP_DESTINATION_UNREACHABLE ICMP_DU_PROTOCOL_UNREACHABLE],
          status := Status.returned }

/-! ## `IPv4::sendDatagramToOutput` -/

/-- Link-layer collaborators declared outside the sources: the constant `ETHERTYPE_IPv4`,
the function `MACAddress::makeMulticastAddress` and the ARP cache query
`arp->getDirectAddressResolution`. -/
structure LinkLayer where
  ETHERTYPE_IPv4 : Int
  makeMulticastAddress : IPv4Address → MACAddress
  getDirectAddressResolution : IPv4Address → MACAddress

/-- The function `IPv4::resolveNextHopMacAddress(packet, nextHopAddr, destIE)`
(lines 858-874). -/
def resolveNextHopMacAddress (link : LinkLayer) (nextHopAddr : IPv4Address)
    (destIE : InterfaceEntry) : MACAddress :=
  if isLimitedBroadcastAddress nextHopAddr ||
      nextHopAddr == destIE.networkBroadcastAddress then
    BROADCAST_ADDRESS
  else if isMulticast nextHopAddr then
    link.makeMulticastAddress nextHopAddr
  else link.getDirectAddressResolution nextHopAddr

/-- The function `IPv4::sendPacketToNIC(packet, ie)` (lines 890-894): the packet goes out
on gate `queueOutGateBaseId + ie->getNetworkLayerGateIndex()`. `controlInfo` is the control
info that the caller attached to the packet, if it attached one. -/
def sendPacketToNIC (packet : PacketClass) (controlInfo : Option ControlInfo)
    (ie : InterfaceEntry) : List Event :=
  [Event.send packet controlInfo (Gate.queueOut ie.networkLayerGateIndex)]

/-- The function `IPv4::sendPacketToIeee802NIC(packet, ie, macAddress, etherType)`
(lines 876-888) for a datagram. -/
def sendPacketToIeee802NIC (datagram : IPv4Datagram) (ie : InterfaceEntry)
    (macAddress : MACAddress) (etherType : Int) : List Event :=
  -- remove old control info, add control info with MAC address
  sendPacketToNIC (PacketClass.datagram { datagram with hasControlInfo := true })
    (some (ControlInfo.ieee802Ctrl macAddress etherType)) ie

/-- The function `IPv4::sendDatagramToOutput(datagram, ie, nextHopAddr)` (lines 814-856).
The parameters up to `fuel` are those of `handleIncomingDatagram`, which the loopback
branch calls. -/
def sendDatagramToOutput (withManet : Bool) (prot : IPProtocolId) (rt : IIPv4RoutingTable)
    (headerHit : Bool) (fuel : Nat) (link : LinkLayer) (st : State)
    (datagram : IPv4Datagram) (ie : InterfaceEntry) (nextHopAddr : IPv4Address) : Result :=
  if ie.isLoopback then
    -- no interface module for loopback, forward packet internally
    handleIncomingDatagram withManet prot rt headerHit fuel st datagram ie
  else
    -- we only need/can do ARP on IEEE 802 LANs
    let isIeee802Lan : Bool := ie.isBroadcast && !(ie.macAddress == 0)
    if !isIeee802Lan then
      { state := st, events := sendPacketToNIC (PacketClass.datagram datagram) none ie,
        status := Status.returned }
    else
      let proxyArpEnabled : Bool := true
      if isUnspecified nextHopAddr && !proxyArpEnabled then
        { state := st, events := [], status := Status.runtimeError }
      else
        let nextHopAddr : IPv4Address :=
          if isUnspecified nextHopAddr then datagram.destAddress else nextHopAddr
        let nextHopMacAddr := resolveNextHopMacAddress link nextHopAddr ie
        if nextHopMacAddr == 0 then
          -- send to ARP for resolution
          { state := st,
            events := [Event.send (PacketClass.datagram { datagram with hasControlInfo := true })
              (some (ControlInfo.routingDecision ie.interfaceId nextHopAddr))
              Gate.arpDgramOut],
            status := Status.returned }
        else
          { state := st,
            events := sendPacketToIeee802NIC datagram ie nextHopMacAddr link.ETHERTYPE_IPv4,
            status := Status.returned }

end IPv4
namespace IPv4

/-! ## `IPv4::handlePacketFromHL` -/

/-- The function `IPv4::determineOutgoingInterfaceForMulticastDatagram(datagram,
multicastIFOption)` (lines 403-432). -/
def determineOutgoingInterfaceForMulticastDatagram (rt : IIPv4RoutingTable)
    (ift : IInterfaceTable) (datagram : IPv4Datagram)
    (multicastIFOption : Option InterfaceEntry) : Option InterfaceEntry :=
  -- 1. the interface specified by the MULTICAST_IF socket option
  let ie : Option InterfaceEntry := multicastIFOption
  -- 2. lookup the destination address in the routing table
  let ie : Option InterfaceEntry :=
    match ie with
    | some i => some i
    | none =>
      match rt.findBestMatchingRoute datagram.destAddress with
      | some route => route.interface
      | none => none
  -- 3. if no route, choose the interface according to the source address
  let ie : Option InterfaceEntry :=
    match ie with
    | some i => some i
    | none => rt.getInterfaceByAddress datagram.srcAddress
  -- 4. or if the source address is unspecified, choose the first MULTICAST interface
  match ie with
  | some i => some i
  | none => ift.getFirstMulticastInterface

/-- The function `IPv4::routeLocalBroadcastPacket(datagram, destIE)` (lines 492-516). -/
def routeLocalBroadcastPacket (ift : IInterfaceTable) (fuel : Nat) (st : State)
    (datagram : IPv4Datagram) (destIE : Option InterfaceEntry) : Result :=
  match destIE with
  | some ie => fragmentAndSend fuel st datagram ie ALLONES_ADDRESS
  | none =>
    if st.forceBroadcast then
      -- forward to each interface including loopback
      fragmentAndSendAll fuel datagram ALLONES_ADDRESS ift.interfaces st
    else
      { state := { st with numDropped := st.numDropped + 1 }, events := [],
        status := Status.returned }

/-- Lines 313-329 of `handlePacketFromHL`: the datagram to send and the control info taken
off the packet. A datagram from the higher layer keeps its control info unless its
protocol is DSR; any other packet is encapsulated. The result is `none` when a
`check_and_cast` or `encapsulate` throws. -/
def datagramFromHL (IP_HEADER_BYTES : Int) (prot : IPProtocolId) (rt : IIPv4RoutingTable)
    (st : State) (packet : cMessage) :
    Option (State × IPv4Datagram × Option IPv4ControlInfo) :=
  match packet.packet with
  | PacketClass.datagram datagram =>
    -- if HL sends an IPv4Datagram, route the packet
    if datagram.transportProtocol = prot.IP_PROT_DSR then
      match packet.controlInfo with
      | some (ControlInfo.ipv4ControlInfo controlInfo) =>
        some (st, { datagram with hasControlInfo := false }, some controlInfo)
      | _ => none
    else some (st, datagram, none)
  | PacketClass.arpPacket transportPacket | PacketClass.other transportPacket =>
    -- encapsulate
    match packet.controlInfo with
    | some (ControlInfo.ipv4ControlInfo controlInfo) =>
      match encapsulate IP_HEADER_BYTES rt st transportPacket controlInfo with
      | (st, some datagram) => some (st, datagram, some controlInfo)
      | (_, none) => none
    | _ => none

/-- The function `IPv4::handlePacketFromHL(packet)` (lines 301-395); `withManet` is the
compile-time switch `WITH_MANET`. -/
def handlePacketFromHL (withManet : Bool) (IP_HEADER_BYTES : Int) (prot : IPProtocolId)
    (rt : IIPv4RoutingTable) (ift : IInterfaceTable) (fuel : Nat) (st : State)
    (packet : cMessage) : Result :=
  -- if no interface exists, do not send datagram
  if ift.interfaces.length = 0 then
    { state := { st with numDropped := st.numDropped + 1 }, events := [],
      status := Status.returned }
  else
    -- encapsulate and send
    match datagramFromHL IP_HEADER_BYTES prot rt st packet with
    | none => { state := st, events := [], status := Status.runtimeError }
    | some (st, datagram, controlInfo) =>
      -- extract requested interface and next hop
      let destIE : Option InterfaceEntry :=
        match controlInfo with
        | some ci => ift.getInterfaceById ci.interfaceId
        | none => none
      let nextHopAddress : IPv4Address :=
        match controlInfo with
        | some ci => ci.nextHopAddr
        | none => UNSPECIFIED_ADDRESS
      let multicastLoop : Bool :=
        match controlInfo with
        | some ci => ci.multicastLoop
        | none => true
      -- send
      let destAddr := datagram.destAddress
      if isMulticast datagram.destAddress then
        let destIE := determineOutgoingInterfaceForMulticastDatagram rt ift datagram destIE
        -- loop back a copy
        let looped : Result :=
          if multicastLoop &&
              (match destIE with
               | none => true
               | some ie => !ie.isLoopback) then
            match ift.getFirstLoopbackInterface with
            | some loopbackIF => fragmentAndSend fuel st datagram.dup loopbackIF destAddr
            | none => { state := st, events := [], status := Status.returned }
          else { state := st, events := [], status := Status.returned }
        looped.andThen fun st =>
          match destIE with
          | some ie =>
            fragmentAndSend fuel { st with numMulticast := st.numMulticast + 1 } datagram ie
              destAddr
          | none =>
            -- no multicast interface, packet dropped
            { state := { st with numUnroutable := st.numUnroutable + 1 }, events := [],
              status := Status.returned }
      else
        -- unicast and broadcast
        let manet : List Event :=
          if withManet && st.manetRouting then [Event.sendRouteUpdateMessageToManet datagram]
          else []
        let r0 : Result := { state := st, events := manet, status := Status.returned }
        -- check for local delivery
        if rt.isLocalAddress destAddr then
          match ift.getFirstLoopbackInterface with
          | none => { state := st, events := manet, status := Status.assertionFailed }
          | some ie => r0.andThen fun st => fragmentAndSend fuel st datagram ie destAddr
        else if isLimitedBroadcastAddress destAddr || rt.isLocalBroadcastAddress destAddr then
          r0.andThen fun st => routeLocalBroadcastPacket ift fuel st datagram destIE
        else
          r0.andThen fun st =>
            routeUnicastPacket withManet rt fuel st datagram destIE nextHopAddress

/-! ## `IPv4::handleMessage`, `IPv4::endService` and the lifecycle operations -/

/-- The gate vector `transportOut` and what is connected to it, declared outside the
sources: `gateSize("transportOut")`, and for gate `i` the value of
`props && props->getAsBool("reactive")` for the properties of the module that owns the
path end gate, `none` when the path end gate or its owner module is `NULL`. -/
structure TransportOut where
  gateSize : Int
  reactive : Int → Option Bool

/-- The function `IPv4::getSourceInterfaceFrom(packet)` (lines 163-167). -/
def getSourceInterfaceFrom (ift : IInterfaceTable) (packet : cMessage) :
    Option InterfaceEntry :=
  match packet.arrivalGate with
  | some g => ift.getInterfaceByNetworkLayerGateIndex g.2
  | none => none

/-- The function `IPv4::endService(packet)` (lines 133-161). The handlers it dispatches to
are recorded as calls; the display-string update of the GUI is left out. -/
def endService (ift : IInterfaceTable) (st : State) (packet : cMessage) : Result :=
  if !st.isUp then
    -- IPv4 is down -- discarding message
    { state := st, events := [], status := Status.returned }
  else
    match packet.arrivalGate with
    | none => { state := st, events := [], status := Status.nullPointer }
    | some g =>
      if g.1 == "transportIn" then
        { state := st, events := [Event.handlePacketFromHL packet],
          status := Status.returned }
      else if g.1 == "arpIn" then
        { state := st, events := [Event.handlePacketFromARP packet],
          status := Status.returned }
      else
        -- from network
        let fromIE := getSourceInterfaceFrom ift packet
        match packet.packet with
        | PacketClass.arpPacket _ =>
          { state := st, events := [Event.handleIncomingARPPacket packet fromIE],
            status := Status.returned }
        | PacketClass.datagram datagram =>
          { state := st, events := [Event.handleIncomingDatagram datagram fromIE],
            status := Status.returned }
        | PacketClass.other _ => { state := st, events := [], status := Status.runtimeError }

/-- The function `IPv4::handleMessage(msg)` (lines 94-131); `withManet` is the compile-time
switch `WITH_MANET` and `IP_C_REGISTER_PROTOCOL` a constant declared outside the
sources. -/
def handleMessage (withManet : Bool) (IP_C_REGISTER_PROTOCOL : Int) (prot : IPProtocolId)
    (transportOut : TransportOut) (ift : IInterfaceTable) (st : State) (msg : cMessage) :
    Result :=
  if msg.kind = IP_C_REGISTER_PROTOCOL then
    match msg.controlInfo with
    | some (ControlInfo.registerProtocolCommand protocol) =>
      match msg.arrivalGate with
      | none => { state := st, events := [], status := Status.nullPointer }
      | some g =>
        let st : State := { st with mapping := st.mapping.addProtocolMapping protocol g.2 }
        if withManet && protocol == prot.IP_PROT_MANET then
          -- test for the presence of MANET routing
          -- check if there is a protocol -> gate mapping
          let gateindex := st.mapping.findOutputGateForProtocol prot.IP_PROT_MANET
          if gateindex < 0 || gateindex ≥ transportOut.gateSize then
            { state := st, events := [], status := Status.returned }
          else
            -- check if that gate is connected at all
            match transportOut.reactive gateindex with
            | none => { state := st, events := [], status := Status.returned }
            | some reactive =>
              { state := { st with manetRouting := reactive }, events := [],
                status := Status.returned }
        else { state := st, events := [], status := Status.returned }
    | _ => { state := st, events := [], status := Status.runtimeError }
  else
    match msg.arrivalGate with
    | some g =>
      if !msg.isSelfMessage && g.1 == "arpIn" then endService ift st msg
      else
        { state := st, events := [Event.queueBaseHandleMessage msg],
          status := Status.returned }
    | none =>
      if !msg.isSelfMessage then { state := st, events := [], status := Status.nullPointer }
      else
        { state := st, events := [Event.queueBaseHandleMessage msg],
          status := Status.returned }

/-- The lifecycle operations that `handleOperationStage` tells apart by `dynamic_cast`. -/
inductive LifecycleOperation where
  | nodeStartOperation
  | nodeShutdownOperation
  | nodeCrashOperation
  | other
deriving DecidableEq, Repr

/-- The stage constants `NodeStartOperation::STAGE_NETWORK_LAYER`,
`NodeShutdownOperation::STAGE_NETWORK_LAYER` and `NodeCrashOperation::STAGE_CRASH`,
declared outside the sources. -/
structure LifecycleStages where
  startNetworkLayer : Int
  shutdownNetworkLayer : Int
  crash : Int

/-- The function `IPv4::flush()` (lines 964-968); the pending service and the queue belong
to the base class, so both calls are recorded. -/
def flush (st : State) : Result :=
  { state := st, events := [Event.cancelService, Event.queueClear],
    status := Status.returned }

/-- The function `IPv4::stop()` (lines 958-962). -/
def stop (st : State) : Result :=
  flush { st with isUp := false }

/-- The function `IPv4::start()` (lines 952-956); `queueIsEmpty` is the value of
`queue.isEmpty()`. -/
def start (queueIsEmpty : Bool) (st : State) : Result :=
  if !queueIsEmpty then { state := st, events := [], status := Status.assertionFailed }
  else { state := { st with isUp := true }, events := [], status := Status.returned }

/-- The function `IPv4::handleOperationStage(operation, stage, doneCallback)`
(lines 934-950); it always returns `true`. -/
def handleOperationStage (stages : LifecycleStages) (queueIsEmpty : Bool) (st : State)
    (operation : LifecycleOperation) (stage : Int) : Result :=
  match operation with
  | LifecycleOperation.nodeStartOperation =>
    if stage = stages.startNetworkLayer then start queueIsEmpty st
    else { state := st, events := [], status := Status.returned }
  | LifecycleOperation.nodeShutdownOperation =>
    if stage = stages.shutdownNetworkLayer then stop st
    else { state := st, events := [], status := Status.returned }
  | LifecycleOperation.nodeCrashOperation =>
    if stage = stages.crash then stop st
    else { state := st, events := [], status := Status.returned }
  | LifecycleOperation.other => { state := st, events := [], status := Status.returned }

/-- What the simulation kernel and the queue base class hand to the module: a message for
`handleMessage`, or a packet whose service ended for `endService`. -/
inductive Input where
  | message (msg : cMessage)
  | serviced (packet : cMessage)
deriving DecidableEq, Repr

/-- One input handled by the module. -/
def handleInput (withManet : Bool) (IP_C_REGISTER_PROTOCOL : Int) (prot : IPProtocolId)
    (transportOut : TransportOut) (ift : IInterfaceTable) (st : State) : Input → Result
  | Input.message msg =>
    handleMessage withManet IP_C_REGISTER_PROTOCOL prot transportOut ift st msg
  | Input.serviced packet => endService ift st packet

/-- The inputs handled one after the other; an input whose handling does not return ends
the run. -/
def handleInputs (withManet : Bool) (IP_C_REGISTER_PROTOCOL : Int) (prot : IPProtocolId)
    (transportOut : TransportOut) (ift : IInterfaceTable) : List Input → State → Result
  | [], st => { state := st, events := [], status := Status.returned }
  | input :: rest, st =>
    (handleInput withManet IP_C_REGISTER_PROTOCOL prot transportOut ift st input).andThen
      (handleInputs withManet IP_C_REGISTER_PROTOCOL prot transportOut ift rest)

/-- The message is a protocol registration (line 96). -/
def Input.isRegistration (IP_C_REGISTER_PROTOCOL : Int) : Input → Bool
  | Input.message msg => msg.kind == IP_C_REGISTER_PROTOCOL
  | Input.serviced _ => false

/-- The datagram as `handleIncomingDatagram` holds it after the control-info cleanup of
lines 192-196. -/
def cleaned (prot : IPProtocolId) (datagram : IPv4Datagram) : IPv4Datagram :=
  let protocol := datagram.transportProtocol
  let isManetDatagram : Bool :=
    protocol == prot.IP_PROT_MANET || protocol == prot.IP_PROT_DSR
  if !isManetDatagram || datagram.moreFragments then
    { datagram with hasControlInfo := false }
  else datagram

/-- The recorded call is one of the calls of `IPv4.cc` that pass a datagram on inside the
module: `sendDatagramToOutput`, `handleIncomingDatagram`, `reassembleAndDeliver`,
`forwardMulticastPacket`, `handlePacketFromHL`. The other calls leave the module (ICMP,
the fragment buffer, the base class, MANET routing, a gate). -/
def Event.staysInModule : Event → Bool
  | Event.sendDatagramToOutput _ _ _ => true
  | Event.handleIncomingDatagram _ _ => true
  | Event.reassembleAndDeliver _ => true
  | Event.forwardMulticastPacket _ _ => true
  | Event.handlePacketFromHL _ => true
  | _ => false

/-- The recorded call is a call of the fragment buffer `fragbuf`. -/
def Event.isFragbufCall : Event → Bool
  | Event.purgeStaleFragments _ => true
  | Event.addFragment _ _ => true
  | _ => false

/-- The interface that the control info taken off a higher-layer packet asks for
(lines 335-338 of `handlePacketFromHL`); no control info, no interface. -/
def requestedInterface (ift : IInterfaceTable) (controlInfo : Option IPv4ControlInfo) :
    Option InterfaceEntry :=
  match controlInfo with
  | some ci => ift.getInterfaceById ci.interfaceId
  | none => none

/-- The multicast-loop flag of the control info taken off a higher-layer packet
(lines 334-340 of `handlePacketFromHL`); no control info, flag set. -/
def requestedMulticastLoop (controlInfo : Option IPv4ControlInfo) : Bool :=
  match controlInfo with
  | some ci => ci.multicastLoop
  | none => true

/-- The five counters of the module have the same values in both states. -/
def SameCounters (a b : State) : Prop :=
  a.numMulticast = b.numMulticast ∧ a.numLocalDeliver = b.numLocalDeliver ∧
  a.numDropped = b.numDropped ∧ a.numUnroutable = b.numUnroutable ∧
  a.numForwarded = b.numForwarded

/-- The fragments tile the payload bytes from `start` to `finish`: with each fragment's
start taken as its `fragmentOffset` minus `base` and its length as
`byteLength - headerLength`, the first fragment starts at `start`, every fragment is
non-empty, every next fragment starts exactly where the previous one ends, and the last
one ends at `finish`. -/
def TilesPayload (base : Int) : Int → Int → List IPv4Datagram → Prop
  | start, finish, [] => start = finish
  | start, finish, f :: rest =>
    f.fragmentOffset - base = start ∧ 0 < f.byteLength - f.headerLength ∧
      TilesPayload base (start + (f.byteLength - f.headerLength)) finish rest

end IPv4

/-! ## Concrete inputs -/

namespace IPv4

/-- A module state with all counters at zero, MANET routing off, the module up and no
protocol registered. -/
def freshState : State :=
  { numMulticast := 0, numLocalDeliver := 0, numDropped := 0, numUnroutable := 0,
    numForwarded := 0, manetRouting := false, curFragmentId := 0, defaultTimeToLive := 32,
    defaultMCTimeToLive := 16, isUp := true, forceBroadcast := false, lastCheckTime := 0,
    fragmentTimeoutTime := 60, mapping := [] }

/-- A non-loopback point-to-point interface with MTU 1500. -/
def ppp0 : InterfaceEntry :=
  { interfaceId := 101, isLoopback := false, mtu := 1500, ipAddress := 167772161,
    isBroadcast := false, multicastGroups := [], multicastTtlThreshold := 0,
    multicastListeners := [],
    macAddress := 0, networkBroadcastAddress := 0, networkLayerGateIndex := 0 }

/-- A second non-loopback interface with MTU 1500. -/
def ppp1 : InterfaceEntry :=
  { interfaceId := 102, isLoopback := false, mtu := 1500, ipAddress := 167772417,
    isBroadcast := false, multicastGroups := [], multicastTtlThreshold := 0,
    multicastListeners := [],
    macAddress := 0, networkBroadcastAddress := 0, networkLayerGateIndex := 1 }

/-- A UDP datagram with a 20-byte header and a 3000-byte payload, DF clear, TTL 64. -/
def udp3000 : IPv4Datagram :=
  { name := "udp", srcAddress := 167772162, destAddress := 167772674, typeOfService := 0,
    identification := 7, moreFragments := false, dontFragment := false, fragmentOffset := 0,
    timeToLive := 64, transportProtocol := 17, headerLength := 20, byteLength := 3020,
    hasBitError := false, hasControlInfo := false,
    encapsulatedPacket := some { name := "udp", byteLength := 3000 } }

/-- The second fragment of `udp3000` for an MTU of 1500. -/
def udp3000Fragment1 : IPv4Datagram :=
  { udp3000 with name := "udp-frag", timeToLive := 63, moreFragments := true,
                 byteLength := 1500, fragmentOffset := 1480 }

/-- Protocol numbers as assigned by IANA (MANET: 138, DSR: 48). -/
def ianaProtocols : IPProtocolId :=
  { IP_PROT_ICMP := 1, IP_PROT_IGMP := 2, IP_PROT_IP := 4, IP_PROT_DSR := 48,
    IP_PROT_MANET := 138 }

/-- A router's table: forwarding on, no local or broadcast address matches, every
destination routed through `ppp1` with gateway 10.0.1.254. -/
def routerTable : IIPv4RoutingTable :=
  { isLocalAddress := fun _ => false,
    findInterfaceByLocalBroadcastAddress := fun _ => none,
    isIPForwardingEnabled := true,
    isMulticastForwardingEnabled := false,
    findBestMatchingRoute := fun _ => some { interface := some ppp1, gateway := 167772670 },
    findBestMatchingMulticastRoute := fun _ _ => none,
    getInterfaceForDestAddr := fun _ => some ppp1,
    getInterfaceByAddress := fun _ => none,
    isLocalBroadcastAddress := fun _ => false }

end IPv4

namespace LocalDeliver

/-- A fragment with a 20-byte header: identification, source address, fragment offset,
payload length in bytes and the moreFragments flag are given; the encapsulated message is
the 24-byte original payload. -/
def fragment (fragmentId : Int) (srcAddress : Nat) (fragmentOffset payloadBytes : Int)
    (moreFragments : Bool) : IPDatagram :=
  { srcAddress := srcAddress, destAddress := 167772674, fragmentId := fragmentId,
    fragmentOffset := fragmentOffset, moreFragments := moreFragments,
    length := (payloadBytes + 20) * 8, headerLength := 20, transportProtocol := 17,
    diffServCodePoint := 0, encapsulatedLength := 192 }

/-- A buffer holding the two halves of datagram 1 (bytes 16-31 in slot 0, bytes 0-15 in
slot 1). -/
def bufTwoHalves : FragmentBuf :=
  [{ isFree := false, fragmentId := 1, fragmentOffset := 16, moreFragments := false,
     length := 16, timeout := 60 },
   { isFree := false, fragmentId := 1, fragmentOffset := 0, moreFragments := true,
     length := 16, timeout := 61 }]


/-- The buffer after inserting the first half of datagram 1 at time 0 and the second half
at time 50, with a fragment timeout of 60. -/
def bufInsertedAt0And50 : FragmentBuf :=
  insertInFragmentBuf 50 60 (insertInFragmentBuf 0 60 [] (fragment 1 1 0 16 true))
    (fragment 1 1 16 8 false)


/-- Bytes 0-15 of datagram 1. -/
def firstHalf : IPDatagram := fragment 1 1 0 16 true

/-- Bytes 16-23 of datagram 1, the final fragment. -/
def secondHalf : IPDatagram := fragment 1 1 16 8 false

/-- The two fragments of datagram 1 arriving second half first, interleaved with the two
fragments of datagram 2. -/
def interleavedArrivals : List (simtime_t × IPDatagram) :=
  [(0, fragment 2 1 0 8 true), (1, secondHalf), (2, fragment 2 1 8 8 false), (3, firstHalf)]


/-- A fragment of datagram 2 at offset 0 with moreFragments set and an empty payload: a
20-byte header and nothing behind it. -/
def emptyFragment : IPDatagram := fragment 2 1 0 0 true

/-- The two fragments of datagram 1 arriving second half first, with `emptyFragment`
of datagram 2 arriving between them. -/
def stalledArrivals : List (simtime_t × IPDatagram) :=
  [(0, secondHalf), (1, emptyFragment), (2, firstHalf)]

/-- A final fragment with identification 1 and bytes 16-23, like `secondHalf`, but sent
from source address 5 instead of 1. -/
def intruder : IPDatagram := fragment 1 5 16 8 false

/-- The buffer after all four `interleavedArrivals`: every slot is free again. -/
def bufAfterFour : FragmentBuf :=
  [{ isFree := true, fragmentId := -1, fragmentOffset := 0, moreFragments := true,
     length := 16, timeout := 63 },
   { isFree := true, fragmentId := -1, fragmentOffset := 16, moreFragments := false,
     length := 8, timeout := 61 },
   { isFree := true, fragmentId := -1, fragmentOffset := 8, moreFragments := false,
     length := 8, timeout := 62 }]

/-- A stream of datagram 1 whose two fragments at offset 8 disagree in moreFragments,
interleaved with the two fragments of datagram 2. -/
def conflictingArrivals : List (simtime_t × IPDatagram) :=
  [(0, fragment 2 1 0 8 true), (1, fragment 1 1 8 8 true), (2, fragment 2 1 8 8 false),
   (3, fragment 1 1 8 8 false), (4, fragment 1 1 0 8 true)]

end LocalDeliver

namespace IPv4

/-- A loopback interface with MTU 1500. -/
def lo0 : InterfaceEntry :=
  { interfaceId := 100, isLoopback := true, mtu := 1500, ipAddress := 2130706433,
    isBroadcast := false, multicastGroups := [], multicastTtlThreshold := 0,
    multicastListeners := [],
    macAddress := 0, networkBroadcastAddress := 0, networkLayerGateIndex := -1 }

/-- The datagram `udp3000` with TTL -1. -/
def udp3000NegativeTtl : IPv4Datagram := { udp3000 with timeToLive := -1 }

/-- A 100-byte UDP datagram to the group 224.1.2.3 with TTL 5. -/
def mcast : IPv4Datagram :=
  { udp3000 with destAddress := 3758162435, byteLength := 100, timeToLive := 5,
                 encapsulatedPacket := some { name := "udp", byteLength := 80 } }

/-- Interface Q: multicast TTL threshold 3, a listener for 224.1.2.3. -/
def ifQ : InterfaceEntry :=
  { interfaceId := 103, isLoopback := false, mtu := 1500, ipAddress := 167772673,
    isBroadcast := false, multicastGroups := [], multicastTtlThreshold := 3,
    multicastListeners := [3758162435],
    macAddress := 0, networkBroadcastAddress := 0, networkLayerGateIndex := 2 }

/-- Interface R: multicast TTL threshold 10, no listener. -/
def ifR : InterfaceEntry :=
  { interfaceId := 104, isLoopback := false, mtu := 1500, ipAddress := 167772929,
    isBroadcast := false, multicastGroups := [], multicastTtlThreshold := 10,
    multicastListeners := [],
    macAddress := 0, networkBroadcastAddress := 0, networkLayerGateIndex := 3 }

/-- A multicast route with parent `ppp0` and the leaf children Q and R. -/
def routeQR : IPv4MulticastRoute :=
  { parent := some ppp0,
    children := [{ interface := ifQ, isLeaf := true }, { interface := ifR, isLeaf := true }] }

/-- The table `routerTable` with the multicast route `routeQR` for every group. -/
def multicastTable : IIPv4RoutingTable :=
  { routerTable with findBestMatchingMulticastRoute := fun _ _ => some routeQR }

/-- A control info for a UDP packet to 10.0.3.2 with no source address and TTL hint 0. -/
def udpControlInfo : IPv4ControlInfo :=
  { destAddr := 167772674, srcAddr := 0, interfaceId := -1, nextHopAddr := 0, protocol := 17,
    typeOfService := 0, dontFragment := false, timeToLive := 0, multicastLoop := true,
    origDatagram := none }


/-- A 100-byte UDP datagram with TTL 64. -/
def udp100 : IPv4Datagram :=
  { udp3000 with byteLength := 100,
                 encapsulatedPacket := some { name := "udp", byteLength := 80 } }

/-- The table `routerTable` without any unicast route. -/
def emptyTable : IIPv4RoutingTable :=
  { routerTable with findBestMatchingRoute := fun _ => none }

end IPv4

namespace LocalDeliver

/-- Protocol numbers as assigned by IANA. -/
def ianaProtocolFields : IPProtocolFieldId :=
  { IP_PROT_ICMP := 1, IP_PROT_IGMP := 2, IP_PROT_IP := 4, IP_PROT_TCP := 6,
    IP_PROT_UDP := 17, IP_PROT_RSVP := 46 }

/-- The module after `secondHalf` was stored at time 0 (fragment timeout 60). -/
def stateWithSecondHalf : State :=
  { fragmentTimeoutTime := 60, fragmentBuf := insertInFragmentBuf 0 60 [] secondHalf,
    lastCheckTime := 0 }

/-- The module after `firstHalf` was stored at time 0 (fragment timeout 60). -/
def stateWithFirstHalf : State :=
  { fragmentTimeoutTime := 60, fragmentBuf := insertInFragmentBuf 0 60 [] firstHalf,
    lastCheckTime := 0 }

end LocalDeliver

namespace IPv4

/-- An 80-byte UDP packet from the higher layer. -/
def udpPacket : cPacket := { name := "udp", byteLength := 80 }

/-- The datagram that `encapsulate` makes of `udpPacket` with `udpControlInfo` in the fresh
state, for a 20-byte header. -/
def udpEncapsulated : IPv4Datagram :=
  { name := "udp", srcAddress := 0, destAddress := 167772674, typeOfService := 0,
    identification := 0, moreFragments := false, dontFragment := false, fragmentOffset := 0,
    timeToLive := 32, transportProtocol := 17, headerLength := 20, byteLength := 100,
    hasBitError := false, hasControlInfo := false, encapsulatedPacket := some udpPacket }

/-- The datagram that the next call of `encapsulate` makes of the same packet. -/
def udpEncapsulatedNext : IPv4Datagram := { udpEncapsulated with identification := 1 }

/-- The datagram `udp3000` with a byte length of 2^32 + 100: a 20-byte header and a payload
of 2^32 + 80 bytes, more than an `int` holds. -/
def udpWide : IPv4Datagram := { udp3000 with byteLength := 4294967396 }

/-- The datagram `udp3000` with a byte length of 2^31 + 20: a 20-byte header and a payload
of 2^31 bytes, one more than the largest `int`. -/
def udpHalfWide : IPv4Datagram := { udp3000 with byteLength := 2147483668 }

/-- The module configured with `timeToLive = 70000`, a number that no `short` holds. -/
def wideTtlState : State := { freshState with defaultTimeToLive := 70000 }


/-- The fresh state after UDP (protocol 17) registered at egress slot 0. -/
def udpRegistered : State := { freshState with mapping := [(17, 0)] }


/-- The multicast datagram `mcast` with a bit error. -/
def mcastCorrupted : IPv4Datagram := { mcast with hasBitError := true }

/-- The interface table of a node whose only interface is the loopback interface `lo0`;
there is no multicast-capable interface. -/
def loopbackOnly : IInterfaceTable :=
  { interfaces := [lo0],
    getInterfaceById := fun id => if id = 100 then some lo0 else none,
    getFirstLoopbackInterface := some lo0,
    getFirstMulticastInterface := none,
    getInterfaceByNetworkLayerGateIndex := fun _ => none }

/-- The interface table of a node without any interface. -/
def noInterfaces : IInterfaceTable :=
  { interfaces := [],
    getInterfaceById := fun _ => none,
    getFirstLoopbackInterface := none,
    getFirstMulticastInterface := none,
    getInterfaceByNetworkLayerGateIndex := fun _ => none }

/-- A control info for a UDP packet to the group 224.1.2.3: no source address, no interface
hint, multicast loop on. -/
def mcastControlInfo : IPv4ControlInfo := { udpControlInfo with destAddr := 3758162435 }

/-- The packet `udpPacket` as the higher layer sends it to 224.1.2.3. -/
def mcastFromHL : cMessage :=
  { kind := 0, isSelfMessage := false, arrivalGate := some ("transportIn", 0),
    controlInfo := some (ControlInfo.ipv4ControlInfo mcastControlInfo),
    packet := PacketClass.other udpPacket }

/-- The datagram that `encapsulate` makes of `udpPacket` with `mcastControlInfo` in the
fresh state, for a 20-byte header: the TTL is the multicast default. -/
def mcastEncapsulated : IPv4Datagram :=
  { udpEncapsulated with destAddress := 3758162435, timeToLive := 16 }


/-- Stage numbers for the lifecycle operations. -/
def lifecycleStages : LifecycleStages :=
  { startNetworkLayer := 3, shutdownNetworkLayer := 3, crash := 0 }

/-- The fresh module after it was marked down. -/
def downState : State := { freshState with isUp := false }

/-- A `transportOut` gate vector with two gates, neither leading to a module. -/
def unconnected : TransportOut := { gateSize := 2, reactive := fun _ => none }

/-- A registration message (kind 1199) of protocol 6 that arrives on gate 1 of
`transportIn`. -/
def registerTcp : cMessage :=
  { kind := 1199, isSelfMessage := false, arrivalGate := some ("transportIn", 1),
    controlInfo := some (ControlInfo.registerProtocolCommand 6),
    packet := PacketClass.other { name := "reg", byteLength := 0 } }

end IPv4

namespace LocalDeliver

/-- The module after the first fragment of datagram 2 and then `secondHalf` of datagram 1
were stored at time 0 (fragment timeout 60). -/
def stateWithOther : State :=
  { fragmentTimeoutTime := 60,
    fragmentBuf := insertInFragmentBuf 0 60
      (insertInFragmentBuf 0 60 [] (fragment 2 1 0 8 true)) secondHalf,
    lastCheckTime := 0 }

/-- The module `stateWithOther` after `firstHalf` arrived at time 1 and completed
datagram 1: slot 0 still holds the fragment of datagram 2, the slots of datagram 1 are
free. -/
def stateAfterCompletion : State :=
  { fragmentTimeoutTime := 60,
    fragmentBuf :=
      [{ isFree := false, fragmentId := 2, fragmentOffset := 0, moreFragments := true,
         length := 8, timeout := 60 },
       { isFree := true, fragmentId := -1, fragmentOffset := 16, moreFragments := false,
         length := 8, timeout := 60 },
       { isFree := true, fragmentId := -1, fragmentOffset := 0, moreFragments := true,
         length := 16, timeout := 61 }],
    lastCheckTime := 1 }

end LocalDeliver

/-! ## Theorems about `IPv4::fragmentAndSend` -/

namespace IPv4

/-- A number in the range of `int` is stored unchanged. -/
theorem narrowInt_eq (x : Int) (h1 : -2147483648 ≤ x) (h2 : x < 2147483648) :
    narrowInt x = x := by
  unfold narrowInt; omega

/-- The stored `int` lies in the range of the type. -/
theorem narrowInt_range (x : Int) : -2147483648 ≤ narrowInt x ∧ narrowInt x < 2147483648 := by
  unfold narrowInt; omega

/-- A number in the range of `short` is stored unchanged. -/
theorem narrowShort_eq (x : Int) (h1 : -32768 ≤ x) (h2 : x < 32768) : narrowShort x = x := by
  unfold narrowShort; omega

theorem fragmentLoop_step (datagram : IPv4Datagram) (ie : InterfaceEntry)
    (nextHopAddr : IPv4Address) (h p fl base : Int) (nm : String) (fuel : Nat) (off : Int)
    (hlt : off < p) :
    fragmentLoop datagram ie nextHopAddr h p fl base nm (fuel + 1) off =
      (Event.sendDatagramToOutput (fragmentAt datagram h p fl base nm off) ie nextHopAddr ::
        (fragmentLoop datagram ie nextHopAddr h p fl base nm fuel (off + fl)).1,
       (fragmentLoop datagram ie nextHopAddr h p fl base nm fuel (off + fl)).2) := by
  by_cases hl : p ≤ off + fl <;> simp [fragmentLoop, fragmentAt, IPv4Datagram.dup, hlt, hl]

theorem fragmentLoop_done (datagram : IPv4Datagram) (ie : InterfaceEntry)
    (nextHopAddr : IPv4Address) (h p fl base : Int) (nm : String) (fuel : Nat) (off : Int)
    (hge : ¬ off < p) :
    fragmentLoop datagram ie nextHopAddr h p fl base nm fuel off = ([], true) := by
  cases fuel <;> simp [fragmentLoop, hge]

/-- The `i`-th call made by the fragmentation loop started at `off` hands over the
fragment built at offset `off + i * fl`. -/
theorem fragmentLoop_getElem? (datagram : IPv4Datagram) (ie : InterfaceEntry)
    (nextHopAddr : IPv4Address) (h p fl base : Int) (nm : String) :
    ∀ (fuel : Nat) (off : Int) (i : Nat) (e : Event),
      (fragmentLoop datagram ie nextHopAddr h p fl base nm fuel off).1[i]? = some e →
      off + i * fl < p ∧
        e = Event.sendDatagramToOutput
          (fragmentAt datagram h p fl base nm (off + i * fl)) ie nextHopAddr := by
  intro fuel
  induction fuel with
  | zero => intro off i e he; simp [fragmentLoop] at he
  | succ n ih =>
    intro off i e he
    by_cases hlt : off < p
    · rw [fragmentLoop_step _ _ _ _ _ _ _ _ _ _ hlt] at he
      cases i with
      | zero =>
        simp at he
        simp [hlt, he]
      | succ j =>
        simp only [List.getElem?_cons_succ] at he
        obtain ⟨h1, h2⟩ := ih (off + fl) j e he
        have hoff : off + fl + (j : Int) * fl = off + ((j + 1 : Nat) : Int) * fl := by
          push_cast; ring
        rw [hoff] at h1 h2
        exact ⟨h1, h2⟩
    · rw [fragmentLoop_done _ _ _ _ _ _ _ _ _ _ hlt] at he
      simp at he

/-- Every call made by the fragmentation loop hands over a fragment built by the loop body
at some offset below `payloadLength`. -/
theorem mem_fragmentLoop (datagram : IPv4Datagram) (ie : InterfaceEntry)
    (nextHopAddr : IPv4Address) (h p fl base : Int) (nm : String) (fuel : Nat) (off : Int)
    (e : Event) (he : e ∈ (fragmentLoop datagram ie nextHopAddr h p fl base nm fuel off).1) :
    ∃ o : Int, o < p ∧
      e = Event.sendDatagramToOutput (fragmentAt datagram h p fl base nm o) ie nextHopAddr := by
  obtain ⟨i, hi⟩ := List.getElem?_of_mem he
  exact ⟨_, fragmentLoop_getElem? datagram ie nextHopAddr h p fl base nm fuel off i e hi⟩

/-- The branches of `fragmentAndSend` in terms of the prepared datagram. -/
theorem fragmentAndSend_eq (fuel : Nat) (st : State) (datagram : IPv4Datagram)
    (ie : InterfaceEntry) (nextHopAddr : IPv4Address) :
    fragmentAndSend fuel st datagram ie nextHopAddr =
      let d := prepared datagram ie
      if d.timeToLive < 0 then
        { state := { st with numDropped := st.numDropped + 1 },
          events := [Event.sendErrorMessage d ICMPType.ICMP_TIME_EXCEEDED 0],
          status := Status.returned }
      else if d.byteLength ≤ ie.mtu then
        { state := st, events := [Event.sendDatagramToOutput d ie nextHopAddr],
          status := Status.returned }
      else if d.dontFragment then
        { state := { st with numDropped := st.numDropped + 1 },
          events := [Event.sendErrorMessage d ICMPType.ICMP_DESTINATION_UNREACHABLE
            ICMP_FRAGMENTATION_ERROR_CODE],
          status := Status.returned }
      else if ie.isLoopback then
        { state := st, events := [Event.sendDatagramToOutput d ie nextHopAddr],
          status := Status.returned }
      else if Int.tdiv (ie.mtu - d.headerLength) 8 * 8 = 0 then
        { state := st, events := [], status := Status.divisionByZero }
      else
        let r := fragmentLoop d ie nextHopAddr d.headerLength
          (narrowInt (d.byteLength - d.headerLength))
          (Int.tdiv (ie.mtu - d.headerLength) 8 * 8) d.fragmentOffset (d.name ++ "-frag") fuel 0
        { state := st, events := r.1,
          status := if r.2 then Status.returned else Status.outOfFuel } := by
  rfl

theorem prepared_timeToLive (datagram : IPv4Datagram) (ie : InterfaceEntry) :
    (prepared datagram ie).timeToLive =
      if ie.isLoopback then datagram.timeToLive else datagram.timeToLive - 1 := by
  unfold prepared
  cases ie.isLoopback <;> cases isUnspecified datagram.srcAddress <;> simp

theorem prepared_fields (datagram : IPv4Datagram) (ie : InterfaceEntry) :
    (prepared datagram ie).byteLength = datagram.byteLength ∧
    (prepared datagram ie).headerLength = datagram.headerLength ∧
    (prepared datagram ie).dontFragment = datagram.dontFragment ∧
    (prepared datagram ie).moreFragments = datagram.moreFragments ∧
    (prepared datagram ie).fragmentOffset = datagram.fragmentOffset ∧
    (prepared datagram ie).identification = datagram.identification := by
  unfold prepared
  cases ie.isLoopback <;> cases isUnspecified datagram.srcAddress <;> simp


/-- The fragmentation path of `fragmentAndSend`: TTL not expired, datagram longer than the
MTU, DF clear, interface not loopback, non-zero fragment length. -/
theorem fragmentAndSend_split (fuel : Nat) (st : State) (datagram : IPv4Datagram)
    (ie : InterfaceEntry) (nextHopAddr : IPv4Address)
    (hie : ie.isLoopback = false) (httl : 0 ≤ datagram.timeToLive - 1)
    (hlen : datagram.byteLength > ie.mtu) (hdf : datagram.dontFragment = false)
    (hfl : Int.tdiv (ie.mtu - datagram.headerLength) 8 * 8 ≠ 0) :
    fragmentAndSend fuel st datagram ie nextHopAddr =
      { state := st,
        events := (fragmentLoop (prepared datagram ie) ie nextHopAddr datagram.headerLength
          (narrowInt (datagram.byteLength - datagram.headerLength))
          (Int.tdiv (ie.mtu - datagram.headerLength) 8 * 8) datagram.fragmentOffset
          ((prepared datagram ie).name ++ "-frag") fuel 0).1,
        status :=
          if (fragmentLoop (prepared datagram ie) ie nextHopAddr datagram.headerLength
            (narrowInt (datagram.byteLength - datagram.headerLength))
            (Int.tdiv (ie.mtu - datagram.headerLength) 8 * 8) datagram.fragmentOffset
            ((prepared datagram ie).name ++ "-frag") fuel 0).2
          then Status.returned else Status.outOfFuel } := by
  obtain ⟨hb, hh, hd, _, ho, _⟩ := prepared_fields datagram ie
  have ht : (prepared datagram ie).timeToLive = datagram.timeToLive - 1 := by
    rw [prepared_timeToLive]; simp [hie]
  have h1 : ¬ (prepared datagram ie).timeToLive < 0 := by rw [ht]; omega
  have h2 : ¬ (prepared datagram ie).byteLength ≤ ie.mtu := by rw [hb]; omega
  have h3 : ¬ datagram.byteLength ≤ ie.mtu := by omega
  rw [fragmentAndSend_eq]
  simp only [h1, h2, h3, hd, hdf, hie, hh, hb, ho, hfl, if_false, Bool.false_eq_true]

/-- The fragmentation path of `fragmentAndSend` for a payload length that an `int` holds. -/
theorem fragmentAndSend_split_int (fuel : Nat) (st : State) (datagram : IPv4Datagram)
    (ie : InterfaceEntry) (nextHopAddr : IPv4Address)
    (hie : ie.isLoopback = false) (httl : 0 ≤ datagram.timeToLive - 1)
    (hlen : datagram.byteLength > ie.mtu) (hdf : datagram.dontFragment = false)
    (hfl : Int.tdiv (ie.mtu - datagram.headerLength) 8 * 8 ≠ 0)
    (hp1 : -2147483648 ≤ datagram.byteLength - datagram.headerLength)
    (hp2 : datagram.byteLength - datagram.headerLength < 2147483648) :
    fragmentAndSend fuel st datagram ie nextHopAddr =
      { state := st,
        events := (fragmentLoop (prepared datagram ie) ie nextHopAddr datagram.headerLength
          (datagram.byteLength - datagram.headerLength)
          (Int.tdiv (ie.mtu - datagram.headerLength) 8 * 8) datagram.fragmentOffset
          ((prepared datagram ie).name ++ "-frag") fuel 0).1,
        status :=
          if (fragmentLoop (prepared datagram ie) ie nextHopAddr datagram.headerLength
            (datagram.byteLength - datagram.headerLength)
            (Int.tdiv (ie.mtu - datagram.headerLength) 8 * 8) datagram.fragmentOffset
            ((prepared datagram ie).name ++ "-frag") fuel 0).2
          then Status.returned else Status.outOfFuel } := by
  rw [fragmentAndSend_split fuel st datagram ie nextHopAddr hie httl hlen hdf hfl,
    narrowInt_eq _ hp1 hp2]

/-- A datagram with a 3000-byte payload and a header of 20 to 60 bytes, sent with DF clear
and TTL at least 1 to a non-loopback interface of MTU 1500, is split into three
fragments. -/
theorem fragmentAndSend_3000 (fuel : Nat) (st : State) (datagram : IPv4Datagram)
    (ie : InterfaceEntry) (nextHopAddr : IPv4Address)
    (hfuel : 3 ≤ fuel) (hie : ie.isLoopback = false) (hmtu : ie.mtu = 1500)
    (hdf : datagram.dontFragment = false) (httl : 1 ≤ datagram.timeToLive)
    (hh1 : 20 ≤ datagram.headerLength) (hh2 : datagram.headerLength ≤ 60)
    (hlen : datagram.byteLength = datagram.headerLength + 3000) :
    fragmentAndSend fuel st datagram ie nextHopAddr =
      { state := st,
        events :=
          [Event.sendDatagramToOutput
             (fragmentAt (prepared datagram ie) datagram.headerLength 3000
               (Int.tdiv (1500 - datagram.headerLength) 8 * 8) datagram.fragmentOffset
               ((prepared datagram ie).name ++ "-frag") 0) ie nextHopAddr,
           Event.sendDatagramToOutput
             (fragmentAt (prepared datagram ie) datagram.headerLength 3000
               (Int.tdiv (1500 - datagram.headerLength) 8 * 8) datagram.fragmentOffset
               ((prepared datagram ie).name ++ "-frag")
               (Int.tdiv (1500 - datagram.headerLength) 8 * 8)) ie nextHopAddr,
           Event.sendDatagramToOutput
             (fragmentAt (prepared datagram ie) datagram.headerLength 3000
               (Int.tdiv (1500 - datagram.headerLength) 8 * 8) datagram.fragmentOffset
               ((prepared datagram ie).name ++ "-frag")
               (Int.tdiv (1500 - datagram.headerLength) 8 * 8 +
                 Int.tdiv (1500 - datagram.headerLength) 8 * 8)) ie nextHopAddr],
        status := Status.returned } := by
  have hdiv : Int.tdiv (1500 - datagram.headerLength) 8 = (1500 - datagram.headerLength) / 8 :=
    Int.tdiv_eq_ediv (by omega) (by omega)
  have hp : narrowInt (datagram.byteLength - datagram.headerLength) = 3000 := by
    rw [narrowInt_eq _ (by omega) (by omega)]; omega
  obtain ⟨n, rfl⟩ : ∃ n, fuel = n + 3 := ⟨fuel - 3, by omega⟩
  rw [fragmentAndSend_split (n + 3) st datagram ie nextHopAddr hie (by omega) (by omega) hdf
    (by rw [hmtu, hdiv]; omega)]
  rw [hmtu, hp]
  rw [fragmentLoop_step _ _ _ _ _ _ _ _ _ _ (by omega)]
  rw [fragmentLoop_step _ _ _ _ _ _ _ _ _ _ (by rw [hdiv]; omega)]
  rw [fragmentLoop_step _ _ _ _ _ _ _ _ _ _ (by rw [hdiv]; omega)]
  rw [fragmentLoop_done _ _ _ _ _ _ _ _ _ _ (by rw [hdiv]; omega)]
  simp


/-- Claim C4. For every call of `fragmentAndSend` on a non-loopback interface with a
datagram whose TTL is `ttl_in`: either `ttl_in - 1 < 0`, exactly one ICMP TIME_EXCEEDED
error is requested and nothing is handed to `sendDatagramToOutput`; or no TIME_EXCEEDED is
requested and every datagram or fragment handed to `sendDatagramToOutput` (within any
number of loop iterations) has TTL `ttl_in - 1`. -/
theorem fragmentAndSend_ttl_decremented (fuel : Nat) (st : State) (datagram : IPv4Datagram)
    (ie : InterfaceEntry) (nextHopAddr : IPv4Address) (hie : ie.isLoopback = false) :
    (datagram.timeToLive - 1 < 0 ∧
      (fragmentAndSend fuel st datagram ie nextHopAddr).events =
        [Event.sendErrorMessage (prepared datagram ie) ICMPType.ICMP_TIME_EXCEEDED 0]) ∨
    (0 ≤ datagram.timeToLive - 1 ∧
      (∀ d t c, Event.sendErrorMessage d t c ∈
          (fragmentAndSend fuel st datagram ie nextHopAddr).events →
        t ≠ ICMPType.ICMP_TIME_EXCEEDED) ∧
      ∀ f ie1 nh1, Event.sendDatagramToOutput f ie1 nh1 ∈
          (fragmentAndSend fuel st datagram ie nextHopAddr).events →
        f.timeToLive = datagram.timeToLive - 1) := by
  have httl : (prepared datagram ie).timeToLive = datagram.timeToLive - 1 := by
    rw [prepared_timeToLive]; simp [hie]
  rw [fragmentAndSend_eq]
  by_cases h1 : datagram.timeToLive - 1 < 0
  · left
    refine ⟨h1, ?_⟩
    simp [httl, h1]
  · right
    refine ⟨by omega, ?_⟩
    simp only [httl, h1, if_false]
    by_cases h2 : (prepared datagram ie).byteLength ≤ ie.mtu
    · simp only [h2, if_true]
      refine ⟨by simp, ?_⟩
      intro f ie1 nh1 hmem
      simp only [List.mem_singleton, Event.sendDatagramToOutput.injEq] at hmem
      rw [hmem.1, httl]
    · simp only [h2, if_false]
      by_cases h3 : (prepared datagram ie).dontFragment = true
      · simp only [h3, if_true]
        refine ⟨?_, by simp⟩
        intro d t c hmem
        simp only [List.mem_singleton, Event.sendErrorMessage.injEq] at hmem
        rw [hmem.2.1]
        decide
      · simp only [h3, hie, if_false, Bool.false_eq_true]
        by_cases h4 : Int.tdiv (ie.mtu - (prepared datagram ie).headerLength) 8 * 8 = 0
        · simp [h4]
        · simp only [h4, if_false]
          constructor
          · intro d t c hmem
            obtain ⟨o, _, ho⟩ := mem_fragmentLoop _ _ _ _ _ _ _ _ _ _ _ hmem
            cases ho
          · intro f ie1 nh1 hmem
            obtain ⟨o, _, ho⟩ := mem_fragmentLoop _ _ _ _ _ _ _ _ _ _ _ hmem
            injection ho with hf _ _
            rw [hf]
            simpa [fragmentAt] using httl

/-- Witness for `fragmentAndSend_ttl_decremented`: the 3000-byte datagram on `ppp0`. -/
theorem fragmentAndSend_ttl_decremented_witness :
    ppp0.isLoopback = false ∧
    ((udp3000.timeToLive - 1 < 0 ∧
      (fragmentAndSend 5 freshState udp3000 ppp0 0).events =
        [Event.sendErrorMessage (prepared udp3000 ppp0) ICMPType.ICMP_TIME_EXCEEDED 0]) ∨
    (0 ≤ udp3000.timeToLive - 1 ∧
      (∀ d t c, Event.sendErrorMessage d t c ∈
          (fragmentAndSend 5 freshState udp3000 ppp0 0).events →
        t ≠ ICMPType.ICMP_TIME_EXCEEDED) ∧
      ∀ f ie1 nh1, Event.sendDatagramToOutput f ie1 nh1 ∈
          (fragmentAndSend 5 freshState udp3000 ppp0 0).events →
        f.timeToLive = udp3000.timeToLive - 1)) :=
  ⟨rfl, fragmentAndSend_ttl_decremented 5 freshState udp3000 ppp0 0 rfl⟩

/-- Claim C2, counterexample. The datagram `udp3000` (20-byte header, 3000-byte payload, DF
clear, TTL 64) sent to `ppp0` (non-loopback, MTU 1500): no run of `fragmentAndSend` returns
having emitted exactly two fragments; the run that returns emits three, at fragment offsets
0, 1480 and 2960, of 1500 + 1500 + 60 bytes. -/
theorem fragmentAndSend_3000_two_fragments_counterexample :
    (¬ ∃ fuel, (fragmentAndSend fuel freshState udp3000 ppp0 0).status = Status.returned ∧
      (fragmentAndSend fuel freshState udp3000 ppp0 0).events.length = 2) ∧
    (fragmentAndSend 3 freshState udp3000 ppp0 0).status = Status.returned ∧
    (fragmentAndSend 3 freshState udp3000 ppp0 0).events =
      [Event.sendDatagramToOutput
         { udp3000 with name := "udp-frag", timeToLive := 63, moreFragments := true,
                        byteLength := 1500, fragmentOffset := 0 } ppp0 0,
       Event.sendDatagramToOutput
         { udp3000 with name := "udp-frag", timeToLive := 63, moreFragments := true,
                        byteLength := 1500, fragmentOffset := 1480 } ppp0 0,
       Event.sendDatagramToOutput
         { udp3000 with name := "udp-frag", timeToLive := 63, moreFragments := false,
                        byteLength := 60, fragmentOffset := 2960 } ppp0 0] := by
  refine ⟨?_, by decide, by decide⟩
  rintro ⟨fuel, hst, hlen⟩
  by_cases hf : 3 ≤ fuel
  · rw [fragmentAndSend_3000 fuel freshState udp3000 ppp0 0 hf rfl rfl rfl (by decide)
      (by decide) (by decide) (by decide)] at hlen
    simp at hlen
  · have h3 : fuel = 0 ∨ fuel = 1 ∨ fuel = 2 := by omega
    rcases h3 with h | h | h <;> subst h <;> revert hst <;> decide

/-- Claim C2, amended. Fragmenting a datagram that carries a 3000-byte payload behind a
header of 20 to 60 bytes, with DF clear, fragment offset 0 and moreFragments clear, for a
non-loopback interface of MTU 1500 (TTL at least 2, so that it is positive after the
decrement) emits exactly three fragments, at
fragment offsets 0, fragmentLength and 2 * fragmentLength counted in bytes, where
fragmentLength = floor((1500 - headerLength)/8) * 8 (1480 for a 20-byte header, so the
offsets are 0, 1480 and 2960); moreFragments is set on the first two and clear on the
third, and the byte lengths of the fragments sum to 3 * headerLength + 3000. -/
theorem fragmentAndSend_3000_three_fragments (fuel : Nat) (st : State)
    (datagram : IPv4Datagram) (ie : InterfaceEntry) (nextHopAddr : IPv4Address)
    (hfuel : 3 ≤ fuel) (hie : ie.isLoopback = false) (hmtu : ie.mtu = 1500)
    (hdf : datagram.dontFragment = false) (httl : 2 ≤ datagram.timeToLive)
    (hh1 : 20 ≤ datagram.headerLength) (hh2 : datagram.headerLength ≤ 60)
    (hlen : datagram.byteLength = datagram.headerLength + 3000)
    (hoff : datagram.fragmentOffset = 0) (hmf : datagram.moreFragments = false) :
    ∃ f1 f2 f3 : IPv4Datagram,
      (fragmentAndSend fuel st datagram ie nextHopAddr).status = Status.returned ∧
      (fragmentAndSend fuel st datagram ie nextHopAddr).events =
        [Event.sendDatagramToOutput f1 ie nextHopAddr,
         Event.sendDatagramToOutput f2 ie nextHopAddr,
         Event.sendDatagramToOutput f3 ie nextHopAddr] ∧
      f1.fragmentOffset = 0 ∧
      f2.fragmentOffset = (1500 - datagram.headerLength) / 8 * 8 ∧
      f3.fragmentOffset = 2 * ((1500 - datagram.headerLength) / 8 * 8) ∧
      (datagram.headerLength = 20 → f2.fragmentOffset = 1480 ∧ f3.fragmentOffset = 2960) ∧
      f1.moreFragments = true ∧ f2.moreFragments = true ∧ f3.moreFragments = false ∧
      f1.byteLength + f2.byteLength + f3.byteLength = 3 * datagram.headerLength + 3000 := by
  have hdiv : Int.tdiv (1500 - datagram.headerLength) 8 = (1500 - datagram.headerLength) / 8 :=
    Int.tdiv_eq_ediv (by omega) (by omega)
  obtain ⟨_, _, _, hm, _, _⟩ := prepared_fields datagram ie
  rw [fragmentAndSend_3000 fuel st datagram ie nextHopAddr hfuel hie hmtu hdf (by omega) hh1 hh2
    hlen]
  refine ⟨_, _, _, rfl, rfl, ?_⟩
  simp only [fragmentAt, hdiv, hoff, hm, hmf]
  have h1 : ¬ (0 + (1500 - datagram.headerLength) / 8 * 8 ≥ 3000) := by omega
  have h2 : ¬ ((1500 - datagram.headerLength) / 8 * 8 +
      (1500 - datagram.headerLength) / 8 * 8 ≥ 3000) := by omega
  have h3 : (1500 - datagram.headerLength) / 8 * 8 + (1500 - datagram.headerLength) / 8 * 8 +
      (1500 - datagram.headerLength) / 8 * 8 ≥ 3000 := by omega
  simp only [h1, h2, h3, if_true, if_false]
  refine ⟨by omega, by omega, by omega, ?_, trivial, trivial, trivial, by omega⟩
  intro h20
  omega

/-- Witness for `fragmentAndSend_3000_three_fragments`: the datagram `udp3000` on `ppp0`. -/
theorem fragmentAndSend_3000_three_fragments_witness :
    ∃ f1 f2 f3 : IPv4Datagram,
      (fragmentAndSend 3 freshState udp3000 ppp0 0).status = Status.returned ∧
      (fragmentAndSend 3 freshState udp3000 ppp0 0).events =
        [Event.sendDatagramToOutput f1 ppp0 0,
         Event.sendDatagramToOutput f2 ppp0 0,
         Event.sendDatagramToOutput f3 ppp0 0] ∧
      f1.fragmentOffset = 0 ∧
      f2.fragmentOffset = (1500 - udp3000.headerLength) / 8 * 8 ∧
      f3.fragmentOffset = 2 * ((1500 - udp3000.headerLength) / 8 * 8) ∧
      (udp3000.headerLength = 20 → f2.fragmentOffset = 1480 ∧ f3.fragmentOffset = 2960) ∧
      f1.moreFragments = true ∧ f2.moreFragments = true ∧ f3.moreFragments = false ∧
      f1.byteLength + f2.byteLength + f3.byteLength = 3 * udp3000.headerLength + 3000 :=
  fragmentAndSend_3000_three_fragments 3 freshState udp3000 ppp0 0 (by decide) rfl rfl rfl
    (by decide) (by decide) (by decide) (by decide) rfl rfl

/-- Claim C6, counterexample. The second fragment of `udp3000` on `ppp0` carries the payload
bytes from byte offset 1480 on and is emitted with fragmentOffset 1480, not
0 + 1480/8 = 185. -/
theorem fragmentAndSend_fragmentOffset_counterexample :
    ∃ f, (fragmentAndSend 3 freshState udp3000 ppp0 0).events[1]? =
        some (Event.sendDatagramToOutput f ppp0 0) ∧
      f.byteLength - f.headerLength = 1480 ∧
      f.fragmentOffset = 1480 ∧
      f.fragmentOffset ≠ udp3000.fragmentOffset + 1480 / 8 :=
  ⟨udp3000Fragment1, by decide, by decide, by decide, by decide⟩

/-- Claim C6, amended. For every datagram that `fragmentAndSend` splits, the `i`-th emitted
fragment (i = 0, 1, 2, ...) is the one whose payload starts at byte offset
`offset = i * fragmentLength` of the datagram's payload, and it is emitted with
fragmentOffset = original.fragmentOffset + offset: the field counts bytes, it is not divided
by 8. Here fragmentLength = ((MTU - headerLength)/8) * 8 with C++ integer division, which
is floor((MTU - headerLength)/8) * 8 whenever headerLength ≤ MTU. The offsets run below the
payload length as the code holds it in an `int`, which is below byteLength - headerLength
itself whenever that is not negative. -/
theorem fragmentAndSend_fragmentOffset (fuel : Nat) (st : State) (datagram : IPv4Datagram)
    (ie : InterfaceEntry) (nextHopAddr : IPv4Address)
    (hie : ie.isLoopback = false) (httl : 0 ≤ datagram.timeToLive - 1)
    (hlen : datagram.byteLength > ie.mtu) (hdf : datagram.dontFragment = false)
    (i : Nat) (f : IPv4Datagram) (ie1 : InterfaceEntry) (nh1 : IPv4Address)
    (hf : (fragmentAndSend fuel st datagram ie nextHopAddr).events[i]? =
      some (Event.sendDatagramToOutput f ie1 nh1)) :
    (i : Int) * (Int.tdiv (ie.mtu - datagram.headerLength) 8 * 8) <
      narrowInt (datagram.byteLength - datagram.headerLength) ∧
    (0 ≤ datagram.byteLength - datagram.headerLength →
      (i : Int) * (Int.tdiv (ie.mtu - datagram.headerLength) 8 * 8) <
        datagram.byteLength - datagram.headerLength) ∧
    f = fragmentAt (prepared datagram ie) datagram.headerLength
      (narrowInt (datagram.byteLength - datagram.headerLength))
      (Int.tdiv (ie.mtu - datagram.headerLength) 8 * 8) datagram.fragmentOffset
      ((prepared datagram ie).name ++ "-frag")
      ((i : Int) * (Int.tdiv (ie.mtu - datagram.headerLength) 8 * 8)) ∧
    f.fragmentOffset = datagram.fragmentOffset +
      (i : Int) * (Int.tdiv (ie.mtu - datagram.headerLength) 8 * 8) ∧
    (datagram.headerLength ≤ ie.mtu →
      Int.tdiv (ie.mtu - datagram.headerLength) 8 * 8 =
        (ie.mtu - datagram.headerLength) / 8 * 8) := by
  have hfloor : datagram.headerLength ≤ ie.mtu →
      Int.tdiv (ie.mtu - datagram.headerLength) 8 * 8 =
        (ie.mtu - datagram.headerLength) / 8 * 8 := by
    intro h
    rw [Int.tdiv_eq_ediv (by omega) (by omega)]
  by_cases hfl : Int.tdiv (ie.mtu - datagram.headerLength) 8 * 8 = 0
  · obtain ⟨hb, hh, hd, _, _, _⟩ := prepared_fields datagram ie
    have ht : (prepared datagram ie).timeToLive = datagram.timeToLive - 1 := by
      rw [prepared_timeToLive]; simp [hie]
    have h1 : ¬ (prepared datagram ie).timeToLive < 0 := by rw [ht]; omega
    have h2 : ¬ datagram.byteLength ≤ ie.mtu := by omega
    rw [fragmentAndSend_eq] at hf
    simp [h1, h2, hb, hh, hd, hdf, hie, hfl] at hf
  · rw [fragmentAndSend_split fuel st datagram ie nextHopAddr hie httl hlen hdf hfl] at hf
    obtain ⟨h1, h2⟩ := fragmentLoop_getElem? _ _ _ _ _ _ _ _ _ _ _ _ hf
    simp only [zero_add] at h1 h2
    injection h2 with h2 _ _
    refine ⟨h1, ?_, h2, ?_, hfloor⟩
    · intro h0
      have hle : narrowInt (datagram.byteLength - datagram.headerLength) ≤
          datagram.byteLength - datagram.headerLength := by
        unfold narrowInt; omega
      omega
    · rw [h2]
      simp [fragmentAt]

/-- Witness for `fragmentAndSend_fragmentOffset`: the second fragment of `udp3000` on
`ppp0`. -/
theorem fragmentAndSend_fragmentOffset_witness :
    ((1 : Nat) : Int) * (Int.tdiv (ppp0.mtu - udp3000.headerLength) 8 * 8) <
      narrowInt (udp3000.byteLength - udp3000.headerLength) ∧
    (0 ≤ udp3000.byteLength - udp3000.headerLength →
      ((1 : Nat) : Int) * (Int.tdiv (ppp0.mtu - udp3000.headerLength) 8 * 8) <
        udp3000.byteLength - udp3000.headerLength) ∧
    udp3000Fragment1 =
      fragmentAt (prepared udp3000 ppp0) udp3000.headerLength
      (narrowInt (udp3000.byteLength - udp3000.headerLength))
      (Int.tdiv (ppp0.mtu - udp3000.headerLength) 8 * 8) udp3000.fragmentOffset
      ((prepared udp3000 ppp0).name ++ "-frag")
      (((1 : Nat) : Int) * (Int.tdiv (ppp0.mtu - udp3000.headerLength) 8 * 8)) ∧
    udp3000Fragment1.fragmentOffset = udp3000.fragmentOffset +
      ((1 : Nat) : Int) * (Int.tdiv (ppp0.mtu - udp3000.headerLength) 8 * 8) ∧
    (udp3000.headerLength ≤ ppp0.mtu →
      Int.tdiv (ppp0.mtu - udp3000.headerLength) 8 * 8 =
        (ppp0.mtu - udp3000.headerLength) / 8 * 8) :=
  fragmentAndSend_fragmentOffset 3 freshState udp3000 ppp0 0 rfl (by decide) (by decide) rfl
    1 udp3000Fragment1 ppp0 0 (by decide)

/-- When the fragmentation loop has exited, the offset after the last fragment is not below
`payloadLength`. -/
theorem fragmentLoop_exit (datagram : IPv4Datagram) (ie : InterfaceEntry)
    (nextHopAddr : IPv4Address) (h p fl base : Int) (nm : String) :
    ∀ (fuel : Nat) (off : Int),
      (fragmentLoop datagram ie nextHopAddr h p fl base nm fuel off).2 = true →
      ¬ off + ((fragmentLoop datagram ie nextHopAddr h p fl base nm fuel off).1.length : Int)
          * fl < p := by
  intro fuel
  induction fuel with
  | zero =>
    intro off hdone
    simp only [fragmentLoop, decide_eq_true_eq] at hdone
    simpa [fragmentLoop] using hdone
  | succ n ih =>
    intro off hdone
    by_cases hlt : off < p
    · rw [fragmentLoop_step _ _ _ _ _ _ _ _ _ _ hlt] at hdone ⊢
      have := ih (off + fl) hdone
      simp only [List.length_cons]
      push_cast
      intro hc
      apply this
      have e : off + fl + ((fragmentLoop datagram ie nextHopAddr h p fl base nm n
          (off + fl)).1.length : Int) * fl =
          off + (((fragmentLoop datagram ie nextHopAddr h p fl base nm n
          (off + fl)).1.length : Int) + 1) * fl := by ring
      rw [e]
      exact hc
    · rw [fragmentLoop_done _ _ _ _ _ _ _ _ _ _ hlt]
      simpa using hlt

/-- The fragmentation loop exits within `fuel` iterations as soon as
`fuel * fragmentLength` reaches the remaining payload. -/
theorem fragmentLoop_returns (datagram : IPv4Datagram) (ie : InterfaceEntry)
    (nextHopAddr : IPv4Address) (h p fl base : Int) (nm : String) :
    ∀ (fuel : Nat) (off : Int), p - off ≤ (fuel : Int) * fl →
      (fragmentLoop datagram ie nextHopAddr h p fl base nm fuel off).2 = true := by
  intro fuel
  induction fuel with
  | zero =>
    intro off hb
    simp only [fragmentLoop, decide_eq_true_eq]
    simp only [Nat.cast_zero, zero_mul] at hb
    omega
  | succ n ih =>
    intro off hb
    by_cases hlt : off < p
    · rw [fragmentLoop_step _ _ _ _ _ _ _ _ _ _ hlt]
      apply ih
      have e : ((n + 1 : Nat) : Int) * fl = (n : Int) * fl + fl := by push_cast; ring
      rw [e] at hb
      omega
    · rw [fragmentLoop_done _ _ _ _ _ _ _ _ _ _ hlt]

theorem fragmentAt_byteLength (datagram : IPv4Datagram) (h p fl base : Int) (nm : String)
    (o : Int) :
    (fragmentAt datagram h p fl base nm o).byteLength =
      h + (if o + fl ≥ p then p - o else fl) := rfl

/-! ## `routeUnicastPacket` and `forwardMulticastPacket` -/

/-- `routeUnicastPacket` without an interface hint and without a usable route, MANET
routing off. -/
theorem routeUnicastPacket_unroutable (withManet : Bool) (rt : IIPv4RoutingTable)
    (fuel : Nat) (st : State) (datagram : IPv4Datagram) (destNextHopAddr : IPv4Address)
    (hroute : (rt.findBestMatchingRoute datagram.destAddress).bind (fun re => re.interface)
      = none)
    (hmanet : st.manetRouting = false) :
    routeUnicastPacket withManet rt fuel st datagram none destNextHopAddr =
      { state := { st with numUnroutable := st.numUnroutable + 1 },
        events := [Event.sendErrorMessage datagram ICMPType.ICMP_DESTINATION_UNREACHABLE 0],
        status := Status.returned } := by
  cases hre : rt.findBestMatchingRoute datagram.destAddress with
  | none =>
    simp only [routeUnicastPacket, hre]
    simp [hmanet]
  | some re =>
    rw [hre] at hroute
    change re.interface = none at hroute
    simp only [routeUnicastPacket, hre, hroute]
    simp [hmanet]

/-- The loop over the children calls `fragmentAndSend` for the children that the spec's
rule selects, in order. -/
theorem forwardToChildren_eq (fuel : Nat) (datagram : IPv4Datagram) (fromIE : InterfaceEntry)
    (destAddr : IPv4Address) :
    ∀ (children : List ChildInterface) (st : State),
      forwardToChildren fuel datagram fromIE destAddr children st =
        fragmentAndSendAll fuel datagram destAddr
          ((children.filter (specForwardsTo datagram fromIE destAddr)).map
            fun c => c.interface) st := by
  intro children
  induction children with
  | nil => intro st; rfl
  | cons c cs ih =>
    intro st
    unfold forwardToChildren
    by_cases h1 : c.interface.interfaceId = fromIE.interfaceId
    · have hsel : specForwardsTo datagram fromIE destAddr c = false := by
        simp [specForwardsTo, h1]
      simp only [h1, ne_eq, not_true_eq_false, if_false, List.filter_cons, hsel,
        Bool.false_eq_true]
      exact ih st
    · by_cases h2 : datagram.timeToLive ≤ c.interface.multicastTtlThreshold
      · have hsel : specForwardsTo datagram fromIE destAddr c = false := by
          simp [specForwardsTo, h1, h2]
        simp only [ne_eq, h1, not_false_eq_true, if_true, h2, List.filter_cons, hsel,
          Bool.false_eq_true, if_false]
        exact ih st
      · by_cases h3 : (c.isLeaf && !c.interface.multicastListeners.contains destAddr) = true
        · have hsel : specForwardsTo datagram fromIE destAddr c = false := by
            simp only [Bool.and_eq_true, Bool.not_eq_eq_eq_not, Bool.not_true] at h3
            simp only [specForwardsTo, h3.1, h3.2, Bool.not_true, Bool.or_self,
              Bool.and_false]
          simp only [ne_eq, h1, not_false_eq_true, if_true, h2, if_false, h3,
            List.filter_cons, hsel, Bool.false_eq_true]
          exact ih st
        · have hsel : specForwardsTo datagram fromIE destAddr c = true := by
            simp only [Bool.and_eq_true, Bool.not_eq_eq_eq_not, Bool.not_true, not_and,
              Bool.not_eq_false] at h3
            simp only [specForwardsTo, ne_eq, h1, not_false_eq_true, decide_True, gt_iff_lt,
              Bool.true_and, Bool.and_eq_true, decide_eq_true_eq, Bool.or_eq_true,
              Bool.not_eq_eq_eq_not, Bool.not_true]
            refine ⟨by omega, ?_⟩
            cases hl : c.isLeaf
            · exact Or.inl rfl
            · exact Or.inr (h3 hl)
          simp only [ne_eq, h1, not_false_eq_true, if_true, h2, if_false, h3,
            List.filter_cons, hsel, List.map_cons, fragmentAndSendAll, Bool.false_eq_true]
          congr 1
          funext s
          exact ih s


/-- Claim C13. For every datagram and every non-loopback interface with
MTU ≥ headerLength + 8, every datagram or fragment that `fragmentAndSend` hands to
`sendDatagramToOutput` (within any number of loop iterations) has byteLength ≤ MTU. -/
theorem fragmentAndSend_byteLength_le_mtu (fuel : Nat) (st : State)
    (datagram : IPv4Datagram) (ie : InterfaceEntry) (nextHopAddr : IPv4Address)
    (hie : ie.isLoopback = false) (hmtu : ie.mtu ≥ datagram.headerLength + 8)
    (f : IPv4Datagram) (ie1 : InterfaceEntry) (nh1 : IPv4Address)
    (hf : Event.sendDatagramToOutput f ie1 nh1 ∈
      (fragmentAndSend fuel st datagram ie nextHopAddr).events) :
    f.byteLength ≤ ie.mtu := by
  obtain ⟨hb, hh, _, _, _, _⟩ := prepared_fields datagram ie
  have hdiv : Int.tdiv (ie.mtu - datagram.headerLength) 8 =
      (ie.mtu - datagram.headerLength) / 8 := Int.tdiv_eq_ediv (by omega) (by omega)
  rw [fragmentAndSend_eq] at hf
  simp only at hf
  split at hf
  · simp at hf
  · split at hf
    · rename_i hle
      simp only [List.mem_singleton, Event.sendDatagramToOutput.injEq] at hf
      rw [hf.1]
      exact hle
    · split at hf
      · simp at hf
      · split at hf
        · rename_i hlo
          rw [hie] at hlo
          cases hlo
        · split at hf
          · simp at hf
          · obtain ⟨o, ho, he⟩ := mem_fragmentLoop _ _ _ _ _ _ _ _ _ _ _ hf
            injection he with he _ _
            rw [he, fragmentAt_byteLength, hh, hb, hdiv]
            split <;> omega

/-- Witness for `fragmentAndSend_byteLength_le_mtu`: the second fragment of `udp3000` on
`ppp0`. -/
theorem fragmentAndSend_byteLength_le_mtu_witness :
    udp3000Fragment1.byteLength ≤ ppp0.mtu :=
  fragmentAndSend_byteLength_le_mtu 3 freshState udp3000 ppp0 0 rfl (by decide)
    udp3000Fragment1 ppp0 0 (by decide)

/-- Claim C14, counterexample. The datagram `udp3000NegativeTtl` (DF clear, TTL -1) sent
through `fragmentAndSend` on the loopback interface `lo0`: no datagram is emitted, an ICMP
TIME_EXCEEDED error is requested instead. -/
theorem fragmentAndSend_loopback_negative_ttl_counterexample :
    lo0.isLoopback = true ∧ udp3000NegativeTtl.dontFragment = false ∧
    ∀ fuel, (fragmentAndSend fuel freshState udp3000NegativeTtl lo0 0).events =
      [Event.sendErrorMessage udp3000NegativeTtl ICMPType.ICMP_TIME_EXCEEDED 0] := by
  refine ⟨rfl, rfl, ?_⟩
  intro fuel
  rfl

/-- Claim C14, amended. For every datagram sent through `fragmentAndSend` on a loopback
interface, the TTL is not decremented, and when DF is clear and the TTL is not negative
exactly one datagram with the original byteLength, fragmentOffset and moreFragments is
emitted (no fragments are created), even if byteLength exceeds the interface MTU. -/
theorem fragmentAndSend_loopback (fuel : Nat) (st : State) (datagram : IPv4Datagram)
    (ie : InterfaceEntry) (nextHopAddr : IPv4Address) (hlo : ie.isLoopback = true) :
    (prepared datagram ie).timeToLive = datagram.timeToLive ∧
    (datagram.dontFragment = false → 0 ≤ datagram.timeToLive →
      fragmentAndSend fuel st datagram ie nextHopAddr =
        { state := st,
          events := [Event.sendDatagramToOutput (prepared datagram ie) ie nextHopAddr],
          status := Status.returned } ∧
      (prepared datagram ie).byteLength = datagram.byteLength ∧
      (prepared datagram ie).fragmentOffset = datagram.fragmentOffset ∧
      (prepared datagram ie).moreFragments = datagram.moreFragments) := by
  have ht : (prepared datagram ie).timeToLive = datagram.timeToLive := by
    rw [prepared_timeToLive]; simp [hlo]
  refine ⟨ht, ?_⟩
  intro hdf httl
  obtain ⟨hb, _, hd, hm, ho, _⟩ := prepared_fields datagram ie
  refine ⟨?_, hb, ho, hm⟩
  have h1 : ¬ (prepared datagram ie).timeToLive < 0 := by rw [ht]; omega
  rw [fragmentAndSend_eq]
  by_cases h2 : (prepared datagram ie).byteLength ≤ ie.mtu
  · simp only [h1, h2, if_true, if_false]
  · simp only [h1, h2, hd, hdf, hlo, if_true, if_false, Bool.false_eq_true]

/-- Witness for `fragmentAndSend_loopback`: the 3020-byte datagram `udp3000` on `lo0`,
whose MTU is 1500. -/
theorem fragmentAndSend_loopback_witness :
    (prepared udp3000 lo0).timeToLive = udp3000.timeToLive ∧
    (udp3000.dontFragment = false → 0 ≤ udp3000.timeToLive →
      fragmentAndSend 3 freshState udp3000 lo0 0 =
        { state := freshState,
          events := [Event.sendDatagramToOutput (prepared udp3000 lo0) lo0 0],
          status := Status.returned } ∧
      (prepared udp3000 lo0).byteLength = udp3000.byteLength ∧
      (prepared udp3000 lo0).fragmentOffset = udp3000.fragmentOffset ∧
      (prepared udp3000 lo0).moreFragments = udp3000.moreFragments) :=
  fragmentAndSend_loopback 3 freshState udp3000 lo0 0 rfl


/-- Claim C15. For every multicast datagram whose best-matching multicast route declares a
parent interface different from the arrival interface, `forwardMulticastPacket` returns in
its drop branch: nothing is passed on or emitted, the forwarded counter is unchanged and
the dropped counter increases by one (the multicast counter has been incremented on
entry). -/
theorem forwardMulticastPacket_wrong_parent (rt : IIPv4RoutingTable) (fuel : Nat)
    (st : State) (datagram : IPv4Datagram) (fromIE : InterfaceEntry)
    (route : IPv4MulticastRoute) (parent : InterfaceEntry)
    (hm : isMulticast datagram.destAddress = true)
    (hroute : rt.findBestMatchingMulticastRoute datagram.srcAddress datagram.destAddress =
      some route)
    (hparent : route.parent = some parent)
    (hne : parent.interfaceId ≠ fromIE.interfaceId) :
    forwardMulticastPacket rt fuel st datagram fromIE =
      { state := { st with numMulticast := st.numMulticast + 1,
                           numDropped := st.numDropped + 1 },
        events := [], status := Status.returned } ∧
    (forwardMulticastPacket rt fuel st datagram fromIE).events = [] ∧
    (forwardMulticastPacket rt fuel st datagram fromIE).state.numForwarded =
      st.numForwarded ∧
    (forwardMulticastPacket rt fuel st datagram fromIE).state.numDropped =
      st.numDropped + 1 := by
  have hres : forwardMulticastPacket rt fuel st datagram fromIE =
      { state := { st with numMulticast := st.numMulticast + 1,
                           numDropped := st.numDropped + 1 },
        events := [], status := Status.returned } := by
    simp only [forwardMulticastPacket, hm, hroute, hparent]
    simp [hne]
  rw [hres]
  exact ⟨rfl, rfl, rfl, rfl⟩

/-- Witness for `forwardMulticastPacket_wrong_parent`: the datagram `mcast` arrives on
`ppp1` while the route's parent is `ppp0`. -/
theorem forwardMulticastPacket_wrong_parent_witness :
    forwardMulticastPacket multicastTable 5 freshState mcast ppp1 =
      { state := { freshState with numMulticast := freshState.numMulticast + 1,
                                   numDropped := freshState.numDropped + 1 },
        events := [], status := Status.returned } ∧
    (forwardMulticastPacket multicastTable 5 freshState mcast ppp1).events = [] ∧
    (forwardMulticastPacket multicastTable 5 freshState mcast ppp1).state.numForwarded =
      freshState.numForwarded ∧
    (forwardMulticastPacket multicastTable 5 freshState mcast ppp1).state.numDropped =
      freshState.numDropped + 1 :=
  forwardMulticastPacket_wrong_parent multicastTable 5 freshState mcast ppp1 routeQR ppp0
    (by decide) rfl rfl (by decide)

/-- Claim C16. When the route lookup and the RPF check of `forwardMulticastPacket` pass
(the datagram arrived on the declared parent, or no parent is declared and it arrived on
the shortest-path interface to the source), the call counts the datagram as multicast and
forwarded and then behaves as the calls `fragmentAndSend(dup, c.interface, group)` made,
in the order of the route's child list, for exactly those children `c` with
`c.interface ≠ fromIE`, `datagram.ttl > c.interface.multicastTtlThreshold`, and
(`c` not a leaf or `c.interface` has a listener for the group). -/
theorem forwardMulticastPacket_children (rt : IIPv4RoutingTable) (fuel : Nat) (st : State)
    (datagram : IPv4Datagram) (fromIE : InterfaceEntry) (route : IPv4MulticastRoute)
    (hm : isMulticast datagram.destAddress = true)
    (hroute : rt.findBestMatchingMulticastRoute datagram.srcAddress datagram.destAddress =
      some route)
    (hrpf : (∃ parent, route.parent = some parent ∧
              parent.interfaceId = fromIE.interfaceId) ∨
            (route.parent = none ∧
              (rt.getInterfaceForDestAddr datagram.srcAddress).map (fun i => i.interfaceId) =
                some fromIE.interfaceId)) :
    forwardMulticastPacket rt fuel st datagram fromIE =
      fragmentAndSendAll fuel datagram datagram.destAddress
        ((route.children.filter fun c =>
            decide (c.interface.interfaceId ≠ fromIE.interfaceId) &&
            decide (datagram.timeToLive > c.interface.multicastTtlThreshold) &&
            (!c.isLeaf || c.interface.multicastListeners.contains datagram.destAddress)).map
          fun c => c.interface)
        { st with numMulticast := st.numMulticast + 1,
                  numForwarded := st.numForwarded + 1 } := by
  have hloop := forwardToChildren_eq fuel datagram fromIE datagram.destAddress route.children
    { st with numMulticast := st.numMulticast + 1, numForwarded := st.numForwarded + 1 }
  have hspec : (specForwardsTo datagram fromIE datagram.destAddress) = fun c =>
      decide (c.interface.interfaceId ≠ fromIE.interfaceId) &&
      decide (datagram.timeToLive > c.interface.multicastTtlThreshold) &&
      (!c.isLeaf || c.interface.multicastListeners.contains datagram.destAddress) := by
    funext c; rfl
  rw [hspec] at hloop
  rw [← hloop]
  rcases hrpf with ⟨parent, hp, hid⟩ | ⟨hp, hsp⟩
  · simp only [forwardMulticastPacket, hm, hroute, hp]
    simp [hid]
  · simp only [forwardMulticastPacket, hm, hroute, hp, getShortestPathInterfaceToSource, hsp]
    simp

/-- Witness for `forwardMulticastPacket_children`: destination 224.1.2.3 arriving on the
parent `ppp0` with TTL 5; the route has the leaf children Q (threshold 3, listener) and R
(threshold 10). -/
theorem forwardMulticastPacket_children_witness :
    forwardMulticastPacket multicastTable 5 freshState mcast ppp0 =
      fragmentAndSendAll 5 mcast mcast.destAddress
        ((routeQR.children.filter fun c =>
            decide (c.interface.interfaceId ≠ ppp0.interfaceId) &&
            decide (mcast.timeToLive > c.interface.multicastTtlThreshold) &&
            (!c.isLeaf || c.interface.multicastListeners.contains mcast.destAddress)).map
          fun c => c.interface)
        { freshState with numMulticast := freshState.numMulticast + 1,
                          numForwarded := freshState.numForwarded + 1 } :=
  forwardMulticastPacket_children multicastTable 5 freshState mcast ppp0 routeQR (by decide)
    rfl (Or.inl ⟨ppp0, rfl, rfl⟩)

/-- Claim C17, counterexample. With MANET routing off, `routeUnicastPacket` called with the
interface hint `ppp0` and the next-hop hint 5 hands the datagram to `fragmentAndSend` on
`ppp0` with the unspecified next-hop address, not with the hint. -/
theorem routeUnicastPacket_hint_ignored_counterexample :
    freshState.manetRouting = false ∧
    ∀ fuel,
      routeUnicastPacket false routerTable fuel freshState udp100 (some ppp0) 5 =
          fragmentAndSend fuel { freshState with numForwarded := 1 } udp100 ppp0
            UNSPECIFIED_ADDRESS ∧
      (routeUnicastPacket false routerTable fuel freshState udp100 (some ppp0) 5).events =
        [Event.sendDatagramToOutput { udp100 with timeToLive := 63 } ppp0 0] := by
  refine ⟨rfl, ?_⟩
  intro fuel
  exact ⟨rfl, rfl⟩

/-- Claim C17, amended. Whenever `routeUnicastPacket` is called with an interface hint and
a specified (non-zero) next-hop hint while MANET routing is on, the datagram is handed to
`fragmentAndSend` on the hinted interface with exactly the hinted next-hop address,
whatever the routing table contains; while MANET routing is off, the next-hop hint is not
looked at. -/
theorem routeUnicastPacket_hint (withManet : Bool) (rt : IIPv4RoutingTable) (fuel : Nat)
    (st : State) (datagram : IPv4Datagram) (destIE : InterfaceEntry)
    (destNextHopAddr : IPv4Address) :
    (st.manetRouting = true → isUnspecified destNextHopAddr = false →
      routeUnicastPacket withManet rt fuel st datagram (some destIE) destNextHopAddr =
        fragmentAndSend fuel { st with numForwarded := st.numForwarded + 1 } datagram destIE
          destNextHopAddr) ∧
    (st.manetRouting = false →
      routeUnicastPacket withManet rt fuel st datagram (some destIE) destNextHopAddr =
        routeUnicastPacket withManet rt fuel st datagram (some destIE)
          UNSPECIFIED_ADDRESS) := by
  constructor
  · intro hm hn
    simp [routeUnicastPacket, hm, hn]
  · intro hm
    simp [routeUnicastPacket, hm]

/-- Witness for `routeUnicastPacket_hint`: MANET routing on, hint `ppp0` with next hop 5. -/
theorem routeUnicastPacket_hint_witness :
    (({ freshState with manetRouting := true } : State).manetRouting = true →
      isUnspecified 5 = false →
      routeUnicastPacket true routerTable 3 { freshState with manetRouting := true } udp100
          (some ppp0) 5 =
        fragmentAndSend 3
          { ({ freshState with manetRouting := true } : State) with
            numForwarded := ({ freshState with manetRouting := true } : State).numForwarded
              + 1 } udp100 ppp0 5) ∧
    (({ freshState with manetRouting := true } : State).manetRouting = false →
      routeUnicastPacket true routerTable 3 { freshState with manetRouting := true } udp100
          (some ppp0) 5 =
        routeUnicastPacket true routerTable 3 { freshState with manetRouting := true } udp100
          (some ppp0) UNSPECIFIED_ADDRESS) :=
  routeUnicastPacket_hint true routerTable 3 { freshState with manetRouting := true } udp100
    ppp0 5

/-- Claim C18. When `routeUnicastPacket` is called without an interface hint and the
routing table has no route matching the destination (MANET routing off), the call returns
with the unroutable counter increased by exactly one, the forwarded counter and the
dropped counter unchanged, exactly one ICMP DESTINATION_UNREACHABLE requested for the
datagram, and nothing handed to any interface. -/
theorem routeUnicastPacket_no_route (withManet : Bool) (rt : IIPv4RoutingTable) (fuel : Nat)
    (st : State) (datagram : IPv4Datagram) (destNextHopAddr : IPv4Address)
    (hroute : rt.findBestMatchingRoute datagram.destAddress = none)
    (hmanet : st.manetRouting = false) :
    (routeUnicastPacket withManet rt fuel st datagram none destNextHopAddr).status =
      Status.returned ∧
    (routeUnicastPacket withManet rt fuel st datagram none destNextHopAddr).state.numUnroutable
      = st.numUnroutable + 1 ∧
    (routeUnicastPacket withManet rt fuel st datagram none destNextHopAddr).state.numForwarded
      = st.numForwarded ∧
    (routeUnicastPacket withManet rt fuel st datagram none destNextHopAddr).state.numDropped
      = st.numDropped ∧
    ∃ code,
      (routeUnicastPacket withManet rt fuel st datagram none destNextHopAddr).events =
        [Event.sendErrorMessage datagram ICMPType.ICMP_DESTINATION_UNREACHABLE code] := by
  rw [routeUnicastPacket_unroutable withManet rt fuel st datagram destNextHopAddr
    (by rw [hroute]; rfl) hmanet]
  exact ⟨rfl, rfl, rfl, rfl, 0, rfl⟩

/-- Witness for `routeUnicastPacket_no_route`: the datagram `udp100` and a table without
unicast routes. -/
theorem routeUnicastPacket_no_route_witness :
    (routeUnicastPacket false emptyTable 3 freshState udp100 none 0).status =
      Status.returned ∧
    (routeUnicastPacket false emptyTable 3 freshState udp100 none 0).state.numUnroutable
      = freshState.numUnroutable + 1 ∧
    (routeUnicastPacket false emptyTable 3 freshState udp100 none 0).state.numForwarded
      = freshState.numForwarded ∧
    (routeUnicastPacket false emptyTable 3 freshState udp100 none 0).state.numDropped
      = freshState.numDropped ∧
    ∃ code,
      (routeUnicastPacket false emptyTable 3 freshState udp100 none 0).events =
        [Event.sendErrorMessage udp100 ICMPType.ICMP_DESTINATION_UNREACHABLE code] :=
  routeUnicastPacket_no_route false emptyTable 3 freshState udp100 0 rfl rfl

/-- Claim C19, counterexample. For the datagram `udp100` and a table without routes, the
ICMP DESTINATION_UNREACHABLE error that `routeUnicastPacket` requests carries code 0, not
code 1. -/
theorem routeUnicastPacket_unreachable_code_counterexample :
    (routeUnicastPacket false emptyTable 3 freshState udp100 none 0).events =
      [Event.sendErrorMessage udp100 ICMPType.ICMP_DESTINATION_UNREACHABLE 0] ∧
    ¬ ∃ d, Event.sendErrorMessage d ICMPType.ICMP_DESTINATION_UNREACHABLE 1 ∈
      (routeUnicastPacket false emptyTable 3 freshState udp100 none 0).events := by
  refine ⟨rfl, ?_⟩
  rintro ⟨d, hd⟩
  have hev : (routeUnicastPacket false emptyTable 3 freshState udp100 none 0).events =
      [Event.sendErrorMessage udp100 ICMPType.ICMP_DESTINATION_UNREACHABLE 0] := rfl
  rw [hev] at hd
  simp at hd

/-- Claim C19, amended. The ICMP error that `routeUnicastPacket` requests for an unroutable
unicast destination (no interface hint, and no route or a route without interface; MANET
routing off) is a DESTINATION_UNREACHABLE with code 0, the network-unreachable code, and it
is the only error requested. -/
theorem routeUnicastPacket_unreachable_code (withManet : Bool) (rt : IIPv4RoutingTable)
    (fuel : Nat) (st : State) (datagram : IPv4Datagram) (destNextHopAddr : IPv4Address)
    (hroute : (rt.findBestMatchingRoute datagram.destAddress).bind (fun re => re.interface)
      = none)
    (hmanet : st.manetRouting = false) :
    (∃ d, Event.sendErrorMessage d ICMPType.ICMP_DESTINATION_UNREACHABLE 0 ∈
      (routeUnicastPacket withManet rt fuel st datagram none destNextHopAddr).events) ∧
    ∀ d type code, Event.sendErrorMessage d type code ∈
        (routeUnicastPacket withManet rt fuel st datagram none destNextHopAddr).events →
      type = ICMPType.ICMP_DESTINATION_UNREACHABLE ∧ code = 0 := by
  rw [routeUnicastPacket_unroutable withManet rt fuel st datagram destNextHopAddr hroute
    hmanet]
  constructor
  · exact ⟨datagram, by simp⟩
  · intro d type code hmem
    simp only [List.mem_singleton, Event.sendErrorMessage.injEq] at hmem
    exact ⟨hmem.2.1, hmem.2.2⟩

/-- Witness for `routeUnicastPacket_unreachable_code`: the datagram `udp100` and a table
without unicast routes. -/
theorem routeUnicastPacket_unreachable_code_witness :
    (∃ d, Event.sendErrorMessage d ICMPType.ICMP_DESTINATION_UNREACHABLE 0 ∈
      (routeUnicastPacket false emptyTable 3 freshState udp100 none 0).events) ∧
    ∀ d type code, Event.sendErrorMessage d type code ∈
        (routeUnicastPacket false emptyTable 3 freshState udp100 none 0).events →
      type = ICMPType.ICMP_DESTINATION_UNREACHABLE ∧ code = 0 :=
  routeUnicastPacket_unreachable_code false emptyTable 3 freshState udp100 0 rfl rfl

/-- Claim C20, counterexample. A module configured with the default TTL 70000 encapsulates
a unicast packet whose control info gives no TTL: the datagram's TTL is 4464, that is
70000 - 65536, not the configured default. -/
theorem encapsulate_timeToLive_narrowed_counterexample :
    ¬ (udpControlInfo.timeToLive > 0) ∧ isLinkLocalMulticast udpControlInfo.destAddr = false ∧
    isMulticast udpControlInfo.destAddr = false ∧ wideTtlState.defaultTimeToLive = 70000 ∧
    ∃ d, (encapsulate 20 routerTable wideTtlState udpPacket udpControlInfo).2 = some d ∧
      d.timeToLive = 4464 ∧ d.timeToLive ≠ wideTtlState.defaultTimeToLive :=
  ⟨by decide, by decide, by decide, rfl, _, rfl, by decide, by decide⟩

/-- Claim C20, amended. Whenever `encapsulate` produces a datagram (the control info's
source address is unspecified or belongs to an interface), the datagram's TTL is the value
chosen by this priority, as a `short` holds it (16 bits, two's complement): the control
info's timeToLive if it is > 0; otherwise 1 if the destination is link-local multicast;
otherwise the configured multicast TTL if the destination is multicast; otherwise the
configured default TTL. The TTL is the chosen value itself whenever the control info's
timeToLive and the two configured TTLs lie in -32768 .. 32767. -/
theorem encapsulate_timeToLive (IP_HEADER_BYTES : Int) (rt : IIPv4RoutingTable) (st : State)
    (transportPacket : cPacket) (controlInfo : IPv4ControlInfo)
    (hsrc : isUnspecified controlInfo.srcAddr = true ∨
      (rt.getInterfaceByAddress controlInfo.srcAddr).isSome = true) :
    ∃ d, (encapsulate IP_HEADER_BYTES rt st transportPacket controlInfo).2 = some d ∧
      d.timeToLive = narrowShort
        (if controlInfo.timeToLive > 0 then controlInfo.timeToLive
         else if isLinkLocalMulticast controlInfo.destAddr then 1
         else if isMulticast controlInfo.destAddr then st.defaultMCTimeToLive
         else st.defaultTimeToLive) ∧
      (controlInfo.timeToLive < 32768 →
        -32768 ≤ st.defaultMCTimeToLive → st.defaultMCTimeToLive < 32768 →
        -32768 ≤ st.defaultTimeToLive → st.defaultTimeToLive < 32768 →
        d.timeToLive =
          if controlInfo.timeToLive > 0 then controlInfo.timeToLive
          else if isLinkLocalMulticast controlInfo.destAddr then 1
          else if isMulticast controlInfo.destAddr then st.defaultMCTimeToLive
          else st.defaultTimeToLive) := by
  have hok : ¬ ((!isUnspecified controlInfo.srcAddr &&
      (rt.getInterfaceByAddress controlInfo.srcAddr).isNone) = true) := by
    rcases hsrc with h | h
    · simp [h]
    · cases hi : rt.getInterfaceByAddress controlInfo.srcAddr with
      | none => rw [hi] at h; cases h
      | some x => simp
  have hchain : ∀ d : IPv4Datagram,
      d.timeToLive =
        (if controlInfo.timeToLive > 0 then narrowShort controlInfo.timeToLive
         else if isLinkLocalMulticast controlInfo.destAddr then narrowShort 1
         else if isMulticast controlInfo.destAddr then narrowShort st.defaultMCTimeToLive
         else narrowShort st.defaultTimeToLive) →
      d.timeToLive = narrowShort
        (if controlInfo.timeToLive > 0 then controlInfo.timeToLive
         else if isLinkLocalMulticast controlInfo.destAddr then 1
         else if isMulticast controlInfo.destAddr then st.defaultMCTimeToLive
         else st.defaultTimeToLive) ∧
      (controlInfo.timeToLive < 32768 →
        -32768 ≤ st.defaultMCTimeToLive → st.defaultMCTimeToLive < 32768 →
        -32768 ≤ st.defaultTimeToLive → st.defaultTimeToLive < 32768 →
        d.timeToLive =
          if controlInfo.timeToLive > 0 then controlInfo.timeToLive
          else if isLinkLocalMulticast controlInfo.destAddr then 1
          else if isMulticast controlInfo.destAddr then st.defaultMCTimeToLive
          else st.defaultTimeToLive) := by
    intro d hd
    rw [hd]
    constructor
    · split_ifs <;> rfl
    · intro h1 h2 h3 h4 h5
      split_ifs
      · exact narrowShort_eq _ (by omega) h1
      · exact narrowShort_eq _ (by omega) (by omega)
      · exact narrowShort_eq _ h2 h3
      · exact narrowShort_eq _ h4 h5
  unfold encapsulate
  simp only [if_neg hok]
  cases hu : isUnspecified controlInfo.srcAddr
  · exact ⟨_, rfl, hchain _ rfl⟩
  · exact ⟨_, rfl, hchain _ rfl⟩

/-- Witness for `encapsulate_timeToLive`: a UDP packet with no source address and no TTL
hint gets the default TTL of the module. -/
theorem encapsulate_timeToLive_witness :
    ∃ d, (encapsulate 20 routerTable freshState { name := "app", byteLength := 80 }
        udpControlInfo).2 = some d ∧
      d.timeToLive = narrowShort
        (if udpControlInfo.timeToLive > 0 then udpControlInfo.timeToLive
         else if isLinkLocalMulticast udpControlInfo.destAddr then 1
         else if isMulticast udpControlInfo.destAddr then freshState.defaultMCTimeToLive
         else freshState.defaultTimeToLive) ∧
      (udpControlInfo.timeToLive < 32768 →
        -32768 ≤ freshState.defaultMCTimeToLive → freshState.defaultMCTimeToLive < 32768 →
        -32768 ≤ freshState.defaultTimeToLive → freshState.defaultTimeToLive < 32768 →
        d.timeToLive =
          if udpControlInfo.timeToLive > 0 then udpControlInfo.timeToLive
          else if isLinkLocalMulticast udpControlInfo.destAddr then 1
          else if isMulticast udpControlInfo.destAddr then freshState.defaultMCTimeToLive
          else freshState.defaultTimeToLive) :=
  encapsulate_timeToLive 20 routerTable freshState { name := "app", byteLength := 80 }
    udpControlInfo (Or.inl rfl)

end IPv4
namespace IPv4

/-! ## Claims about `encapsulate` and `decapsulate` -/

/-- What `encapsulate` returns: the error of line 778 exactly when the source address is
specified and bound to no interface, with the state untouched; otherwise a datagram whose
source address is the control info's, with the identification taken from the counter and
the counter advanced by one. -/
theorem encapsulate_cases (IP_HEADER_BYTES : Int) (rt : IIPv4RoutingTable) (st : State)
    (transportPacket : cPacket) (controlInfo : IPv4ControlInfo) :
    (isUnspecified controlInfo.srcAddr = false ∧
      rt.getInterfaceByAddress controlInfo.srcAddr = none ∧
      encapsulate IP_HEADER_BYTES rt st transportPacket controlInfo = (st, none)) ∨
    ((isUnspecified controlInfo.srcAddr = true ∨
        (rt.getInterfaceByAddress controlInfo.srcAddr).isSome = true) ∧
      ∃ d, encapsulate IP_HEADER_BYTES rt st transportPacket controlInfo =
          ({ st with curFragmentId := st.curFragmentId + 1 }, some d) ∧
        d.srcAddress = controlInfo.srcAddr ∧ d.destAddress = controlInfo.destAddr ∧
        d.identification = st.curFragmentId ∧
        d.transportProtocol = controlInfo.protocol ∧
        d.typeOfService = controlInfo.typeOfService ∧
        d.encapsulatedPacket = some transportPacket) := by
  cases hu : isUnspecified controlInfo.srcAddr with
  | true =>
    right
    refine ⟨Or.inl rfl, ?_⟩
    have h0 : controlInfo.srcAddr = 0 := by
      simpa [isUnspecified] using hu
    simp only [encapsulate, hu, Bool.not_true, Bool.false_and, Bool.false_eq_true, if_false]
    exact ⟨_, rfl, h0.symm, rfl, rfl, rfl, rfl, rfl⟩
  | false =>
    cases hi : rt.getInterfaceByAddress controlInfo.srcAddr with
    | none =>
      left
      refine ⟨rfl, rfl, ?_⟩
      simp [encapsulate, hu, hi]
    | some ie =>
      right
      refine ⟨Or.inr rfl, ?_⟩
      simp only [encapsulate, hu, hi, Bool.not_false, Option.isNone_some, Bool.and_false,
        Bool.false_eq_true, if_false, if_true]
      exact ⟨_, rfl, rfl, rfl, rfl, rfl, rfl, rfl⟩

/-- The function `decapsulate` gives back the packet that a datagram carries, with a control
info filled from the datagram's header. -/
theorem decapsulate_some (fromIE : Option InterfaceEntry) (blank : IPv4ControlInfo)
    (datagram : IPv4Datagram) (packet : cPacket)
    (h : datagram.encapsulatedPacket = some packet) :
    ∃ attached, decapsulate fromIE blank datagram = some (packet, attached) ∧
      attached.protocol = datagram.transportProtocol ∧
      attached.srcAddr = datagram.srcAddress ∧ attached.destAddr = datagram.destAddress ∧
      attached.typeOfService = datagram.typeOfService ∧
      attached.timeToLive = datagram.timeToLive := by
  simp only [decapsulate, IPv4Datagram.decapsulate, h]
  exact ⟨_, rfl, rfl, rfl, rfl, rfl, rfl⟩

/-- Claim C21. `IPv4::encapsulate` fails with the configuration error of line 778 if and
only if the control info's source address is specified and no interface has that address;
on failure the identification counter (with the rest of the module state) is left
unchanged, and when it succeeds the datagram's source address equals the control info's
source address, the unspecified address included. -/
theorem encapsulate_fails_iff (IP_HEADER_BYTES : Int) (rt : IIPv4RoutingTable) (st : State)
    (transportPacket : cPacket) (controlInfo : IPv4ControlInfo) :
    ((encapsulate IP_HEADER_BYTES rt st transportPacket controlInfo).2 = none ↔
      (isUnspecified controlInfo.srcAddr = false ∧
        rt.getInterfaceByAddress controlInfo.srcAddr = none)) ∧
    ((encapsulate IP_HEADER_BYTES rt st transportPacket controlInfo).2 = none →
      (encapsulate IP_HEADER_BYTES rt st transportPacket controlInfo).1.curFragmentId =
          st.curFragmentId ∧
        (encapsulate IP_HEADER_BYTES rt st transportPacket controlInfo).1 = st) ∧
    (∀ datagram,
      (encapsulate IP_HEADER_BYTES rt st transportPacket controlInfo).2 = some datagram →
      datagram.srcAddress = controlInfo.srcAddr ∧
        (isUnspecified controlInfo.srcAddr = true →
          isUnspecified datagram.srcAddress = true)) := by
  rcases encapsulate_cases IP_HEADER_BYTES rt st transportPacket controlInfo with
    ⟨hu, hi, he⟩ | ⟨hv, d, he, hsrc, -⟩
  · rw [he]
    refine ⟨⟨fun _ => ⟨hu, hi⟩, fun _ => rfl⟩, fun _ => ⟨rfl, rfl⟩, ?_⟩
    intro datagram hd
    cases hd
  · rw [he]
    refine ⟨⟨fun h => (by cases h), ?_⟩, fun h => (by cases h), ?_⟩
    · rintro ⟨hu, hi⟩
      rcases hv with hv | hv
      · rw [hu] at hv; cases hv
      · rw [hi] at hv; cases hv
    · intro datagram hd
      have hdd : d = datagram := by
        simpa using hd
      subst hdd
      exact ⟨hsrc, fun h => by rw [hsrc]; exact h⟩

/-- Witness for `encapsulate_fails_iff`: the packet `udpPacket` with `udpControlInfo`
(source address unspecified) is encapsulated into a datagram without source address. -/
theorem encapsulate_fails_iff_witness :
    (encapsulate 20 routerTable freshState udpPacket udpControlInfo).2 = some udpEncapsulated ∧
    udpEncapsulated.srcAddress = udpControlInfo.srcAddr ∧
    (isUnspecified udpControlInfo.srcAddr = true →
      isUnspecified udpEncapsulated.srcAddress = true) :=
  ⟨by decide,
    (encapsulate_fails_iff 20 routerTable freshState udpPacket udpControlInfo).2.2
      udpEncapsulated (by decide)⟩

/-- Claim C22. For every payload and every control info whose source address is valid
(unspecified, or the address of an interface), `IPv4::encapsulate` produces a datagram,
and `IPv4::decapsulate` of that datagram returns the same payload with a control info whose
protocol, srcAddr, destAddr and typeOfService equal those of the control info given to
`encapsulate`. -/
theorem decapsulate_encapsulate (IP_HEADER_BYTES : Int) (rt : IIPv4RoutingTable)
    (st : State) (transportPacket : cPacket) (controlInfo : IPv4ControlInfo)
    (fromIE : Option InterfaceEntry) (blank : IPv4ControlInfo)
    (hsrc : isUnspecified controlInfo.srcAddr = true ∨
      (rt.getInterfaceByAddress controlInfo.srcAddr).isSome = true) :
    ∃ datagram attached,
      (encapsulate IP_HEADER_BYTES rt st transportPacket controlInfo).2 = some datagram ∧
      decapsulate fromIE blank datagram = some (transportPacket, attached) ∧
      attached.protocol = controlInfo.protocol ∧ attached.srcAddr = controlInfo.srcAddr ∧
      attached.destAddr = controlInfo.destAddr ∧
      attached.typeOfService = controlInfo.typeOfService := by
  rcases encapsulate_cases IP_HEADER_BYTES rt st transportPacket controlInfo with
    ⟨hu, hi, -⟩ | ⟨-, d, he, h1, h2, -, h4, h5, h6⟩
  · rcases hsrc with hv | hv
    · rw [hu] at hv; cases hv
    · rw [hi] at hv; cases hv
  · obtain ⟨a, ha, hp, hs, hdst, ht, -⟩ := decapsulate_some fromIE blank d transportPacket h6
    refine ⟨d, a, ?_, ha, hp.trans h4, hs.trans h1, hdst.trans h2, ht.trans h5⟩
    rw [he]

/-- Witness for `decapsulate_encapsulate`: the packet `udpPacket` with `udpControlInfo`,
received back on `ppp0`. -/
theorem decapsulate_encapsulate_witness :
    ∃ datagram attached,
      (encapsulate 20 routerTable freshState udpPacket udpControlInfo).2 = some datagram ∧
      decapsulate (some ppp0) udpControlInfo datagram = some (udpPacket, attached) ∧
      attached.protocol = udpControlInfo.protocol ∧
      attached.srcAddr = udpControlInfo.srcAddr ∧
      attached.destAddr = udpControlInfo.destAddr ∧
      attached.typeOfService = udpControlInfo.typeOfService :=
  decapsulate_encapsulate 20 routerTable freshState udpPacket udpControlInfo (some ppp0)
    udpControlInfo (Or.inl (by decide))

/-- Claim C23. The identifications assigned by two consecutive successful calls of
`IPv4::encapsulate` (nothing in between writes the counter `curFragmentId`) differ modulo
2^16: the second is the first plus one, also after reduction modulo 2^16. -/
theorem encapsulate_identification_succ (IP_HEADER_BYTES : Int)
    (rt1 rt2 : IIPv4RoutingTable) (st st1 between st2 : State) (p1 p2 : cPacket)
    (c1 c2 : IPv4ControlInfo) (d1 d2 : IPv4Datagram)
    (h1 : encapsulate IP_HEADER_BYTES rt1 st p1 c1 = (st1, some d1))
    (hbetween : between.curFragmentId = st1.curFragmentId)
    (h2 : encapsulate IP_HEADER_BYTES rt2 between p2 c2 = (st2, some d2)) :
    d2.identification = d1.identification + 1 ∧
    d2.identification % 65536 = (d1.identification % 65536 + 1) % 65536 ∧
    d2.identification % 65536 ≠ d1.identification % 65536 := by
  have e1 : d1.identification = st.curFragmentId ∧ st1.curFragmentId = st.curFragmentId + 1 := by
    rcases encapsulate_cases IP_HEADER_BYTES rt1 st p1 c1 with
      ⟨-, -, he⟩ | ⟨-, d, he, -, -, h3, -⟩
    · rw [he] at h1; cases h1
    · rw [he] at h1
      cases h1
      exact ⟨h3, rfl⟩
  have e2 : d2.identification = between.curFragmentId := by
    rcases encapsulate_cases IP_HEADER_BYTES rt2 between p2 c2 with
      ⟨-, -, he⟩ | ⟨-, d, he, -, -, h3, -⟩
    · rw [he] at h2; cases h2
    · rw [he] at h2
      cases h2
      exact h3
  obtain ⟨e1a, e1b⟩ := e1
  have hsucc : d2.identification = d1.identification + 1 := by omega
  refine ⟨hsucc, ?_, ?_⟩ <;> omega

/-- Witness for `encapsulate_identification_succ`: two packets encapsulated one after the
other from the fresh state get the identifications 0 and 1. -/
theorem encapsulate_identification_succ_witness :
    udpEncapsulatedNext.identification = udpEncapsulated.identification + 1 ∧
    udpEncapsulatedNext.identification % 65536 =
      (udpEncapsulated.identification % 65536 + 1) % 65536 ∧
    udpEncapsulatedNext.identification % 65536 ≠ udpEncapsulated.identification % 65536 :=
  encapsulate_identification_succ 20 routerTable routerTable freshState
    { freshState with curFragmentId := 1 } { freshState with curFragmentId := 1 }
    { freshState with curFragmentId := 2 } udpPacket udpPacket udpControlInfo udpControlInfo
    udpEncapsulated udpEncapsulatedNext (by decide) rfl (by decide)

end IPv4
namespace IPv4

/-! ## Claims about local delivery and the loopback interface -/

/-- The reassembly step leaves every member variable but `lastCheckTime` as it was, and
calls nothing but the fragment buffer. -/
theorem reassemble_spec (simTime : Int) (completed : Option IPv4Datagram) (st : State)
    (datagram : IPv4Datagram) :
    (reassemble simTime completed st datagram).1.numLocalDeliver = st.numLocalDeliver ∧
    (reassemble simTime completed st datagram).1.mapping = st.mapping ∧
    (reassemble simTime completed st datagram).1.manetRouting = st.manetRouting ∧
    (∀ e ∈ (reassemble simTime completed st datagram).2.1, e.isFragbufCall = true) ∧
    ((reassemble simTime completed st datagram).2.2 =
      if datagram.fragmentOffset ≠ 0 ∨ datagram.moreFragments = true then completed
      else some datagram) := by
  unfold reassemble
  by_cases hf : datagram.fragmentOffset ≠ 0 ∨ datagram.moreFragments = true
  · have hb : (decide (datagram.fragmentOffset ≠ 0) || datagram.moreFragments) = true := by
      simpa using hf
    rw [if_pos hb, if_pos hf]
    by_cases ht : simTime ≥ st.lastCheckTime + 10
    · simp [ht, Event.isFragbufCall]
    · simp [ht, Event.isFragbufCall]
  · have hb : ¬ (decide (datagram.fragmentOffset ≠ 0) || datagram.moreFragments) = true := by
      simpa using hf
    rw [if_neg hb, if_neg hf]
    simp

/-- Claim C24. In `IPv4::reassembleAndDeliver`, for every complete datagram (the datagram
`complete` that reaches line 610, carrying its higher-layer packet `payload`) whose protocol
is none of ICMP, IP-in-IP and DSR: if the protocol has a registered egress slot whose gate
is connected, the decapsulated payload is sent to that slot and the local-delivered counter
increases by one; otherwise (slot absent or not connected) the only call after reassembly
is one ICMP DESTINATION_UNREACHABLE request with the protocol-unreachable code, nothing is
sent to a higher layer and the local-delivered counter is unchanged. -/
theorem reassembleAndDeliver_demultiplex (withManet : Bool) (prot : IPProtocolId)
    (ICMP_DU_PROTOCOL_UNREACHABLE : Int) (isPathOK : Int → Bool) (simTime : Int)
    (completed : Option IPv4Datagram) (fromIE : Option InterfaceEntry)
    (blank : IPv4ControlInfo) (st : State) (datagram : IPv4Datagram)
    (st1 : State) (calls : List Event) (complete : IPv4Datagram) (payload : cPacket)
    (hr : reassemble simTime completed st datagram = (st1, calls, some complete))
    (hicmp : complete.transportProtocol ≠ prot.IP_PROT_ICMP)
    (hip : complete.transportProtocol ≠ prot.IP_PROT_IP)
    (hdsr : complete.transportProtocol ≠ prot.IP_PROT_DSR)
    (hpayload : complete.encapsulatedPacket = some payload) :
    (∀ e ∈ calls, e.isFragbufCall = true) ∧
    (0 ≤ st.mapping.findOutputGateForProtocol complete.transportProtocol ∧
      isPathOK (st.mapping.findOutputGateForProtocol complete.transportProtocol) = true →
      ∃ attached, decapsulate fromIE blank complete = some (payload, attached) ∧
        reassembleAndDeliver withManet prot ICMP_DU_PROTOCOL_UNREACHABLE isPathOK simTime
            completed fromIE blank st datagram =
          { state := { st1 with numLocalDeliver := st.numLocalDeliver + 1 },
            events := calls ++ [Event.send (PacketClass.other payload)
              (some (ControlInfo.ipv4ControlInfo attached))
              (Gate.transportOut
                (st.mapping.findOutputGateForProtocol complete.transportProtocol))],
            status := Status.returned }) ∧
    (¬ (0 ≤ st.mapping.findOutputGateForProtocol complete.transportProtocol ∧
        isPathOK (st.mapping.findOutputGateForProtocol complete.transportProtocol) = true) →
      st1.numLocalDeliver = st.numLocalDeliver ∧
      reassembleAndDeliver withManet prot ICMP_DU_PROTOCOL_UNREACHABLE isPathOK simTime
          completed fromIE blank st datagram =
        { state := st1,
          events := calls ++ [Event.sendErrorMessage complete
            ICMPType.ICMP_DESTINATION_UNREACHABLE ICMP_DU_PROTOCOL_UNREACHABLE],
          status := Status.returned }) := by
  obtain ⟨hn, hm, -, hc, -⟩ := reassemble_spec simTime completed st datagram
  rw [hr] at hn hm hc
  simp only at hn hm hc
  refine ⟨hc, ?_, ?_⟩
  · rintro ⟨hg, hok⟩
    obtain ⟨a, ha, -⟩ := decapsulate_some fromIE blank complete payload hpayload
    refine ⟨a, ha, ?_⟩
    simp only [reassembleAndDeliver, hr, hicmp, hip, hdsr, if_false, hm, ha, hn]
    simp [hg, hok]
  · intro hno
    refine ⟨hn, ?_⟩
    simp only [reassembleAndDeliver, hr, hicmp, hip, hdsr, if_false, hm]
    have hb : (decide (st.mapping.findOutputGateForProtocol complete.transportProtocol ≥ 0) &&
        isPathOK (st.mapping.findOutputGateForProtocol complete.transportProtocol)) =
        false := by
      cases hok : isPathOK (st.mapping.findOutputGateForProtocol complete.transportProtocol)
      · simp
      · simp only [Bool.and_true, decide_eq_false_iff_not]
        intro hg
        exact hno ⟨hg, hok⟩
    simp [hb]

/-- Witness for `reassembleAndDeliver_demultiplex`: the unfragmented UDP datagram `udp100`
arrives while UDP is registered at slot 0 and every gate is connected, and while no
protocol is registered. -/
theorem reassembleAndDeliver_demultiplex_witness :
    (∀ e ∈ ([] : List Event), e.isFragbufCall = true) ∧
    (0 ≤ udpRegistered.mapping.findOutputGateForProtocol udp100.transportProtocol ∧
      (fun _ => true) (udpRegistered.mapping.findOutputGateForProtocol
        udp100.transportProtocol) = true →
      ∃ attached, decapsulate (some ppp0) udpControlInfo udp100 =
          some ({ name := "udp", byteLength := 80 }, attached) ∧
        reassembleAndDeliver false ianaProtocols 2 (fun _ => true) 0 none (some ppp0)
            udpControlInfo udpRegistered udp100 =
          { state := { udpRegistered with
              numLocalDeliver := udpRegistered.numLocalDeliver + 1 },
            events := [] ++ [Event.send (PacketClass.other { name := "udp", byteLength := 80 })
              (some (ControlInfo.ipv4ControlInfo attached))
              (Gate.transportOut
                (udpRegistered.mapping.findOutputGateForProtocol udp100.transportProtocol))],
            status := Status.returned }) ∧
    (¬ (0 ≤ udpRegistered.mapping.findOutputGateForProtocol udp100.transportProtocol ∧
        (fun _ => true) (udpRegistered.mapping.findOutputGateForProtocol
          udp100.transportProtocol) = true) →
      udpRegistered.numLocalDeliver = udpRegistered.numLocalDeliver ∧
      reassembleAndDeliver false ianaProtocols 2 (fun _ => true) 0 none (some ppp0)
          udpControlInfo udpRegistered udp100 =
        { state := udpRegistered,
          events := [] ++ [Event.sendErrorMessage udp100
            ICMPType.ICMP_DESTINATION_UNREACHABLE 2],
          status := Status.returned }) :=
  reassembleAndDeliver_demultiplex false ianaProtocols 2 (fun _ => true) 0 none (some ppp0)
    udpControlInfo udpRegistered udp100 udpRegistered [] udp100
    { name := "udp", byteLength := 80 } rfl (by decide) (by decide) (by decide) rfl

end IPv4
namespace IPv4

/-- A call of the fragment buffer does not pass a datagram on inside the module. -/
theorem staysInModule_of_isFragbufCall (e : Event) (h : e.isFragbufCall = true) :
    e.staysInModule = false := by
  cases e <;> simp_all [Event.isFragbufCall, Event.staysInModule]

/-- No call recorded by `reassembleAndDeliver` passes a datagram on inside the module. -/
theorem reassembleAndDeliver_leaves (withManet : Bool) (prot : IPProtocolId)
    (ICMP_DU_PROTOCOL_UNREACHABLE : Int) (isPathOK : Int → Bool) (simTime : Int)
    (completed : Option IPv4Datagram) (fromIE : Option InterfaceEntry)
    (blank : IPv4ControlInfo) (st : State) (datagram : IPv4Datagram) :
    ∀ e ∈ (reassembleAndDeliver withManet prot ICMP_DU_PROTOCOL_UNREACHABLE isPathOK simTime
      completed fromIE blank st datagram).events, e.staysInModule = false := by
  obtain ⟨-, -, -, hc, -⟩ := reassemble_spec simTime completed st datagram
  have hcalls : ∀ e ∈ (reassemble simTime completed st datagram).2.1,
      e.staysInModule = false :=
    fun e he => staysInModule_of_isFragbufCall e (hc e he)
  intro e he
  unfold reassembleAndDeliver at he
  simp only at he
  split at he
  · exact hcalls e he
  · split at he
    · split at he
      · exact hcalls e he
      · simp only [List.mem_append, List.mem_singleton] at he
        rcases he with he | he
        · exact hcalls e he
        · subst he; rfl
    · split at he
      · split at he
        · exact hcalls e he
        · simp only [List.mem_append, List.mem_singleton] at he
          rcases he with he | he
          · exact hcalls e he
          · subst he; rfl
      · split at he
        · split at he
          · split at he
            · simp only [List.mem_append, List.mem_singleton] at he
              rcases he with he | he
              · exact hcalls e he
              · subst he; rfl
            · exact hcalls e he
          · exact hcalls e he
        · split at he
          · split at he
            · exact hcalls e he
            · simp only [List.mem_append, List.mem_singleton] at he
              rcases he with he | he
              · exact hcalls e he
              · subst he; rfl
          · simp only [List.mem_append, List.mem_singleton] at he
            rcases he with he | he
            · exact hcalls e he
            · subst he; rfl

/-- A datagram that passes the header check on a loopback ingress interface goes to
`reassembleAndDeliver`, after the control-info cleanup, and nowhere else. -/
theorem loopback_ingress_eq (withManet : Bool) (prot : IPProtocolId)
    (rt : IIPv4RoutingTable) (headerHit : Bool) (fuel : Nat) (st : State)
    (datagram : IPv4Datagram) (fromIE : InterfaceEntry)
    (hlo : fromIE.isLoopback = true)
    (hpass : (datagram.hasBitError && headerHit) = false) :
    handleIncomingDatagram withManet prot rt headerHit fuel st datagram fromIE =
      { state := st, events := [Event.reassembleAndDeliver (cleaned prot datagram)],
        status := Status.returned } := by
  simp only [handleIncomingDatagram, hpass, hlo, cleaned, Bool.false_eq_true, if_false,
    if_true]

/-- Claim C25. For every datagram received with a loopback ingress interface that is not
discarded by the header-corruption check, `IPv4::handleIncomingDatagram` hands it (after the
control-info cleanup) to `reassembleAndDeliver` and makes no other call and no change to a
counter, whatever the destination address: no unicast routing, no multicast forwarding, no
broadcast re-emission. Hence a datagram that `sendDatagramToOutput` emits on a loopback
interface enters the ingress pipeline once: that call is the `handleIncomingDatagram` call
above, and no call recorded by `reassembleAndDeliver` passes a datagram on inside the
module. -/
theorem handleIncomingDatagram_loopback (withManet : Bool) (prot : IPProtocolId)
    (rt : IIPv4RoutingTable) (headerHit : Bool) (fuel : Nat) (link : LinkLayer) (st : State)
    (datagram : IPv4Datagram) (fromIE : InterfaceEntry) (nextHopAddr : IPv4Address)
    (hlo : fromIE.isLoopback = true)
    (hpass : (datagram.hasBitError && headerHit) = false) :
    handleIncomingDatagram withManet prot rt headerHit fuel st datagram fromIE =
      { state := st, events := [Event.reassembleAndDeliver (cleaned prot datagram)],
        status := Status.returned } ∧
    (cleaned prot datagram).destAddress = datagram.destAddress ∧
    sendDatagramToOutput withManet prot rt headerHit fuel link st datagram fromIE
        nextHopAddr =
      handleIncomingDatagram withManet prot rt headerHit fuel st datagram fromIE ∧
    (∀ (code : Int) (isPathOK : Int → Bool) (simTime : Int)
      (completed : Option IPv4Datagram) (arrivedOn : Option InterfaceEntry)
      (blank : IPv4ControlInfo) (st1 : State),
      ∀ e ∈ (reassembleAndDeliver withManet prot code isPathOK simTime completed arrivedOn
        blank st1 (cleaned prot datagram)).events, e.staysInModule = false) := by
  refine ⟨loopback_ingress_eq withManet prot rt headerHit fuel st datagram
    fromIE hlo hpass, ?_, ?_, ?_⟩
  · unfold cleaned
    simp only
    split <;> rfl
  · simp only [sendDatagramToOutput, hlo, if_true]
  · intro code isPathOK simTime completed arrivedOn blank st1
    exact reassembleAndDeliver_leaves withManet prot code isPathOK simTime completed
      arrivedOn blank st1 (cleaned prot datagram)

/-- Witness for `handleIncomingDatagram_loopback`: the datagram `udp100`, whose destination
10.0.3.2 is not a local address of the router, received on the loopback interface `lo0`. -/
theorem handleIncomingDatagram_loopback_witness :
    handleIncomingDatagram false ianaProtocols routerTable false 1 freshState udp100 lo0 =
      { state := freshState, events := [Event.reassembleAndDeliver udp100],
        status := Status.returned } ∧
    routerTable.isLocalAddress udp100.destAddress = false :=
  ⟨((handleIncomingDatagram_loopback false ianaProtocols routerTable false 1
      { ETHERTYPE_IPv4 := 2048, makeMulticastAddress := fun _ => 0,
        getDirectAddressResolution := fun _ => 0 }
      freshState udp100 lo0 0 rfl rfl).1.trans (by decide)), rfl⟩

end IPv4
namespace IPv4

/-! ## Claims about the ingress dispatch -/

/-- The multicast branch of `handleIncomingDatagram` (lines 207-225) for a datagram that
passes the header check. -/
theorem multicast_ingress_eq (withManet : Bool) (prot : IPProtocolId)
    (rt : IIPv4RoutingTable) (headerHit : Bool) (fuel : Nat) (st : State)
    (datagram : IPv4Datagram) (fromIE : InterfaceEntry)
    (hlo : fromIE.isLoopback = false)
    (hm : isMulticast datagram.destAddress = true)
    (hpass : (datagram.hasBitError && headerHit) = false) :
    handleIncomingDatagram withManet prot rt headerHit fuel st datagram fromIE =
      { state := st,
        events :=
          (if fromIE.multicastGroups.contains datagram.destAddress ||
              (rt.isMulticastForwardingEnabled &&
                datagram.transportProtocol == prot.IP_PROT_IGMP) then
            [Event.reassembleAndDeliver (cleaned prot datagram).dup]
          else []) ++
          (if rt.isIPForwardingEnabled = true ∧
              isLinkLocalMulticast datagram.destAddress = false ∧
              datagram.timeToLive ≠ 0 then
            [Event.forwardMulticastPacket (cleaned prot datagram) fromIE]
          else []),
        status := Status.returned } := by
  unfold handleIncomingDatagram cleaned
  simp only [hpass, hlo, Bool.false_eq_true, if_false]
  cases hc : (!(datagram.transportProtocol == prot.IP_PROT_MANET ||
      datagram.transportProtocol == prot.IP_PROT_DSR) || datagram.moreFragments)
  · simp only [Bool.false_eq_true, if_false, hm, if_true]
    cases hf : rt.isIPForwardingEnabled <;>
      cases hl : isLinkLocalMulticast datagram.destAddress <;>
      by_cases ht : datagram.timeToLive = 0 <;> simp [ht]
  · simp only [if_true, hm]
    cases hf : rt.isIPForwardingEnabled <;>
      cases hl : isLinkLocalMulticast datagram.destAddress <;>
      by_cases ht : datagram.timeToLive = 0 <;> simp [ht]

/-- Claim C26, counterexample. The multicast datagram `mcastCorrupted` (destination
224.1.2.3, TTL 5, bit error set) arrives on the non-loopback interface `ppp0` of a router
with IP forwarding enabled, and the header-corruption check hits: the multicast forwarder is
not invoked although forwarding is enabled, the destination is not link-local and the TTL
is not 0; an ICMP PARAMETER_PROBLEM error is requested instead. -/
theorem handleIncomingDatagram_multicast_corrupted_counterexample :
    ppp0.isLoopback = false ∧ isMulticast mcastCorrupted.destAddress = true ∧
    multicastTable.isIPForwardingEnabled = true ∧
    isLinkLocalMulticast mcastCorrupted.destAddress = false ∧
    mcastCorrupted.timeToLive ≠ 0 ∧
    ∀ fuel,
      handleIncomingDatagram false ianaProtocols multicastTable true fuel freshState
          mcastCorrupted ppp0 =
        { state := freshState,
          events := [Event.sendErrorMessage mcastCorrupted ICMPType.ICMP_PARAMETER_PROBLEM 0],
          status := Status.returned } := by
  refine ⟨rfl, by decide, rfl, by decide, by decide, ?_⟩
  intro fuel
  rfl

/-- Claim C26, amended. For a multicast-destined datagram received on a non-loopback
interface that is not discarded by the header-corruption check,
`IPv4::handleIncomingDatagram` invokes the multicast forwarder (on the datagram after the
control-info cleanup) if and only if IP forwarding is enabled, the destination is not
link-local multicast, and the TTL is not 0; in every other case the original datagram is
dropped without being forwarded. Before that, and independently, a local copy (a duplicate,
which has no control info) goes to `reassembleAndDeliver` when the interface is joined to
the group, or multicast forwarding is enabled and the protocol is IGMP. No counter
changes. -/
theorem handleIncomingDatagram_multicast (withManet : Bool) (prot : IPProtocolId)
    (rt : IIPv4RoutingTable) (headerHit : Bool) (fuel : Nat) (st : State)
    (datagram : IPv4Datagram) (fromIE : InterfaceEntry)
    (hlo : fromIE.isLoopback = false)
    (hm : isMulticast datagram.destAddress = true)
    (hpass : (datagram.hasBitError && headerHit) = false) :
    handleIncomingDatagram withManet prot rt headerHit fuel st datagram fromIE =
      { state := st,
        events :=
          (if fromIE.multicastGroups.contains datagram.destAddress ||
              (rt.isMulticastForwardingEnabled &&
                datagram.transportProtocol == prot.IP_PROT_IGMP) then
            [Event.reassembleAndDeliver (cleaned prot datagram).dup]
          else []) ++
          (if rt.isIPForwardingEnabled = true ∧
              isLinkLocalMulticast datagram.destAddress = false ∧
              datagram.timeToLive ≠ 0 then
            [Event.forwardMulticastPacket (cleaned prot datagram) fromIE]
          else []),
        status := Status.returned } ∧
    ((∃ d ie, Event.forwardMulticastPacket d ie ∈
        (handleIncomingDatagram withManet prot rt headerHit fuel st datagram
          fromIE).events) ↔
      (rt.isIPForwardingEnabled = true ∧
        isLinkLocalMulticast datagram.destAddress = false ∧ datagram.timeToLive ≠ 0)) := by
  have heq := multicast_ingress_eq withManet prot rt headerHit fuel st datagram
    fromIE hlo hm hpass
  refine ⟨heq, ?_⟩
  rw [heq]
  constructor
  · rintro ⟨d, ie, hmem⟩
    simp only [List.mem_append] at hmem
    rcases hmem with hmem | hmem
    · split at hmem
      · simp at hmem
      · simp at hmem
    · split at hmem
      · assumption
      · simp at hmem
  · intro hcond
    refine ⟨cleaned prot datagram, fromIE, ?_⟩
    simp only [List.mem_append]
    right
    rw [if_pos hcond]
    exact List.mem_singleton.mpr rfl

/-- Witness for `handleIncomingDatagram_multicast`: the datagram `mcast` (224.1.2.3, TTL 5)
on `ppp0`, which is not joined to the group, is handed to the multicast forwarder. -/
theorem handleIncomingDatagram_multicast_witness :
    handleIncomingDatagram false ianaProtocols multicastTable false 1 freshState mcast ppp0 =
      { state := freshState, events := [Event.forwardMulticastPacket mcast ppp0],
        status := Status.returned } ∧
    (multicastTable.isIPForwardingEnabled = true ∧
      isLinkLocalMulticast mcast.destAddress = false ∧ mcast.timeToLive ≠ 0) :=
  ⟨(handleIncomingDatagram_multicast false ianaProtocols multicastTable false 1 freshState
      mcast ppp0 rfl (by decide) rfl).1.trans (by decide),
    by decide⟩

end IPv4
namespace IPv4

/-! ## Claims about `handlePacketFromHL` -/

/-- A call of `fragmentAndSend` on a loopback interface returns, emits on no other interface,
and changes no counter but `numDropped`. -/
theorem fragmentAndSend_on_loopback (fuel : Nat) (st : State) (datagram : IPv4Datagram)
    (ie : InterfaceEntry) (nextHopAddr : IPv4Address) (hlo : ie.isLoopback = true) :
    (fragmentAndSend fuel st datagram ie nextHopAddr).status = Status.returned ∧
    (fragmentAndSend fuel st datagram ie nextHopAddr).state.numUnroutable = st.numUnroutable ∧
    (fragmentAndSend fuel st datagram ie nextHopAddr).state.numMulticast = st.numMulticast ∧
    (fragmentAndSend fuel st datagram ie nextHopAddr).state.numForwarded = st.numForwarded ∧
    (∀ d ie1 nh, Event.sendDatagramToOutput d ie1 nh ∈
      (fragmentAndSend fuel st datagram ie nextHopAddr).events → ie1 = ie) := by
  rw [fragmentAndSend_eq]
  simp only [hlo, if_true]
  split
  · simp
  · split
    · simp
      intro d ie1 nh _ h _
      exact h
    · split
      · simp
      · simp
        intro d ie1 nh _ h _
        exact h

/-- The multicast branch of `handlePacketFromHL` (lines 349-372) when no outgoing interface
can be selected: the loopback copy, then the drop. -/
theorem handlePacketFromHL_multicast_none (withManet : Bool) (IP_HEADER_BYTES : Int) (prot : IPProtocolId)
    (rt : IIPv4RoutingTable) (ift : IInterfaceTable) (fuel : Nat) (st : State)
    (packet : cMessage) (st1 : State) (datagram : IPv4Datagram)
    (controlInfo : Option IPv4ControlInfo)
    (hift : ift.interfaces ≠ [])
    (hd : datagramFromHL IP_HEADER_BYTES prot rt st packet = some (st1, datagram, controlInfo))
    (hm : isMulticast datagram.destAddress = true)
    (hno : determineOutgoingInterfaceForMulticastDatagram rt ift datagram
      (requestedInterface ift controlInfo) = none) :
    handlePacketFromHL withManet IP_HEADER_BYTES prot rt ift fuel st packet =
      Result.andThen
        (if requestedMulticastLoop controlInfo = true then
          match ift.getFirstLoopbackInterface with
          | some loopbackIF =>
            fragmentAndSend fuel st1 datagram.dup loopbackIF datagram.destAddress
          | none => { state := st1, events := [], status := Status.returned }
        else { state := st1, events := [], status := Status.returned })
        (fun s => { state := { s with numUnroutable := s.numUnroutable + 1 }, events := [],
                    status := Status.returned }) := by
  have hlen : ¬ ift.interfaces.length = 0 := by
    simpa using hift
  unfold handlePacketFromHL
  rw [if_neg hlen]
  simp only [hd, hm, if_true]
  cases controlInfo with
  | none =>
    simp only [requestedInterface] at hno
    simp only [hno, Bool.and_self, Bool.true_and, if_true, requestedMulticastLoop]
  | some ci =>
    simp only [requestedInterface] at hno
    simp only [hno, Bool.and_true, requestedMulticastLoop]

/-- Lines 313-329 of `handlePacketFromHL` change no counter. -/
theorem datagramFromHL_counters (IP_HEADER_BYTES : Int) (prot : IPProtocolId)
    (rt : IIPv4RoutingTable) (st : State) (packet : cMessage) (st1 : State)
    (datagram : IPv4Datagram) (controlInfo : Option IPv4ControlInfo)
    (hd : datagramFromHL IP_HEADER_BYTES prot rt st packet =
      some (st1, datagram, controlInfo)) :
    st1.numUnroutable = st.numUnroutable ∧ st1.numMulticast = st.numMulticast ∧
    st1.numForwarded = st.numForwarded ∧ st1.numDropped = st.numDropped := by
  have henc : ∀ (p : cPacket) (ci : IPv4ControlInfo) (s : State) (d : IPv4Datagram),
      encapsulate IP_HEADER_BYTES rt st p ci = (s, some d) →
      s.numUnroutable = st.numUnroutable ∧ s.numMulticast = st.numMulticast ∧
      s.numForwarded = st.numForwarded ∧ s.numDropped = st.numDropped := by
    intro p ci s d h
    rcases encapsulate_cases IP_HEADER_BYTES rt st p ci with ⟨-, -, he⟩ | ⟨-, d0, he, -⟩
    · rw [he] at h; cases h
    · rw [he] at h
      cases h
      exact ⟨rfl, rfl, rfl, rfl⟩
  unfold datagramFromHL at hd
  split at hd
  · split at hd
    · split at hd
      · cases hd
        exact ⟨rfl, rfl, rfl, rfl⟩
      · cases hd
    · cases hd
      exact ⟨rfl, rfl, rfl, rfl⟩
  · split at hd
    · split at hd
      · rename_i h
        cases hd
        exact henc _ _ _ _ h
      · cases hd
    · cases hd
  · split at hd
    · split at hd
      · rename_i h
        cases hd
        exact henc _ _ _ _ h
      · cases hd
    · cases hd

/-- Claim C28, counterexample. The higher layer sends `mcastFromHL` (a UDP packet for
224.1.2.3, no source address, no interface hint, multicast loop on), and no route and no
multicast-capable interface exist, so that no outgoing interface can be selected. On a node
whose only interface is the loopback interface `lo0` the unroutable counter becomes 1, but
a copy of the datagram is emitted on the loopback interface. On a node without any
interface nothing is emitted, but the unroutable counter stays 0: the packet is counted as
dropped before it is looked at. -/
theorem handlePacketFromHL_loopback_copy_counterexample :
    isMulticast mcastControlInfo.destAddr = true ∧
    loopbackOnly.getInterfaceById mcastControlInfo.interfaceId = none ∧
    noInterfaces.getInterfaceById mcastControlInfo.interfaceId = none ∧
    emptyTable.findBestMatchingRoute mcastControlInfo.destAddr = none ∧
    emptyTable.getInterfaceByAddress mcastControlInfo.srcAddr = none ∧
    loopbackOnly.getFirstMulticastInterface = none ∧
    noInterfaces.getFirstMulticastInterface = none ∧
    (∀ fuel,
      handlePacketFromHL false 20 ianaProtocols emptyTable loopbackOnly fuel freshState
          mcastFromHL =
        { state := { freshState with curFragmentId := 1, numUnroutable := 1 },
          events := [Event.sendDatagramToOutput
            { mcastEncapsulated with srcAddress := lo0.ipAddress } lo0 3758162435],
          status := Status.returned }) ∧
    (∀ fuel,
      handlePacketFromHL false 20 ianaProtocols emptyTable noInterfaces fuel freshState
          mcastFromHL =
        { state := { freshState with numDropped := 1 }, events := [],
          status := Status.returned }) := by
  refine ⟨by decide, rfl, rfl, rfl, rfl, rfl, rfl, ?_, ?_⟩ <;> intro fuel <;> rfl

/-- Claim C28, amended. On a node that has at least one interface, take a packet from the
higher layer that `IPv4::handlePacketFromHL` turns into a multicast datagram (a datagram
handed down as it is, or a packet that `encapsulate` accepts) for which no outgoing
interface can be selected (no MULTICAST_IF hint, no matching route, no interface with the
source address, no multicast-capable interface), the interface table giving a loopback
interface as its first loopback interface. Then the original is dropped: the call returns,
the unroutable counter increases by one, the multicast and forwarded counters do not
change, and nothing is emitted on a non-loopback interface. When the multicast-loop flag is
clear or the node has no loopback interface, nothing is emitted at all; otherwise the calls
made are those of `fragmentAndSend` for the loopback copy of lines 354-359. On a node
without any interface the packet is dropped on entry instead (lines 303-310): the dropped
counter increases by one, no other counter changes, and nothing is emitted. -/
theorem handlePacketFromHL_multicast_no_interface (withManet : Bool)
    (IP_HEADER_BYTES : Int) (prot : IPProtocolId) (rt : IIPv4RoutingTable)
    (ift : IInterfaceTable) (fuel : Nat) (st : State) (packet : cMessage) (st1 : State)
    (datagram : IPv4Datagram) (controlInfo : Option IPv4ControlInfo)
    (hlo : ∀ lo, ift.getFirstLoopbackInterface = some lo → lo.isLoopback = true)
    (hd : datagramFromHL IP_HEADER_BYTES prot rt st packet =
      some (st1, datagram, controlInfo))
    (hm : isMulticast datagram.destAddress = true)
    (hno : determineOutgoingInterfaceForMulticastDatagram rt ift datagram
      (requestedInterface ift controlInfo) = none) :
    (ift.interfaces ≠ [] →
      (handlePacketFromHL withManet IP_HEADER_BYTES prot rt ift fuel st packet).status =
        Status.returned ∧
      (handlePacketFromHL withManet IP_HEADER_BYTES prot rt ift fuel st
        packet).state.numUnroutable = st.numUnroutable + 1 ∧
      (handlePacketFromHL withManet IP_HEADER_BYTES prot rt ift fuel st
        packet).state.numMulticast = st.numMulticast ∧
      (handlePacketFromHL withManet IP_HEADER_BYTES prot rt ift fuel st
        packet).state.numForwarded = st.numForwarded ∧
      (∀ d ie nh, Event.sendDatagramToOutput d ie nh ∈
          (handlePacketFromHL withManet IP_HEADER_BYTES prot rt ift fuel st packet).events →
        ie.isLoopback = true) ∧
      (requestedMulticastLoop controlInfo = false ∨ ift.getFirstLoopbackInterface = none →
        (handlePacketFromHL withManet IP_HEADER_BYTES prot rt ift fuel st packet).events =
          []) ∧
      (∀ lo, requestedMulticastLoop controlInfo = true →
        ift.getFirstLoopbackInterface = some lo →
        (handlePacketFromHL withManet IP_HEADER_BYTES prot rt ift fuel st packet).events =
          (fragmentAndSend fuel st1 datagram.dup lo datagram.destAddress).events)) ∧
    (ift.interfaces = [] →
      handlePacketFromHL withManet IP_HEADER_BYTES prot rt ift fuel st packet =
        { state := { st with numDropped := st.numDropped + 1 }, events := [],
          status := Status.returned }) := by
  refine ⟨?_, ?_⟩
  swap
  · intro hnil
    unfold handlePacketFromHL
    simp [hnil]
  intro hift
  obtain ⟨hu, hmc, hfw, -⟩ :=
    datagramFromHL_counters IP_HEADER_BYTES prot rt st packet st1 datagram controlInfo hd
  rw [handlePacketFromHL_multicast_none withManet IP_HEADER_BYTES prot rt ift fuel st packet
    st1 datagram controlInfo hift hd hm hno]
  generalize requestedMulticastLoop controlInfo = multicastLoop
  cases hl : ift.getFirstLoopbackInterface with
  | none =>
    have hr : (if multicastLoop = true then
        (match (none : Option InterfaceEntry) with
          | some loopbackIF =>
            fragmentAndSend fuel st1 datagram.dup loopbackIF datagram.destAddress
          | none => { state := st1, events := [], status := Status.returned })
        else { state := st1, events := [], status := Status.returned }) =
        { state := st1, events := [], status := Status.returned } := by
      split <;> rfl
    rw [hr]
    simp [Result.andThen, hu, hmc, hfw]
  | some lo =>
    cases multicastLoop with
    | false => simp [Result.andThen, hu, hmc, hfw]
    | true =>
      obtain ⟨h1, h2, h3, h4, h5⟩ :=
        fragmentAndSend_on_loopback fuel st1 datagram.dup lo datagram.destAddress (hlo lo hl)
      simp only [if_true, Result.andThen, h1, List.append_nil]
      refine ⟨trivial, ?_, ?_, ?_, ?_, ?_, ?_⟩
      · simp only [h2, hu]
      · simp only [h3, hmc]
      · simp only [h4, hfw]
      · intro d ie nh hmem
        rw [h5 d ie nh hmem]
        exact hlo lo hl
      · rintro (h | h)
        · cases h
        · cases h
      · intro lo1 _ hlo1
        cases hlo1
        rfl

/-- Witness for `handlePacketFromHL_multicast_no_interface`: the packet `mcastFromHL` on a
node whose only interface is `lo0`. -/
theorem handlePacketFromHL_multicast_no_interface_witness :
    loopbackOnly.interfaces ≠ [] ∧
    (handlePacketFromHL false 20 ianaProtocols emptyTable loopbackOnly 1 freshState
      mcastFromHL).status = Status.returned ∧
    (handlePacketFromHL false 20 ianaProtocols emptyTable loopbackOnly 1 freshState
      mcastFromHL).state.numUnroutable = freshState.numUnroutable + 1 ∧
    (handlePacketFromHL false 20 ianaProtocols emptyTable loopbackOnly 1 freshState
      mcastFromHL).state.numMulticast = freshState.numMulticast ∧
    (handlePacketFromHL false 20 ianaProtocols emptyTable loopbackOnly 1 freshState
      mcastFromHL).state.numForwarded = freshState.numForwarded ∧
    (∀ d ie nh, Event.sendDatagramToOutput d ie nh ∈
        (handlePacketFromHL false 20 ianaProtocols emptyTable loopbackOnly 1 freshState
          mcastFromHL).events →
      ie.isLoopback = true) ∧
    (requestedMulticastLoop (some mcastControlInfo) = false ∨
        loopbackOnly.getFirstLoopbackInterface = none →
      (handlePacketFromHL false 20 ianaProtocols emptyTable loopbackOnly 1 freshState
        mcastFromHL).events = []) ∧
    (∀ lo, requestedMulticastLoop (some mcastControlInfo) = true →
      loopbackOnly.getFirstLoopbackInterface = some lo →
      (handlePacketFromHL false 20 ianaProtocols emptyTable loopbackOnly 1 freshState
        mcastFromHL).events =
        (fragmentAndSend 1 { freshState with curFragmentId := 1 } mcastEncapsulated.dup lo
          mcastEncapsulated.destAddress).events) :=
  ⟨by decide,
    (handlePacketFromHL_multicast_no_interface false 20 ianaProtocols emptyTable loopbackOnly 1
      freshState mcastFromHL { freshState with curFragmentId := 1 } mcastEncapsulated
      (some mcastControlInfo)
      (fun lo h => by
        have h1 : lo0 = lo := by
          simpa [loopbackOnly] using h
        rw [← h1]
        rfl)
      rfl (by decide) rfl).1 (by decide)⟩

end IPv4
namespace IPv4

/-! ## Claims about the lifecycle -/

/-- One input handled while the module is down: the module stays down, no counter changes,
the only call made is the hand-over of a message to the queue base class, and unless the
input is a protocol registration the whole state stays as it was. -/
theorem handleInput_down (withManet : Bool) (IP_C_REGISTER_PROTOCOL : Int)
    (prot : IPProtocolId) (transportOut : TransportOut) (ift : IInterfaceTable)
    (st : State) (input : Input) (hdown : st.isUp = false) :
    (handleInput withManet IP_C_REGISTER_PROTOCOL prot transportOut ift st input).state.isUp
      = false ∧
    (handleInput withManet IP_C_REGISTER_PROTOCOL prot transportOut ift st
      input).state.numMulticast = st.numMulticast ∧
    (handleInput withManet IP_C_REGISTER_PROTOCOL prot transportOut ift st
      input).state.numLocalDeliver = st.numLocalDeliver ∧
    (handleInput withManet IP_C_REGISTER_PROTOCOL prot transportOut ift st
      input).state.numDropped = st.numDropped ∧
    (handleInput withManet IP_C_REGISTER_PROTOCOL prot transportOut ift st
      input).state.numUnroutable = st.numUnroutable ∧
    (handleInput withManet IP_C_REGISTER_PROTOCOL prot transportOut ift st
      input).state.numForwarded = st.numForwarded ∧
    (∀ e ∈ (handleInput withManet IP_C_REGISTER_PROTOCOL prot transportOut ift st
      input).events, ∃ msg, e = Event.queueBaseHandleMessage msg) ∧
    (input.isRegistration IP_C_REGISTER_PROTOCOL = false →
      (handleInput withManet IP_C_REGISTER_PROTOCOL prot transportOut ift st input).state
        = st) := by
  have hend : ∀ packet, endService ift st packet =
      { state := st, events := [], status := Status.returned } := by
    intro packet
    simp [endService, hdown]
  cases input with
  | serviced packet =>
    simp only [handleInput, hend]
    simp [hdown]
  | message msg =>
    simp only [handleInput, Input.isRegistration]
    unfold handleMessage
    by_cases hk : msg.kind = IP_C_REGISTER_PROTOCOL
    · simp only [hk, if_true, beq_self_eq_true, Bool.true_eq_false, false_implies, and_true]
      repeat' split
      all_goals simp [hdown]
    · simp only [hk, if_false, hend]
      repeat' split
      all_goals simp [hdown, hk]


/-- Inputs handled one after the other while the module is down: the module stays down, no
counter changes, the only calls made hand a message to the queue base class, and unless
one of the inputs is a protocol registration the whole state stays as it was. -/
theorem handleInputs_down (withManet : Bool) (IP_C_REGISTER_PROTOCOL : Int)
    (prot : IPProtocolId) (transportOut : TransportOut) (ift : IInterfaceTable) :
    ∀ (inputs : List Input) (st : State), st.isUp = false →
      (handleInputs withManet IP_C_REGISTER_PROTOCOL prot transportOut ift inputs
        st).state.isUp = false ∧
      (handleInputs withManet IP_C_REGISTER_PROTOCOL prot transportOut ift inputs
        st).state.numMulticast = st.numMulticast ∧
      (handleInputs withManet IP_C_REGISTER_PROTOCOL prot transportOut ift inputs
        st).state.numLocalDeliver = st.numLocalDeliver ∧
      (handleInputs withManet IP_C_REGISTER_PROTOCOL prot transportOut ift inputs
        st).state.numDropped = st.numDropped ∧
      (handleInputs withManet IP_C_REGISTER_PROTOCOL prot transportOut ift inputs
        st).state.numUnroutable = st.numUnroutable ∧
      (handleInputs withManet IP_C_REGISTER_PROTOCOL prot transportOut ift inputs
        st).state.numForwarded = st.numForwarded ∧
      (∀ e ∈ (handleInputs withManet IP_C_REGISTER_PROTOCOL prot transportOut ift inputs
        st).events, ∃ msg, e = Event.queueBaseHandleMessage msg) ∧
      ((∀ input ∈ inputs, input.isRegistration IP_C_REGISTER_PROTOCOL = false) →
        (handleInputs withManet IP_C_REGISTER_PROTOCOL prot transportOut ift inputs
          st).state = st) := by
  intro inputs
  induction inputs with
  | nil =>
    intro st hdown
    simp [handleInputs, hdown]
  | cons input rest ih =>
    intro st hdown
    obtain ⟨h1, h2, h3, h4, h5, h6, h7, h8⟩ :=
      handleInput_down withManet IP_C_REGISTER_PROTOCOL prot transportOut ift st input hdown
    obtain ⟨i1, i2, i3, i4, i5, i6, i7, i8⟩ := ih _ h1
    have hreg : (∀ i ∈ input :: rest, i.isRegistration IP_C_REGISTER_PROTOCOL = false) →
        input.isRegistration IP_C_REGISTER_PROTOCOL = false ∧
        ∀ i ∈ rest, i.isRegistration IP_C_REGISTER_PROTOCOL = false := by
      intro h
      exact ⟨h input (List.mem_cons_self _ _), fun i hi => h i (List.mem_cons_of_mem _ hi)⟩
    simp only [handleInputs, Result.andThen]
    split
    · refine ⟨i1, i2.trans h2, i3.trans h3, i4.trans h4, i5.trans h5, i6.trans h6, ?_, ?_⟩
      · intro e he
        simp only [List.mem_append] at he
        rcases he with he | he
        · exact h7 e he
        · exact i7 e he
      · intro hall
        obtain ⟨ha, hb⟩ := hreg hall
        simp only
        rw [i8 hb, h8 ha]
    · refine ⟨h1, h2, h3, h4, h5, h6, h7, ?_⟩
      intro hall
      exact h8 (hreg hall).1

/-- Claim C29, counterexample. After a shutdown operation at the network-layer stage the
module is down with an empty protocol mapping; the registration message `registerTcp`
handled then by `handleMessage` records the mapping of protocol 6 to slot 1. -/
theorem handleMessage_registration_while_down_counterexample :
    (handleOperationStage lifecycleStages true freshState
      LifecycleOperation.nodeShutdownOperation lifecycleStages.shutdownNetworkLayer).state =
      downState ∧
    downState.isUp = false ∧ downState.mapping = [] ∧
    handleMessage false 1199 ianaProtocols unconnected loopbackOnly downState registerTcp =
      { state := { downState with mapping := [(6, 1)] }, events := [],
        status := Status.returned } := by
  decide

/-- Claim C29, amended. A Down or Crash lifecycle operation (shutdown at the network-layer
stage, crash at the crash stage) marks the module down and changes nothing else of its
state. After it and until the next Up, every packet given to `IPv4::endService` is
discarded, and for every sequence of messages given to `IPv4::handleMessage` and packets
given to `endService`: the module stays down, no counter changes, nothing is sent (the only
calls made hand a message to the queue base class), and the protocol-to-egress mapping,
with the rest of the state, stays as it was unless one of the messages is a protocol
registration. -/
theorem down_discards (withManet : Bool) (IP_C_REGISTER_PROTOCOL : Int)
    (prot : IPProtocolId) (transportOut : TransportOut) (ift : IInterfaceTable)
    (stages : LifecycleStages) (queueIsEmpty : Bool) (st : State)
    (operation : LifecycleOperation) (stage : Int)
    (hop : (operation = LifecycleOperation.nodeShutdownOperation ∧
        stage = stages.shutdownNetworkLayer) ∨
      (operation = LifecycleOperation.nodeCrashOperation ∧ stage = stages.crash))
    (inputs : List Input) (packet : cMessage) :
    (handleOperationStage stages queueIsEmpty st operation stage).state =
      { st with isUp := false } ∧
    endService ift { st with isUp := false } packet =
      { state := { st with isUp := false }, events := [], status := Status.returned } ∧
    (handleInputs withManet IP_C_REGISTER_PROTOCOL prot transportOut ift inputs
      { st with isUp := false }).state.isUp = false ∧
    SameCounters
      (handleInputs withManet IP_C_REGISTER_PROTOCOL prot transportOut ift inputs
        { st with isUp := false }).state st ∧
    (∀ e ∈ (handleInputs withManet IP_C_REGISTER_PROTOCOL prot transportOut ift inputs
      { st with isUp := false }).events, ∃ msg, e = Event.queueBaseHandleMessage msg) ∧
    ((∀ input ∈ inputs, input.isRegistration IP_C_REGISTER_PROTOCOL = false) →
      (handleInputs withManet IP_C_REGISTER_PROTOCOL prot transportOut ift inputs
        { st with isUp := false }).state = { st with isUp := false }) := by
  obtain ⟨h1, h2, h3, h4, h5, h6, h7, h8⟩ :=
    handleInputs_down withManet IP_C_REGISTER_PROTOCOL prot transportOut ift inputs
      { st with isUp := false } rfl
  refine ⟨?_, ?_, h1, ⟨h2, h3, h4, h5, h6⟩, h7, h8⟩
  · rcases hop with ⟨ho, hs⟩ | ⟨ho, hs⟩ <;> subst ho <;> subst hs <;>
      simp [handleOperationStage, stop, flush]
  · simp [endService]

/-- Witness for `down_discards`: after a crash of the fresh module, a datagram from the
network and a packet from the higher layer are handled. -/
theorem down_discards_witness :
    (handleOperationStage lifecycleStages true freshState
      LifecycleOperation.nodeCrashOperation 0).state = { freshState with isUp := false } ∧
    endService loopbackOnly { freshState with isUp := false } mcastFromHL =
      { state := { freshState with isUp := false }, events := [],
        status := Status.returned } ∧
    (handleInputs false 1199 ianaProtocols unconnected loopbackOnly
      [Input.message mcastFromHL, Input.serviced mcastFromHL]
      { freshState with isUp := false }).state.isUp = false ∧
    SameCounters
      (handleInputs false 1199 ianaProtocols unconnected loopbackOnly
        [Input.message mcastFromHL, Input.serviced mcastFromHL]
        { freshState with isUp := false }).state freshState ∧
    (∀ e ∈ (handleInputs false 1199 ianaProtocols unconnected loopbackOnly
      [Input.message mcastFromHL, Input.serviced mcastFromHL]
      { freshState with isUp := false }).events, ∃ msg, e = Event.queueBaseHandleMessage msg) ∧
    ((∀ input ∈ [Input.message mcastFromHL, Input.serviced mcastFromHL],
        input.isRegistration 1199 = false) →
      (handleInputs false 1199 ianaProtocols unconnected loopbackOnly
        [Input.message mcastFromHL, Input.serviced mcastFromHL]
        { freshState with isUp := false }).state = { freshState with isUp := false }) :=
  down_discards false 1199 ianaProtocols unconnected loopbackOnly lifecycleStages true
    freshState LifecycleOperation.nodeCrashOperation 0 (Or.inr ⟨rfl, rfl⟩)
    [Input.message mcastFromHL, Input.serviced mcastFromHL] mcastFromHL

end IPv4
namespace IPv4

/-! ## Claims about the fragments as a whole -/

/-- The fragmentation loop started at `off` with enough fuel emits fragments that tile the
payload from `off` to its end. -/
theorem fragmentLoop_tiles (D : IPv4Datagram) (ie : InterfaceEntry)
    (nextHopAddr : IPv4Address) (h p fl base : Int) (nm : String)
    (hh : D.headerLength = h) (hfl : 0 < fl) :
    ∀ (fuel : Nat) (off : Int), off ≤ p → p - off ≤ (fuel : Int) * fl →
      ∃ fragments : List IPv4Datagram,
        (fragmentLoop D ie nextHopAddr h p fl base nm fuel off).1 =
          fragments.map (fun f => Event.sendDatagramToOutput f ie nextHopAddr) ∧
        TilesPayload base off p fragments ∧
        (fragments.map fun f => f.byteLength - f.headerLength).sum = p - off := by
  intro fuel
  induction fuel with
  | zero =>
    intro off hle hb
    simp only [Nat.cast_zero, zero_mul] at hb
    refine ⟨[], ?_, ?_, ?_⟩
    · simp [fragmentLoop]
    · simp only [TilesPayload]; omega
    · simp only [List.map_nil, List.sum_nil]; omega
  | succ fuel ih =>
    intro off hle hb
    by_cases hlt : off < p
    · rw [fragmentLoop_step D ie nextHopAddr h p fl base nm fuel off hlt]
      have hcast : ((fuel + 1 : Nat) : Int) * fl = (fuel : Int) * fl + fl := by
        push_cast; ring
      rw [hcast] at hb
      by_cases hlast : off + fl ≥ p
      · have hdone := fragmentLoop_done D ie nextHopAddr h p fl base nm fuel (off + fl)
          (by omega)
        refine ⟨[fragmentAt D h p fl base nm off], ?_, ?_, ?_⟩
        · simp [hdone]
        · simp only [TilesPayload, fragmentAt, IPv4Datagram.dup, hh, if_pos hlast]
          refine ⟨by omega, by omega, by omega⟩
        · simp only [List.map_cons, List.map_nil, List.sum_cons, List.sum_nil, fragmentAt,
            IPv4Datagram.dup, hh, if_pos hlast]
          omega
      · obtain ⟨rest, hr1, hr2, hr3⟩ := ih (off + fl) (by omega) (by omega)
        refine ⟨fragmentAt D h p fl base nm off :: rest, ?_, ?_, ?_⟩
        · simp [hr1]
        · simp only [TilesPayload, fragmentAt, IPv4Datagram.dup, hh, if_neg hlast]
          refine ⟨by omega, by omega, ?_⟩
          have he : off + (h + fl - h) = off + fl := by omega
          rw [he]
          exact hr2
        · simp only [List.map_cons, List.sum_cons, hr3, fragmentAt, IPv4Datagram.dup, hh,
            if_neg hlast]
          omega
    · have hdone := fragmentLoop_done D ie nextHopAddr h p fl base nm (fuel + 1) off hlt
      refine ⟨[], ?_, ?_, ?_⟩
      · simp [hdone]
      · simp only [TilesPayload]; omega
      · simp only [List.map_nil, List.sum_nil]; omega

/-- Claim C30, counterexample. The datagram `udpWide` (20-byte header, payload of
2^32 + 80 bytes, DF clear, TTL 64) sent to `ppp0` (non-loopback, MTU 1500): the call returns
having emitted a single fragment of 100 bytes, so the fragment payload lengths sum to 80,
not to the payload length of the datagram. -/
theorem fragmentAndSend_tiles_wide_counterexample :
    udpWide.dontFragment = false ∧ udpWide.byteLength > ppp0.mtu ∧ ppp0.isLoopback = false ∧
    ppp0.mtu - udpWide.headerLength ≥ 8 ∧
    udpWide.byteLength - udpWide.headerLength = 4294967376 ∧
    ∀ fuel,
      fragmentAndSend (fuel + 1) freshState udpWide ppp0 0 =
        { state := freshState,
          events := [Event.sendDatagramToOutput
            { udpWide with name := "udp-frag", timeToLive := 63, byteLength := 100 } ppp0 0],
          status := Status.returned } := by
  refine ⟨rfl, by decide, rfl, by decide, by decide, ?_⟩
  intro fuel
  have hp : narrowInt (udpWide.byteLength - udpWide.headerLength) = 80 := by decide
  rw [fragmentAndSend_split (fuel + 1) freshState udpWide ppp0 0 rfl (by decide) (by decide)
    rfl (by decide), hp,
    fragmentLoop_step _ _ _ _ _ _ _ _ _ _ (by decide),
    fragmentLoop_done _ _ _ _ _ _ _ _ _ _ (by decide)]
  rfl

/-- Claim C30, amended. For every datagram that `IPv4::fragmentAndSend` splits (DF clear,
byteLength > MTU, non-loopback interface, MTU - headerLength ≥ 8, hop counter not expired)
and for which payloadLength + fragmentLength is at most 2^31, so that an `int` holds the
payload length byteLength - headerLength of line 725 and the sum offset + fragmentLength
of line 738, the emitted fragments tile the payload: with each fragment's start taken
as the value added to the original fragmentOffset and its length as byteLength -
headerLength, the first fragment starts at 0, every next fragment starts exactly where the
previous one ends, and the last one ends at payloadLength; hence the fragment payload
lengths sum to the original payloadLength with no gap and no overlap. The call returns once
the fuel covers the fragments. -/
theorem fragmentAndSend_tiles (fuel : Nat) (st : State) (datagram : IPv4Datagram)
    (ie : InterfaceEntry) (nextHopAddr : IPv4Address)
    (hie : ie.isLoopback = false) (httl : 0 ≤ datagram.timeToLive - 1)
    (hlen : datagram.byteLength > ie.mtu) (hdf : datagram.dontFragment = false)
    (hmtu : ie.mtu - datagram.headerLength ≥ 8)
    (hint : datagram.byteLength - datagram.headerLength +
      Int.tdiv (ie.mtu - datagram.headerLength) 8 * 8 ≤ 2147483648)
    (hfuel : datagram.byteLength - datagram.headerLength ≤
      (fuel : Int) * (Int.tdiv (ie.mtu - datagram.headerLength) 8 * 8)) :
    ∃ fragments : List IPv4Datagram,
      fragmentAndSend fuel st datagram ie nextHopAddr =
        { state := st,
          events := fragments.map (fun f => Event.sendDatagramToOutput f ie nextHopAddr),
          status := Status.returned } ∧
      fragments ≠ [] ∧
      TilesPayload datagram.fragmentOffset 0 (datagram.byteLength - datagram.headerLength)
        fragments ∧
      (fragments.map fun f => f.byteLength - f.headerLength).sum =
        datagram.byteLength - datagram.headerLength := by
  have hdiv : Int.tdiv (ie.mtu - datagram.headerLength) 8 =
      (ie.mtu - datagram.headerLength) / 8 := Int.tdiv_eq_ediv (by omega) (by omega)
  have hfl : 0 < Int.tdiv (ie.mtu - datagram.headerLength) 8 * 8 := by
    rw [hdiv]; omega
  obtain ⟨-, hh, -, -, -, -⟩ := prepared_fields datagram ie
  obtain ⟨fragments, h1, h2, h3⟩ :=
    fragmentLoop_tiles (prepared datagram ie) ie nextHopAddr datagram.headerLength
      (datagram.byteLength - datagram.headerLength)
      (Int.tdiv (ie.mtu - datagram.headerLength) 8 * 8) datagram.fragmentOffset
      ((prepared datagram ie).name ++ "-frag") hh hfl fuel 0 (by omega) (by omega)
  have hret := fragmentLoop_returns (prepared datagram ie) ie nextHopAddr
    datagram.headerLength (datagram.byteLength - datagram.headerLength)
    (Int.tdiv (ie.mtu - datagram.headerLength) 8 * 8) datagram.fragmentOffset
    ((prepared datagram ie).name ++ "-frag") fuel 0 (by omega)
  refine ⟨fragments, ?_, ?_, h2, ?_⟩
  · rw [fragmentAndSend_split_int fuel st datagram ie nextHopAddr hie httl hlen hdf
      (by omega) (by omega) (by omega), h1, hret]
    rfl
  · intro hnil
    subst hnil
    simp only [TilesPayload] at h2
    omega
  · rw [h3]; omega

/-- Witness for `fragmentAndSend_tiles`: the datagram `udp3000` on `ppp0`, with fuel for
three fragments. -/
theorem fragmentAndSend_tiles_witness :
    ∃ fragments : List IPv4Datagram,
      fragmentAndSend 3 freshState udp3000 ppp0 0 =
        { state := freshState,
          events := fragments.map (fun f => Event.sendDatagramToOutput f ppp0 0),
          status := Status.returned } ∧
      fragments ≠ [] ∧
      TilesPayload udp3000.fragmentOffset 0 (udp3000.byteLength - udp3000.headerLength)
        fragments ∧
      (fragments.map fun f => f.byteLength - f.headerLength).sum =
        udp3000.byteLength - udp3000.headerLength :=
  fragmentAndSend_tiles 3 freshState udp3000 ppp0 0 rfl (by decide) (by decide) rfl
    (by decide) (by decide) (by decide)

end IPv4
namespace IPv4

/-! ## Claims about the number of fragments and termination -/

/-- A count `N` of pieces of size `fl` that just covers `p` is the quotient
`(p + fl - 1) / fl` of C++ integer division, and the ceiling of `p / fl`. -/
theorem count_eq_ceil (N p fl : Int) (hfl : 0 < fl) (hp : 0 < p)
    (h1 : (N - 1) * fl < p) (h2 : p ≤ N * fl) :
    N = Int.tdiv (p + fl - 1) fl ∧ N = Int.ceil ((p : ℚ) / (fl : ℚ)) := by
  constructor
  · rw [Int.tdiv_eq_ediv (by omega) (by omega)]
    apply le_antisymm
    · rw [Int.le_ediv_iff_mul_le hfl]
      have : (N - 1) * fl = N * fl - fl := by ring
      omega
    · have h3 : (p + fl - 1) / fl < N + 1 := by
        rw [Int.ediv_lt_iff_lt_mul hfl]
        have : (N + 1) * fl = N * fl + fl := by ring
        omega
      omega
  · symm
    rw [Int.ceil_eq_iff]
    have hflq : (0 : ℚ) < (fl : ℚ) := by exact_mod_cast hfl
    constructor
    · rw [lt_div_iff₀ hflq]
      have : (((N - 1) * fl : Int) : ℚ) < (p : ℚ) := by exact_mod_cast h1
      push_cast at this
      exact this
    · rw [div_le_iff₀ hflq]
      exact_mod_cast h2


/-- The fragments that the fragmentation loop emits from offset 0 with enough fuel: as many
as cover the payload, each built by the loop body at a multiple of the fragment length. -/
theorem fragmentLoop_fragments (D : IPv4Datagram) (ie : InterfaceEntry)
    (nextHopAddr : IPv4Address) (h p fl base : Int) (nm : String)
    (hh : D.headerLength = h) (hfl : 0 < fl) (hp : 0 < p) (fuel : Nat)
    (hfuel : p ≤ (fuel : Int) * fl) :
    ∃ fragments : List IPv4Datagram,
      (fragmentLoop D ie nextHopAddr h p fl base nm fuel 0).1 =
        fragments.map (fun f => Event.sendDatagramToOutput f ie nextHopAddr) ∧
      (fragmentLoop D ie nextHopAddr h p fl base nm fuel 0).2 = true ∧
      ((fragments.length : Int) - 1) * fl < p ∧ p ≤ (fragments.length : Int) * fl ∧
      (∀ (i : Nat) (f : IPv4Datagram), fragments[i]? = some f →
        f = fragmentAt D h p fl base nm ((i : Int) * fl)) := by
  obtain ⟨fragments, h1, h2, -⟩ :=
    fragmentLoop_tiles D ie nextHopAddr h p fl base nm hh hfl fuel 0 (by omega) (by omega)
  have hret := fragmentLoop_returns D ie nextHopAddr h p fl base nm fuel 0 (by omega)
  have hexit := fragmentLoop_exit D ie nextHopAddr h p fl base nm fuel 0 hret
  have hlen : (fragmentLoop D ie nextHopAddr h p fl base nm fuel 0).1.length =
      fragments.length := by
    rw [h1, List.length_map]
  rw [hlen] at hexit
  have hget : ∀ (i : Nat) (f : IPv4Datagram), fragments[i]? = some f →
      (i : Int) * fl < p ∧ f = fragmentAt D h p fl base nm ((i : Int) * fl) := by
    intro i f hf
    have he : (fragmentLoop D ie nextHopAddr h p fl base nm fuel 0).1[i]? =
        some (Event.sendDatagramToOutput f ie nextHopAddr) := by
      rw [h1, List.getElem?_map, hf]
      rfl
    obtain ⟨g1, g2⟩ := fragmentLoop_getElem? D ie nextHopAddr h p fl base nm fuel 0 i _ he
    simp only [zero_add] at g1 g2
    refine ⟨g1, ?_⟩
    injection g2
  have hne : fragments ≠ [] := by
    intro hnil
    subst hnil
    simp only [TilesPayload] at h2
    omega
  have hpos : 0 < fragments.length := List.length_pos.mpr hne
  have hlast : fragments[fragments.length - 1]? =
      some (fragments.get ⟨fragments.length - 1, by omega⟩) :=
    List.getElem?_eq_getElem (by omega)
  obtain ⟨g1, -⟩ := hget _ _ hlast
  have hcast : ((fragments.length - 1 : Nat) : Int) = (fragments.length : Int) - 1 := by
    omega
  rw [hcast] at g1
  refine ⟨fragments, h1, hret, g1, ?_, fun i f hf => (hget i f hf).2⟩
  simp only [zero_add] at hexit
  omega


/-- The fragment length `((mtu - headerLength)/8)*8` of C++ integer division is positive
exactly when `mtu - headerLength` is at least 8. -/
theorem fragmentLength_pos_iff (x : Int) : 0 < Int.tdiv x 8 * 8 ↔ 8 ≤ x := by
  by_cases hx : 0 ≤ x
  · rw [Int.tdiv_eq_ediv hx (by omega)]
    omega
  · have hneg : Int.tdiv x 8 = -((-x) / 8) := by
      have h1 : x = -(-x) := by omega
      rw [h1, Int.neg_tdiv, Int.tdiv_eq_ediv (by omega) (by omega)]
      simp
    rw [hneg]
    omega

/-- Claim C31, counterexample. The datagram `udpHalfWide` (20-byte header, payload of 2^31
bytes, DF clear, TTL 64) sent to `ppp0` (non-loopback, MTU 1500, fragmentLength 1480): the
call returns without having emitted any fragment, although the payload is not empty and
ceil(payloadLength / fragmentLength) is positive. The `int` of line 725 holds -2^31, for
which the loop condition fails at once. -/
theorem fragmentAndSend_fragment_count_wide_counterexample :
    udpHalfWide.dontFragment = false ∧ udpHalfWide.byteLength > ppp0.mtu ∧
    ppp0.isLoopback = false ∧
    Int.tdiv (ppp0.mtu - udpHalfWide.headerLength) 8 * 8 = 1480 ∧
    udpHalfWide.byteLength - udpHalfWide.headerLength = 2147483648 ∧
    narrowInt (udpHalfWide.byteLength - udpHalfWide.headerLength) = -2147483648 ∧
    (0 : Int) < Int.ceil (((udpHalfWide.byteLength - udpHalfWide.headerLength : Int) : ℚ) /
      ((Int.tdiv (ppp0.mtu - udpHalfWide.headerLength) 8 * 8 : Int) : ℚ)) ∧
    ∀ fuel,
      fragmentAndSend fuel freshState udpHalfWide ppp0 0 =
        { state := freshState, events := [], status := Status.returned } := by
  have hp : narrowInt (udpHalfWide.byteLength - udpHalfWide.headerLength) = -2147483648 := by
    decide
  have h1 : Int.tdiv (ppp0.mtu - udpHalfWide.headerLength) 8 * 8 = 1480 := by decide
  have h2 : udpHalfWide.byteLength - udpHalfWide.headerLength = 2147483648 := by decide
  refine ⟨rfl, by decide, rfl, h1, h2, hp, ?_, ?_⟩
  · rw [h1, h2, Int.ceil_pos]
    norm_num
  · intro fuel
    rw [fragmentAndSend_split fuel freshState udpHalfWide ppp0 0 rfl (by decide) (by decide)
      rfl (by decide), hp, fragmentLoop_done _ _ _ _ _ _ _ _ _ _ (by decide)]
    rfl

/-- Claim C31, amended. For every datagram that `IPv4::fragmentAndSend` splits (DF clear,
byteLength > MTU, non-loopback interface, hop counter not expired) with
fragmentLength = ((MTU - headerLength)/8)*8 > 0 and with payloadLength + fragmentLength at
most 2^31, so that an `int` holds the payload length byteLength - headerLength of line 725
and the sums of lines 729 and 738, exactly ceil(payloadLength / fragmentLength) fragments
are emitted, which is the value that
line 729 computes as `noOfFragments`; every fragment except the last has payload length
exactly fragmentLength (a multiple of 8), and the last has payload length between 1 and
fragmentLength. The call returns once the fuel covers the fragments. -/
theorem fragmentAndSend_fragment_count (fuel : Nat) (st : State) (datagram : IPv4Datagram)
    (ie : InterfaceEntry) (nextHopAddr : IPv4Address)
    (hie : ie.isLoopback = false) (httl : 0 ≤ datagram.timeToLive - 1)
    (hlen : datagram.byteLength > ie.mtu) (hdf : datagram.dontFragment = false)
    (hfl : 0 < Int.tdiv (ie.mtu - datagram.headerLength) 8 * 8)
    (hint : datagram.byteLength - datagram.headerLength +
      Int.tdiv (ie.mtu - datagram.headerLength) 8 * 8 ≤ 2147483648)
    (hfuel : datagram.byteLength - datagram.headerLength ≤
      (fuel : Int) * (Int.tdiv (ie.mtu - datagram.headerLength) 8 * 8)) :
    ∃ fragments : List IPv4Datagram,
      fragmentAndSend fuel st datagram ie nextHopAddr =
        { state := st,
          events := fragments.map (fun f => Event.sendDatagramToOutput f ie nextHopAddr),
          status := Status.returned } ∧
      (fragments.length : Int) =
        Int.tdiv (datagram.byteLength - datagram.headerLength +
          Int.tdiv (ie.mtu - datagram.headerLength) 8 * 8 - 1)
          (Int.tdiv (ie.mtu - datagram.headerLength) 8 * 8) ∧
      (fragments.length : Int) =
        Int.ceil (((datagram.byteLength - datagram.headerLength : Int) : ℚ) /
          ((Int.tdiv (ie.mtu - datagram.headerLength) 8 * 8 : Int) : ℚ)) ∧
      (8 : Int) ∣ Int.tdiv (ie.mtu - datagram.headerLength) 8 * 8 ∧
      (∀ (i : Nat) (f : IPv4Datagram), i + 1 < fragments.length → fragments[i]? = some f →
        f.byteLength - f.headerLength =
          Int.tdiv (ie.mtu - datagram.headerLength) 8 * 8) ∧
      (∀ f : IPv4Datagram, fragments.getLast? = some f →
        1 ≤ f.byteLength - f.headerLength ∧
        f.byteLength - f.headerLength ≤
          Int.tdiv (ie.mtu - datagram.headerLength) 8 * 8) := by
  have hmtu : 8 ≤ ie.mtu - datagram.headerLength := (fragmentLength_pos_iff _).mp hfl
  have hp : 0 < datagram.byteLength - datagram.headerLength := by omega
  obtain ⟨-, hh, -, -, -, -⟩ := prepared_fields datagram ie
  have hsplit := fragmentAndSend_split_int fuel st datagram ie nextHopAddr hie httl hlen hdf
    (by omega) (by omega) (by omega)
  generalize hFL : Int.tdiv (ie.mtu - datagram.headerLength) 8 * 8 = fl at hfl hfuel hsplit ⊢
  generalize hP : datagram.byteLength - datagram.headerLength = p at hp hfuel hsplit ⊢
  obtain ⟨fragments, h1, h2, h3, h4, h5⟩ :=
    fragmentLoop_fragments (prepared datagram ie) ie nextHopAddr datagram.headerLength p fl
      datagram.fragmentOffset ((prepared datagram ie).name ++ "-frag") hh hfl hp fuel hfuel
  obtain ⟨c1, c2⟩ := count_eq_ceil (fragments.length : Int) p fl hfl hp h3 h4
  have hsub : ((fragments.length : Int) - 1) * fl = (fragments.length : Int) * fl - fl := by
    ring
  refine ⟨fragments, ?_, c1, c2, ?_, ?_, ?_⟩
  · rw [hsplit, h1, h2]
    rfl
  · rw [← hFL]
    exact Dvd.intro_left _ rfl
  · intro i f hi hf
    rw [h5 i f hf]
    have hle : ((i : Int) + 1) * fl ≤ ((fragments.length : Int) - 1) * fl :=
      mul_le_mul_of_nonneg_right (by omega) (le_of_lt hfl)
    have hexp : ((i : Int) + 1) * fl = (i : Int) * fl + fl := by ring
    have hnot : ¬ (i : Int) * fl + fl ≥ p := by omega
    simp only [fragmentAt, IPv4Datagram.dup, hh, if_neg hnot]
    omega
  · intro f hf
    rw [List.getLast?_eq_getElem?] at hf
    rw [h5 _ f hf]
    have hpos : 0 < fragments.length := by
      rcases Nat.eq_zero_or_pos fragments.length with h0 | h0
      · rw [h0] at h4
        simp only [Nat.cast_zero, zero_mul] at h4
        omega
      · exact h0
    have hcast : ((fragments.length - 1 : Nat) : Int) = (fragments.length : Int) - 1 := by
      omega
    rw [hcast]
    have hlast : ((fragments.length : Int) - 1) * fl + fl ≥ p := by omega
    simp only [fragmentAt, IPv4Datagram.dup, hh, if_pos hlast]
    omega

/-- Witness for `fragmentAndSend_fragment_count`: the datagram `udp3000` on `ppp0`, with
fuel for three fragments. -/
theorem fragmentAndSend_fragment_count_witness :
    ∃ fragments : List IPv4Datagram,
      fragmentAndSend 3 freshState udp3000 ppp0 0 =
        { state := freshState,
          events := fragments.map (fun f => Event.sendDatagramToOutput f ppp0 0),
          status := Status.returned } ∧
      (fragments.length : Int) =
        Int.tdiv (udp3000.byteLength - udp3000.headerLength +
          Int.tdiv (ppp0.mtu - udp3000.headerLength) 8 * 8 - 1)
          (Int.tdiv (ppp0.mtu - udp3000.headerLength) 8 * 8) ∧
      (fragments.length : Int) =
        Int.ceil (((udp3000.byteLength - udp3000.headerLength : Int) : ℚ) /
          ((Int.tdiv (ppp0.mtu - udp3000.headerLength) 8 * 8 : Int) : ℚ)) ∧
      (8 : Int) ∣ Int.tdiv (ppp0.mtu - udp3000.headerLength) 8 * 8 ∧
      (∀ (i : Nat) (f : IPv4Datagram), i + 1 < fragments.length → fragments[i]? = some f →
        f.byteLength - f.headerLength =
          Int.tdiv (ppp0.mtu - udp3000.headerLength) 8 * 8) ∧
      (∀ f : IPv4Datagram, fragments.getLast? = some f →
        1 ≤ f.byteLength - f.headerLength ∧
        f.byteLength - f.headerLength ≤
          Int.tdiv (ppp0.mtu - udp3000.headerLength) 8 * 8) :=
  fragmentAndSend_fragment_count 3 freshState udp3000 ppp0 0 rfl (by decide) (by decide) rfl
    (by decide) (by decide) (by decide)


end IPv4

/-! ## Theorems about the reassembly buffer of `LocalDeliver.cc` -/

namespace LocalDeliver

theorem isChain_cons_cons (next : Int) (e e' : FragmentationBufferEntry)
    (rest : List FragmentationBufferEntry) :
    IsChain next (e :: e' :: rest) ↔
      e.fragmentOffset = next ∧ e.moreFragments = true ∧
        IsChain (next + e.length) (e' :: rest) := by
  simp [IsChain]

theorem isChain_ne_nil {next : Int} {chain : List FragmentationBufferEntry}
    (h : IsChain next chain) : chain ≠ [] := by
  intro hc; subst hc; simp [IsChain] at h

/-- A chain prefixed by a linking segment is a chain. -/
theorem isChain_append {path : List FragmentationBufferEntry} :
    ∀ {next target : Int} {chain : List FragmentationBufferEntry},
      IsPath next path target → IsChain target chain → IsChain next (path ++ chain) := by
  induction path with
  | nil =>
    intro next target chain hp hc
    simp only [IsPath] at hp
    subst hp
    simpa using hc
  | cons e rest ih =>
    intro next target chain hp hc
    simp only [IsPath] at hp
    obtain ⟨h1, h2, h3⟩ := hp
    have hrec := ih h3 hc
    have hne : rest ++ chain ≠ [] := by
      intro h
      exact isChain_ne_nil hc (List.append_eq_nil.mp h).2
    obtain ⟨x, xs, hx⟩ := List.exists_cons_of_ne_nil hne
    rw [List.cons_append, hx, isChain_cons_cons]
    rw [hx] at hrec
    exact ⟨h1, h2, hrec⟩

/-- When a pass of the inner loop executes `return true`, the slots it matched form a
complete chain from the offset the pass started with. -/
theorem scanBuf_none (id : Int) :
    ∀ (es : FragmentBuf) (next : Int) (found : Bool), scanBuf id es next found = none →
      ∃ chain, IsChain next chain ∧
        ∀ e ∈ chain, e ∈ es ∧ e.isFree = false ∧ e.fragmentId = id := by
  intro es
  induction es with
  | nil => intro next found h; simp [scanBuf] at h
  | cons x xs ih =>
    intro next found h
    unfold scanBuf at h
    split at h
    · rename_i hm
      simp only [Bool.and_eq_true, Bool.not_eq_eq_eq_not, Bool.not_true, beq_iff_eq] at hm
      obtain ⟨⟨hfree, hid⟩, hoff⟩ := hm
      split at h
      · rename_i hmf
        refine ⟨[x], ?_, ?_⟩
        · simp only [IsChain]
          exact ⟨hoff.symm, by simpa using hmf⟩
        · intro e he
          simp only [List.mem_singleton] at he
          subst he
          exact ⟨List.mem_cons_self _ _, hfree, hid.symm⟩
      · rename_i hmf
        obtain ⟨chain, hc, hall⟩ := ih _ _ h
        obtain ⟨y, ys, hy⟩ := List.exists_cons_of_ne_nil (isChain_ne_nil hc)
        refine ⟨x :: chain, ?_, ?_⟩
        · rw [hy, isChain_cons_cons]
          rw [hy] at hc
          exact ⟨hoff.symm, by simpa using hmf, hc⟩
        · intro e he
          rcases List.mem_cons.mp he with he | he
          · subst he
            exact ⟨List.mem_cons_self _ _, hfree, hid.symm⟩
          · obtain ⟨h1, h2, h3⟩ := hall e he
            exact ⟨List.mem_cons_of_mem _ h1, h2, h3⟩
    · obtain ⟨chain, hc, hall⟩ := ih _ _ h
      refine ⟨chain, hc, ?_⟩
      intro e he
      obtain ⟨h1, h2, h3⟩ := hall e he
      exact ⟨List.mem_cons_of_mem _ h1, h2, h3⟩

/-- When a pass of the inner loop reaches the end of the buffer, the slots it matched form
a linking segment from the offset it started with to the offset it ended with. -/
theorem scanBuf_some (id : Int) :
    ∀ (es : FragmentBuf) (next : Int) (found : Bool) (next' : Int) (found' : Bool),
      scanBuf id es next found = some (next', found') →
      ∃ path, IsPath next path next' ∧
        ∀ e ∈ path, e ∈ es ∧ e.isFree = false ∧ e.fragmentId = id := by
  intro es
  induction es with
  | nil =>
    intro next found next' found' h
    simp only [scanBuf, Option.some.injEq, Prod.mk.injEq] at h
    exact ⟨[], by simpa [IsPath] using h.1, by simp⟩
  | cons x xs ih =>
    intro next found next' found' h
    unfold scanBuf at h
    split at h
    · rename_i hm
      simp only [Bool.and_eq_true, Bool.not_eq_eq_eq_not, Bool.not_true, beq_iff_eq] at hm
      obtain ⟨⟨hfree, hid⟩, hoff⟩ := hm
      split at h
      · simp at h
      · rename_i hmf
        obtain ⟨path, hp, hall⟩ := ih _ _ _ _ h
        refine ⟨x :: path, ?_, ?_⟩
        · simp only [IsPath]
          exact ⟨hoff.symm, by simpa using hmf, hp⟩
        · intro e he
          rcases List.mem_cons.mp he with he | he
          · subst he
            exact ⟨List.mem_cons_self _ _, hfree, hid.symm⟩
          · obtain ⟨h1, h2, h3⟩ := hall e he
            exact ⟨List.mem_cons_of_mem _ h1, h2, h3⟩
    · obtain ⟨path, hp, hall⟩ := ih _ _ _ _ h
      refine ⟨path, hp, ?_⟩
      intro e he
      obtain ⟨h1, h2, h3⟩ := hall e he
      exact ⟨List.mem_cons_of_mem _ h1, h2, h3⟩

/-- The equations of `completeLoop` by the outcome of the pass. -/
theorem completeLoop_succ (buf : FragmentBuf) (id : Int) (fuel : Nat) (next : Int) :
    completeLoop buf id (fuel + 1) next =
      match scanBuf id buf next false with
      | none => some true
      | some (next', true) => completeLoop buf id fuel next'
      | some (_, false) => some false := by
  rfl

/-- Soundness of the completion loop: if it returns true, the occupied slots of the
datagram contain a complete chain from the offset the loop started with. -/
theorem completeLoop_true (buf : FragmentBuf) (id : Int) :
    ∀ (fuel : Nat) (next : Int), completeLoop buf id fuel next = some true →
      ∃ chain, IsChain next chain ∧ ∀ e ∈ chain, Stored buf id e := by
  intro fuel
  induction fuel with
  | zero => intro next h; simp [completeLoop] at h
  | succ n ih =>
    intro next h
    rw [completeLoop_succ] at h
    split at h
    · rename_i hs
      exact scanBuf_none id buf next false hs
    · rename_i next' hs
      obtain ⟨path, hp, hpall⟩ := scanBuf_some id buf next false next' true hs
      obtain ⟨chain, hc, hcall⟩ := ih next' h
      refine ⟨path ++ chain, isChain_append hp hc, ?_⟩
      intro e he
      rcases List.mem_append.mp he with he | he
      · exact hpall e he
      · exact hcall e he
    · simp at h


/-- Every byte from the start of a chain to the end of its last entry lies in the byte
range of one of its entries. -/
theorem isChain_cover :
    ∀ (chain : List FragmentationBufferEntry) (next : Int), IsChain next chain →
      ∀ l, chain.getLast? = some l → ∀ b : Int, next ≤ b → b < l.fragmentOffset + l.length →
        ∃ e ∈ chain, e.fragmentOffset ≤ b ∧ b < e.fragmentOffset + e.length := by
  intro chain
  induction chain with
  | nil => intro next h; simp [IsChain] at h
  | cons e rest ih =>
    intro next h l hl b hb1 hb2
    cases rest with
    | nil =>
      simp only [IsChain] at h
      simp only [List.getLast?_singleton, Option.some.injEq] at hl
      subst hl
      exact ⟨e, List.mem_cons_self _ _, by omega, hb2⟩
    | cons e' rest' =>
      rw [isChain_cons_cons] at h
      obtain ⟨h1, _, h3⟩ := h
      by_cases hb : b < next + e.length
      · exact ⟨e, List.mem_cons_self _ _, by omega, by omega⟩
      · have hl' : (e' :: rest').getLast? = some l := by
          rw [List.getLast?_cons_cons] at hl
          exact hl
        obtain ⟨x, hx, hx1, hx2⟩ := ih (next + e.length) h3 l hl' b (by omega) hb2
        exact ⟨x, List.mem_cons_of_mem _ hx, hx1, hx2⟩


/-! ### Effect of the buffer operations on the stored fragments -/

theorem mem_insertEntry (e x : FragmentationBufferEntry) (hx : x.isFree = false) :
    ∀ buf : FragmentBuf, x ∈ insertEntry e buf ↔ x = e ∨ x ∈ buf := by
  intro buf
  induction buf with
  | nil => simp [insertEntry]
  | cons y ys ih =>
    unfold insertEntry
    by_cases hy : y.isFree = true
    · simp only [hy, beq_self_eq_true, if_true, List.mem_cons]
      constructor
      · rintro (h | h)
        · exact Or.inl h
        · exact Or.inr (Or.inr h)
      · rintro (h | h | h)
        · exact Or.inl h
        · subst h; rw [hx] at hy; cases hy
        · exact Or.inr h
    · have hy' : (y.isFree == true) = false := by simpa using hy
      simp only [hy', Bool.false_eq_true, if_false, List.mem_cons, ih]
      tauto

theorem length_insertEntry (e : FragmentationBufferEntry) :
    ∀ buf : FragmentBuf, (insertEntry e buf).length ≤ buf.length + 1 := by
  intro buf
  induction buf with
  | nil => simp [insertEntry]
  | cons y ys ih =>
    unfold insertEntry
    split
    · simp
    · simp only [List.length_cons]; omega

theorem entryOf_isFree (now T : simtime_t) (d : IPDatagram) :
    (entryOf now T d).isFree = false := rfl

/-- After `insertInFragmentBuf`, the stored fragments of a datagram are the ones stored
before and, for the datagram of the insertion, the new entry. -/
theorem stored_insert (now T : simtime_t) (buf : FragmentBuf) (d : IPDatagram) (id : Int)
    (x : FragmentationBufferEntry) :
    Stored (insertInFragmentBuf now T buf d) id x ↔
      (x = entryOf now T d ∧ d.fragmentId = id) ∨ Stored buf id x := by
  unfold Stored insertInFragmentBuf
  constructor
  · rintro ⟨h1, h2, h3⟩
    rcases (mem_insertEntry _ x h2 buf).mp h1 with h | h
    · left
      refine ⟨h, ?_⟩
      rw [h] at h3
      exact h3
    · exact Or.inr ⟨h, h2, h3⟩
  · rintro (⟨h1, h2⟩ | ⟨h1, h2, h3⟩)
    · subst h1
      exact ⟨(mem_insertEntry _ _ rfl buf).mpr (Or.inl rfl), rfl, h2⟩
    · exact ⟨(mem_insertEntry _ x h2 buf).mpr (Or.inr h1), h2, h3⟩

/-- After `removeFragmentFromBuf(id')`, nothing of datagram `id'` is stored and the stored
fragments of every other datagram are unchanged. -/
theorem stored_remove (buf : FragmentBuf) (id' id : Int) (x : FragmentationBufferEntry) :
    Stored (removeFragmentFromBuf buf id') id x ↔ Stored buf id x ∧ id ≠ id' := by
  unfold Stored removeFragmentFromBuf
  constructor
  · rintro ⟨h1, h2, h3⟩
    obtain ⟨y, hy, hxy⟩ := List.mem_map.mp h1
    by_cases hc : (!y.isFree && y.fragmentId == id') = true
    · rw [if_pos hc] at hxy
      rw [← hxy] at h2
      simp at h2
    · rw [if_neg hc] at hxy
      subst hxy
      refine ⟨⟨hy, h2, h3⟩, ?_⟩
      intro hid
      apply hc
      simp [h2, h3, hid]
  · rintro ⟨⟨h1, h2, h3⟩, h4⟩
    refine ⟨List.mem_map.mpr ⟨x, h1, ?_⟩, h2, h3⟩
    have hc : ¬ (!x.isFree && x.fragmentId == id') = true := by
      simp only [Bool.and_eq_true, beq_iff_eq, not_and]
      intro _ h
      exact h4 (h3.symm.trans h)
    rw [if_neg hc]

theorem length_removeFragmentFromBuf (buf : FragmentBuf) (id : Int) :
    (removeFragmentFromBuf buf id).length = buf.length := by
  simp [removeFragmentFromBuf]

/-- After a sweep, the stored fragments are the ones stored before whose own timeout has
not passed. -/
theorem stored_erase (curTime : simtime_t) (buf : FragmentBuf) (id : Int)
    (x : FragmentationBufferEntry) :
    Stored (eraseTimeoutFragmentsFromBuf curTime buf) id x ↔
      Stored buf id x ∧ curTime ≤ x.timeout := by
  unfold Stored eraseTimeoutFragmentsFromBuf
  constructor
  · rintro ⟨h1, h2, h3⟩
    obtain ⟨y, hy, hxy⟩ := List.mem_map.mp h1
    by_cases hc : (!y.isFree && decide (curTime > y.timeout)) = true
    · rw [if_pos hc] at hxy
      rw [← hxy] at h2
      simp at h2
    · rw [if_neg hc] at hxy
      subst hxy
      refine ⟨⟨hy, h2, h3⟩, ?_⟩
      simp only [h2, Bool.not_false, Bool.true_and, decide_eq_true_eq, gt_iff_lt, not_lt] at hc
      exact hc
  · rintro ⟨⟨h1, h2, h3⟩, h4⟩
    refine ⟨List.mem_map.mpr ⟨x, h1, ?_⟩, h2, h3⟩
    have hc : ¬ (!x.isFree && decide (curTime > x.timeout)) = true := by
      simp only [h2, Bool.not_false, Bool.true_and, decide_eq_true_eq, gt_iff_lt, not_lt]
      exact h4
    rw [if_neg hc]


/-! ### The completion check decides the existence of a complete chain -/

theorem isChain_head {next : Int} {chain : List FragmentationBufferEntry}
    (h : IsChain next chain) : ∃ e rest, chain = e :: rest ∧ e.fragmentOffset = next := by
  cases chain with
  | nil => simp [IsChain] at h
  | cons e rest =>
    refine ⟨e, rest, rfl, ?_⟩
    cases rest with
    | nil => simp only [IsChain] at h; exact h.1
    | cons e' rest' => rw [isChain_cons_cons] at h; exact h.1

theorem complete_step {buf : FragmentBuf} {id : Int} (hcons : Consistent buf id)
    {e : FragmentationBufferEntry} (he : Stored buf id e) {a : Int}
    (hoff : e.fragmentOffset = a) (hmf : e.moreFragments = true) :
    Complete buf id a ↔ Complete buf id (a + e.length) := by
  constructor
  · rintro ⟨chain, hc, hall⟩
    cases chain with
    | nil => simp [IsChain] at hc
    | cons x rest =>
      have hx : Stored buf id x := hall x (List.mem_cons_self _ _)
      cases rest with
      | nil =>
        simp only [IsChain] at hc
        have := (hcons x e hx he (hc.1.trans hoff.symm)).2
        rw [hc.2, hmf] at this
        cases this
      | cons y rest' =>
        rw [isChain_cons_cons] at hc
        have hlen := (hcons x e hx he (hc.1.trans hoff.symm)).1
        refine ⟨y :: rest', ?_, ?_⟩
        · rw [← hlen]; exact hc.2.2
        · intro z hz
          exact hall z (List.mem_cons_of_mem _ hz)
  · rintro ⟨chain, hc, hall⟩
    obtain ⟨y, ys, hy⟩ := List.exists_cons_of_ne_nil (isChain_ne_nil hc)
    refine ⟨e :: chain, ?_, ?_⟩
    · rw [hy, isChain_cons_cons]
      rw [hy] at hc
      exact ⟨hoff, hmf, hc⟩
    · intro z hz
      rcases List.mem_cons.mp hz with hz | hz
      · subst hz; exact he
      · exact hall z hz

theorem complete_path {buf : FragmentBuf} {id : Int} (hcons : Consistent buf id) :
    ∀ (path : List FragmentationBufferEntry) (a b : Int), IsPath a path b →
      (∀ e ∈ path, Stored buf id e) → (Complete buf id a ↔ Complete buf id b) := by
  intro path
  induction path with
  | nil =>
    intro a b hp _
    simp only [IsPath] at hp
    rw [hp]
  | cons e rest ih =>
    intro a b hp hall
    simp only [IsPath] at hp
    obtain ⟨h1, h2, h3⟩ := hp
    rw [complete_step hcons (hall e (List.mem_cons_self _ _)) h1 h2]
    exact ih _ _ h3 (fun x hx => hall x (List.mem_cons_of_mem _ hx))

/-- A pass that ends without having found a fragment started with the flag clear, leaves
the offset unchanged, and passed no occupied slot of the datagram at that offset. -/
theorem scanBuf_false (id : Int) :
    ∀ (es : FragmentBuf) (next : Int) (found : Bool) (next' : Int),
      scanBuf id es next found = some (next', false) →
      found = false ∧ next' = next ∧
        ∀ e ∈ es, e.isFree = false → e.fragmentId = id → e.fragmentOffset ≠ next := by
  intro es
  induction es with
  | nil =>
    intro next found next' h
    simp only [scanBuf, Option.some.injEq, Prod.mk.injEq] at h
    exact ⟨h.2, h.1.symm, by simp⟩
  | cons x xs ih =>
    intro next found next' h
    unfold scanBuf at h
    split at h
    · split at h
      · simp at h
      · have := (ih _ _ _ h).1
        simp at this
    · rename_i hm
      obtain ⟨h1, h2, h3⟩ := ih _ _ _ h
      refine ⟨h1, h2, ?_⟩
      intro e he hfree hid hoff
      rcases List.mem_cons.mp he with he | he
      · subst he
        apply hm
        simp [hfree, hid, hoff]
      · exact h3 e he hfree hid hoff

/-- Partial correctness of the completion loop for a consistent buffer: whatever it
returns is the truth about the existence of a complete chain. -/
theorem completeLoop_spec {buf : FragmentBuf} {id : Int} (hcons : Consistent buf id) :
    ∀ (fuel : Nat) (next : Int) (b : Bool), completeLoop buf id fuel next = some b →
      (b = true ↔ Complete buf id next) := by
  intro fuel
  induction fuel with
  | zero => intro next b h; simp [completeLoop] at h
  | succ n ih =>
    intro next b h
    rw [completeLoop_succ] at h
    split at h
    · rename_i hs
      simp only [Option.some.injEq] at h
      subst h
      simp only [true_iff]
      obtain ⟨chain, hc, hall⟩ := scanBuf_none id buf next false hs
      exact ⟨chain, hc, hall⟩
    · rename_i next' hs
      obtain ⟨path, hp, hpall⟩ := scanBuf_some id buf next false next' true hs
      rw [complete_path hcons path next next' hp hpall]
      exact ih next' b h
    · rename_i next' hs
      simp only [Option.some.injEq] at h
      subst h
      obtain ⟨_, _, hno⟩ := scanBuf_false id buf next false next' hs
      simp only [Bool.false_eq_true, false_iff]
      rintro ⟨chain, hc, hall⟩
      obtain ⟨e, rest, hch, hoff⟩ := isChain_head hc
      have he : Stored buf id e := hall e (by rw [hch]; exact List.mem_cons_self _ _)
      exact hno e he.1 he.2.1 he.2.2 hoff

/-! ### Termination of the completion check when stored lengths are positive -/

/-- A pass over slots of positive length never moves the offset backwards, and if it raises
the flag it has matched a slot at the starting offset and moved the offset forward. -/
theorem scanBuf_progress (id : Int) :
    ∀ (es : FragmentBuf), (∀ e ∈ es, e.isFree = false → e.fragmentId = id → 0 < e.length) →
      ∀ (next : Int) (found : Bool) (next' : Int) (found' : Bool),
      scanBuf id es next found = some (next', found') →
      next ≤ next' ∧
        (found' = true → found = true ∨
          (next < next' ∧
            ∃ e ∈ es, e.isFree = false ∧ e.fragmentId = id ∧ e.fragmentOffset = next)) := by
  intro es
  induction es with
  | nil =>
    intro _ next found next' found' h
    simp only [scanBuf, Option.some.injEq, Prod.mk.injEq] at h
    refine ⟨by omega, ?_⟩
    intro hf
    left
    rw [h.2, hf]
  | cons x xs ih =>
    intro hpos next found next' found' h
    have hpos' : ∀ e ∈ xs, e.isFree = false → e.fragmentId = id → 0 < e.length :=
      fun e he => hpos e (List.mem_cons_of_mem _ he)
    unfold scanBuf at h
    split at h
    · rename_i hm
      simp only [Bool.and_eq_true, Bool.not_eq_eq_eq_not, Bool.not_true, beq_iff_eq] at hm
      obtain ⟨⟨hfree, hid⟩, hoff⟩ := hm
      split at h
      · simp at h
      · have hx := hpos x (List.mem_cons_self _ _) hfree hid.symm
        obtain ⟨h1, _⟩ := ih hpos' _ _ _ _ h
        refine ⟨by omega, ?_⟩
        intro _
        right
        exact ⟨by omega, x, List.mem_cons_self _ _, hfree, hid.symm, hoff.symm⟩
    · obtain ⟨h1, h2⟩ := ih hpos' _ _ _ _ h
      refine ⟨h1, ?_⟩
      intro hf
      rcases h2 hf with h | ⟨h3, e, he, h4⟩
      · exact Or.inl h
      · exact Or.inr ⟨h3, e, List.mem_cons_of_mem _ he, h4⟩

theorem countP_lt_countP {α : Type} (p q : α → Bool) :
    ∀ (l : List α), (∀ x ∈ l, q x = true → p x = true) →
      (∃ e ∈ l, p e = true ∧ q e = false) → l.countP q < l.countP p := by
  intro l
  induction l with
  | nil => rintro _ ⟨e, he, _⟩; simp at he
  | cons y ys ih =>
    intro hpq hex
    have hmono : ys.countP q ≤ ys.countP p :=
      List.countP_mono_left (fun x hx => hpq x (List.mem_cons_of_mem _ hx))
    obtain ⟨e, he, hpe, hqe⟩ := hex
    rcases List.mem_cons.mp he with he | he
    · subst he
      rw [List.countP_cons_of_pos _ _ hpe, List.countP_cons_of_neg _ _ (by simp [hqe])]
      omega
    · have hlt := ih (fun x hx => hpq x (List.mem_cons_of_mem _ hx)) ⟨e, he, hpe, hqe⟩
      by_cases hqy : q y = true
      · rw [List.countP_cons_of_pos _ _ hqy,
          List.countP_cons_of_pos _ _ (hpq y (List.mem_cons_self _ _) hqy)]
        omega
      · rw [List.countP_cons_of_neg _ _ hqy]
        by_cases hpy : p y = true
        · rw [List.countP_cons_of_pos _ _ hpy]; omega
        · rw [List.countP_cons_of_neg _ _ hpy]; exact hlt

/-- The completion loop returns within as many passes as there are slots it can still
match, plus one, when every stored fragment of the datagram has a positive length. -/
theorem completeLoop_terminates {buf : FragmentBuf} {id : Int} (hpos : Positive buf id) :
    ∀ (fuel : Nat) (next : Int), buf.countP (ahead id next) < fuel →
      ∃ b, completeLoop buf id fuel next = some b := by
  intro fuel
  induction fuel with
  | zero => intro next h; omega
  | succ n ih =>
    intro next h
    rw [completeLoop_succ]
    split
    · exact ⟨true, rfl⟩
    · rename_i next' hs
      apply ih
      obtain ⟨_, h2⟩ := scanBuf_progress id buf
        (fun e he hf hi => hpos e ⟨he, hf, hi⟩) next false next' true hs
      rcases h2 rfl with h2 | ⟨hlt, e, he, hfree, hid, hoff⟩
      · cases h2
      · have := countP_lt_countP (ahead id next) (ahead id next') buf
          (by
            intro x _ hx
            simp only [ahead, Bool.and_eq_true, decide_eq_true_eq] at hx ⊢
            exact ⟨hx.1, by omega⟩)
          ⟨e, he, by simp [ahead, hfree, hid, hoff], by simp [ahead, hfree, hid, hoff, hlt]⟩
        omega
    · exact ⟨false, rfl⟩

/-- For a consistent buffer with positive stored lengths, `datagramComplete` returns within
`fragmentBufSize + 1` passes, and it returns true exactly when the stored fragments of the
datagram contain a complete chain from offset 0. -/
theorem datagramComplete_spec {buf : FragmentBuf} {id : Int} (hcons : Consistent buf id)
    (hpos : Positive buf id) {fuel : Nat} (hfuel : buf.length < fuel) :
    ∃ b, datagramComplete fuel buf id = some b ∧ (b = true ↔ Complete buf id 0) := by
  have hle : buf.countP (ahead id 0) ≤ buf.length := List.countP_le_length _
  obtain ⟨b, hb⟩ := completeLoop_terminates hpos fuel 0 (by omega)
  exact ⟨b, hb, completeLoop_spec hcons fuel 0 b hb⟩


/-! ### Fragment lists that tile a byte range -/

theorem tiles_single (next : Int) (d : IPDatagram) :
    tiles next [d] = true ↔
      d.fragmentOffset = next ∧ 0 < payloadBytes d ∧ d.moreFragments = false := by
  simp [tiles, and_assoc]

theorem tiles_cons_cons (next : Int) (d d' : IPDatagram) (rest : List IPDatagram) :
    tiles next (d :: d' :: rest) = true ↔
      d.fragmentOffset = next ∧ 0 < payloadBytes d ∧ d.moreFragments = true ∧
        tiles (next + payloadBytes d) (d' :: rest) = true := by
  simp [tiles, and_assoc]

theorem tiles_head {next : Int} {d : IPDatagram} {rest : List IPDatagram}
    (h : tiles next (d :: rest) = true) : d.fragmentOffset = next ∧ 0 < payloadBytes d := by
  cases rest with
  | nil => rw [tiles_single] at h; exact ⟨h.1, h.2.1⟩
  | cons d' rest' => rw [tiles_cons_cons] at h; exact ⟨h.1, h.2.1⟩

theorem tiles_lower :
    ∀ (fs : List IPDatagram) (next : Int), tiles next fs = true →
      ∀ f ∈ fs, next ≤ f.fragmentOffset ∧ 0 < payloadBytes f := by
  intro fs
  induction fs with
  | nil => intro next h; simp [tiles] at h
  | cons d rest ih =>
    intro next h f hf
    have hd := tiles_head h
    rcases List.mem_cons.mp hf with hf | hf
    · subst hf; exact ⟨by omega, hd.2⟩
    · cases rest with
      | nil => simp at hf
      | cons d' rest' =>
        rw [tiles_cons_cons] at h
        have := ih _ h.2.2.2 f hf
        exact ⟨by omega, this.2⟩

/-- In a tiling, fragments are determined by their offset. -/
theorem tiles_inj :
    ∀ (fs : List IPDatagram) (next : Int), tiles next fs = true →
      ∀ f ∈ fs, ∀ g ∈ fs, f.fragmentOffset = g.fragmentOffset → f = g := by
  intro fs
  induction fs with
  | nil => intro next h; simp [tiles] at h
  | cons d rest ih =>
    intro next h f hf g hg hfg
    have hd := tiles_head h
    cases rest with
    | nil =>
      simp only [List.mem_singleton] at hf hg
      rw [hf, hg]
    | cons d' rest' =>
      rw [tiles_cons_cons] at h
      have hlow := tiles_lower _ _ h.2.2.2
      rcases List.mem_cons.mp hf with hf1 | hf1 <;> rcases List.mem_cons.mp hg with hg1 | hg1
      · rw [hf1, hg1]
      · have := (hlow g hg1).1
        rw [hf1] at hfg
        omega
      · have := (hlow f hf1).1
        rw [hg1] at hfg
        omega
      · exact ih _ h.2.2.2 f hf1 g hg1 hfg

theorem tiles_pairwise :
    ∀ (fs : List IPDatagram) (next : Int), tiles next fs = true →
      fs.Pairwise fun a b => a.fragmentOffset ≠ b.fragmentOffset := by
  intro fs
  induction fs with
  | nil => intro next h; simp [tiles] at h
  | cons d rest ih =>
    intro next h
    have hd := tiles_head h
    cases rest with
    | nil => simp
    | cons d' rest' =>
      rw [tiles_cons_cons] at h
      have hlow := tiles_lower _ _ h.2.2.2
      refine List.Pairwise.cons ?_ (ih _ h.2.2.2)
      intro g hg
      have := (hlow g hg).1
      omega

/-- A tiling from offset 0 that contains an unfragmented datagram consists of it alone. -/
theorem tiles_unfragmented {fs : List IPDatagram} (h : tiles 0 fs = true) {d : IPDatagram}
    (hd : d ∈ fs) (hoff : d.fragmentOffset = 0) (hmf : d.moreFragments = false) :
    fs = [d] := by
  cases fs with
  | nil => simp at hd
  | cons d0 rest =>
    have h0 := tiles_head h
    have hdd : d = d0 :=
      tiles_inj _ _ h d hd d0 (List.mem_cons_self _ _) (by rw [hoff, h0.1])
    subst hdd
    cases rest with
    | nil => rfl
    | cons d' rest' =>
      rw [tiles_cons_cons] at h
      rw [hmf] at h
      simp at h

/-- A complete chain among entries that agree with a tiling wherever they share an offset
passes through the offset of every fragment of the tiling. -/
theorem tiles_chain_covers :
    ∀ (fs : List IPDatagram) (next : Int) (chain : List FragmentationBufferEntry),
      tiles next fs = true → IsChain next chain →
      (∀ x ∈ chain, ∀ f ∈ fs, x.fragmentOffset = f.fragmentOffset →
        x.length = payloadBytes f ∧ x.moreFragments = f.moreFragments) →
      ∀ f ∈ fs, ∃ x ∈ chain, x.fragmentOffset = f.fragmentOffset := by
  intro fs
  induction fs with
  | nil => intro next chain h; simp [tiles] at h
  | cons d rest ih =>
    intro next chain h hc hagree f hf
    have hd := tiles_head h
    obtain ⟨x, xs, hch, hxoff⟩ := isChain_head hc
    subst hch
    have hx := hagree x (List.mem_cons_self _ _) d (List.mem_cons_self _ _)
      (by rw [hxoff, hd.1])
    cases rest with
    | nil =>
      simp only [List.mem_singleton] at hf
      subst hf
      exact ⟨x, List.mem_cons_self _ _, by rw [hxoff, hd.1]⟩
    | cons d' rest' =>
      rw [tiles_cons_cons] at h
      rcases List.mem_cons.mp hf with hf | hf
      · subst hf
        exact ⟨x, List.mem_cons_self _ _, by rw [hxoff, hd.1]⟩
      · cases xs with
        | nil =>
          simp only [IsChain] at hc
          rw [hx.2, h.2.2.1] at hc
          simp at hc
        | cons y ys =>
          rw [isChain_cons_cons] at hc
          have hc' : IsChain (next + payloadBytes d) (y :: ys) := by
            rw [← hx.1]; exact hc.2.2
          obtain ⟨z, hz, hzoff⟩ := ih _ _ h.2.2.2 hc'
            (fun x' hx' f' hf' => hagree x' (List.mem_cons_of_mem _ hx') f'
              (List.mem_cons_of_mem _ hf'))
            f hf
          exact ⟨z, List.mem_cons_of_mem _ hz, hzoff⟩

/-- If every fragment of a tiling has a matching entry, the entries contain a complete
chain. -/
theorem tiles_chain_exists (P : FragmentationBufferEntry → Prop) :
    ∀ (fs : List IPDatagram) (next : Int), tiles next fs = true →
      (∀ f ∈ fs, ∃ x, P x ∧ x.fragmentOffset = f.fragmentOffset ∧
        x.length = payloadBytes f ∧ x.moreFragments = f.moreFragments) →
      ∃ chain, IsChain next chain ∧ ∀ x ∈ chain, P x := by
  intro fs
  induction fs with
  | nil => intro next h; simp [tiles] at h
  | cons d rest ih =>
    intro next h hall
    obtain ⟨x, hPx, hxoff, hxlen, hxmf⟩ := hall d (List.mem_cons_self _ _)
    cases rest with
    | nil =>
      rw [tiles_single] at h
      refine ⟨[x], ?_, by simpa using hPx⟩
      simp only [IsChain]
      exact ⟨by rw [hxoff, h.1], by rw [hxmf, h.2.2]⟩
    | cons d' rest' =>
      rw [tiles_cons_cons] at h
      obtain ⟨chain, hc, hcall⟩ := ih _ h.2.2.2
        (fun f hf => hall f (List.mem_cons_of_mem _ hf))
      obtain ⟨y, ys, hy⟩ := List.exists_cons_of_ne_nil (isChain_ne_nil hc)
      subst hy
      refine ⟨x :: y :: ys, ?_, ?_⟩
      · rw [isChain_cons_cons]
        exact ⟨by rw [hxoff, h.1], by rw [hxmf, h.2.2.1], by rw [hxlen]; exact hc⟩
      · intro z hz
        rcases List.mem_cons.mp hz with hz | hz
        · subst hz; exact hPx
        · exact hcall z hz


/-! ### One arrival at the defragmentation block -/

theorem defragment_unfragmented (fuel : Nat) (T t : simtime_t) (buf : FragmentBuf)
    (d : IPDatagram) (hoff : d.fragmentOffset = 0) (hmf : d.moreFragments = false) :
    defragment fuel T t buf d = some (buf, some (delivered d)) := by
  simp [defragment, delivered, hoff, hmf]

theorem defragment_fragment (fuel : Nat) (T t : simtime_t) (buf : FragmentBuf)
    (d : IPDatagram) (hfrag : d.fragmentOffset ≠ 0 ∨ d.moreFragments = true) :
    defragment fuel T t buf d =
      match datagramComplete fuel (insertInFragmentBuf t T buf d) d.fragmentId with
      | none => none
      | some false => some (insertInFragmentBuf t T buf d, none)
      | some true =>
        some (removeFragmentFromBuf (insertInFragmentBuf t T buf d) d.fragmentId,
          some (delivered d)) := by
  have hc : (decide (d.fragmentOffset ≠ 0) || d.moreFragments) = true := by
    rcases hfrag with h | h <;> simp [h]
  unfold defragment delivered
  rw [if_pos hc, if_pos hc]

/-- What a returning call of the defragmentation block did. -/
theorem defragment_some {fuel : Nat} {T t : simtime_t} {buf : FragmentBuf} {d : IPDatagram}
    {buf' : FragmentBuf} {out : Option IPDatagram}
    (h : defragment fuel T t buf d = some (buf', out)) :
    (d.fragmentOffset = 0 ∧ d.moreFragments = false ∧ buf' = buf ∧
        out = some (delivered d)) ∨
    ((d.fragmentOffset ≠ 0 ∨ d.moreFragments = true) ∧
      ((datagramComplete fuel (insertInFragmentBuf t T buf d) d.fragmentId = some false ∧
          buf' = insertInFragmentBuf t T buf d ∧ out = none) ∨
       (datagramComplete fuel (insertInFragmentBuf t T buf d) d.fragmentId = some true ∧
          buf' = removeFragmentFromBuf (insertInFragmentBuf t T buf d) d.fragmentId ∧
          out = some (delivered d)))) := by
  by_cases hfrag : d.fragmentOffset ≠ 0 ∨ d.moreFragments = true
  · right
    refine ⟨hfrag, ?_⟩
    rw [defragment_fragment fuel T t buf d hfrag] at h
    split at h
    · simp at h
    · rename_i hb
      simp only [Option.some.injEq, Prod.mk.injEq] at h
      exact Or.inl ⟨hb, h.1.symm, h.2.symm⟩
    · rename_i hb
      simp only [Option.some.injEq, Prod.mk.injEq] at h
      exact Or.inr ⟨hb, h.1.symm, h.2.symm⟩
  · left
    have hoff : d.fragmentOffset = 0 := by
      by_contra hne; exact hfrag (Or.inl hne)
    have hmf : d.moreFragments = false := by
      cases hm : d.moreFragments
      · rfl
      · exact absurd (Or.inr hm) hfrag
    rw [defragment_unfragmented fuel T t buf d hoff hmf] at h
    simp only [Option.some.injEq, Prod.mk.injEq] at h
    exact ⟨hoff, hmf, h.1.symm, h.2.symm⟩

/-- An arrival of another datagram leaves the stored fragments of datagram `id`
unchanged. -/
theorem defragment_other {fuel : Nat} {T t : simtime_t} {buf : FragmentBuf} {d : IPDatagram}
    {buf' : FragmentBuf} {out : Option IPDatagram} {id : Int} (hid : d.fragmentId ≠ id)
    (h : defragment fuel T t buf d = some (buf', out)) (x : FragmentationBufferEntry) :
    Stored buf' id x ↔ Stored buf id x := by
  rcases defragment_some h with ⟨_, _, hb, _⟩ | ⟨_, ⟨_, hb, _⟩ | ⟨_, hb, _⟩⟩
  · rw [hb]
  · rw [hb, stored_insert]
    constructor
    · rintro (⟨_, h2⟩ | h2)
      · exact absurd h2 hid
      · exact h2
    · exact Or.inr
  · rw [hb, stored_remove, stored_insert]
    constructor
    · rintro ⟨(⟨_, h2⟩ | h2), _⟩
      · exact absurd h2 hid
      · exact h2
    · intro h2
      exact ⟨Or.inr h2, fun h3 => hid h3.symm⟩

theorem defragment_length {fuel : Nat} {T t : simtime_t} {buf : FragmentBuf} {d : IPDatagram}
    {buf' : FragmentBuf} {out : Option IPDatagram}
    (h : defragment fuel T t buf d = some (buf', out)) : buf'.length ≤ buf.length + 1 := by
  have hins : (insertInFragmentBuf t T buf d).length ≤ buf.length + 1 :=
    length_insertEntry _ _
  rcases defragment_some h with ⟨_, _, hb, _⟩ | ⟨_, ⟨_, hb, _⟩ | ⟨_, hb, _⟩⟩
  · rw [hb]; omega
  · rw [hb]; exact hins
  · rw [hb, length_removeFragmentFromBuf]; exact hins

theorem defragmentAll_cons (fuel : Nat) (T : simtime_t) (buf : FragmentBuf) (t : simtime_t)
    (d : IPDatagram) (rest : List (simtime_t × IPDatagram)) :
    defragmentAll fuel T buf ((t, d) :: rest) =
      match defragment fuel T t buf d with
      | none => none
      | some (buf1, out) =>
        match defragmentAll fuel T buf1 rest with
        | none => none
        | some (buf2, outs) => some (buf2, out :: outs) := by
  rfl

/-- A returning run splits into its first arrival and the run over the rest. -/
theorem defragmentAll_cons_some {fuel : Nat} {T : simtime_t} {buf : FragmentBuf}
    {t : simtime_t} {d : IPDatagram} {rest : List (simtime_t × IPDatagram)}
    {buf' : FragmentBuf} {outs : List (Option IPDatagram)}
    (h : defragmentAll fuel T buf ((t, d) :: rest) = some (buf', outs)) :
    ∃ buf1 out outs1, defragment fuel T t buf d = some (buf1, out) ∧
      defragmentAll fuel T buf1 rest = some (buf', outs1) ∧ outs = out :: outs1 := by
  rw [defragmentAll_cons] at h
  split at h
  · simp at h
  · rename_i buf1 out h1
    split at h
    · simp at h
    · rename_i buf2 outs1 h2
      simp only [Option.some.injEq, Prod.mk.injEq] at h
      exact ⟨buf1, out, outs1, h1, by rw [h2, h.1], h.2.symm⟩

theorem defragmentAll_length {fuel : Nat} {T : simtime_t} :
    ∀ (pre : List (simtime_t × IPDatagram)) (buf buf' : FragmentBuf)
      (outs : List (Option IPDatagram)),
      defragmentAll fuel T buf pre = some (buf', outs) →
      buf'.length ≤ buf.length + pre.length ∧ outs.length = pre.length := by
  intro pre
  induction pre with
  | nil =>
    intro buf buf' outs h
    simp only [defragmentAll, Option.some.injEq, Prod.mk.injEq] at h
    rw [← h.1, ← h.2]
    simp
  | cons p rest ih =>
    intro buf buf' outs h
    obtain ⟨t, d⟩ := p
    obtain ⟨buf1, out, outs1, h1, h2, h3⟩ := defragmentAll_cons_some h
    have hl := defragment_length h1
    obtain ⟨ih1, ih2⟩ := ih buf1 buf' outs1 h2
    rw [h3]
    simp only [List.length_cons]
    exact ⟨by omega, by omega⟩


/-! ### Arrivals of the fragments of a tiling -/

/-- While the stored fragments of a datagram are the entries of arrivals `seen` taken from
a tiling, the buffer is consistent, its stored lengths are positive, and it holds a
complete chain exactly when no fragment of the tiling is still to arrive. -/
theorem holds_tiling {T : simtime_t} {buf : FragmentBuf} {id : Int}
    {frags : List IPDatagram} {seen rest : List (simtime_t × IPDatagram)}
    (htile : tiles 0 frags = true) (hinv : Holds T buf id seen)
    (hperm : ((seen ++ rest).map Prod.snd).Perm frags) :
    Consistent buf id ∧ Positive buf id ∧ (Complete buf id 0 ↔ rest = []) := by
  have hmem : ∀ p ∈ seen ++ rest, p.2 ∈ frags := by
    intro p hp
    exact hperm.subset (List.mem_map_of_mem Prod.snd hp)
  have hsrc : ∀ x, Stored buf id x → ∃ f ∈ frags, x.fragmentOffset = f.fragmentOffset ∧
      x.length = payloadBytes f ∧ x.moreFragments = f.moreFragments := by
    intro x hx
    obtain ⟨p, hp, hxp⟩ := (hinv x).mp hx
    exact ⟨p.2, hmem p (List.mem_append_left _ hp), by rw [hxp]; rfl, by rw [hxp]; rfl,
      by rw [hxp]; rfl⟩
  have hagree : ∀ x, Stored buf id x → ∀ f ∈ frags, x.fragmentOffset = f.fragmentOffset →
      x.length = payloadBytes f ∧ x.moreFragments = f.moreFragments := by
    intro x hx f hf hxf
    obtain ⟨g, hg, h1, h2, h3⟩ := hsrc x hx
    have hgf : g = f := tiles_inj _ _ htile g hg f hf (by rw [← h1, hxf])
    subst hgf
    exact ⟨h2, h3⟩
  refine ⟨?_, ?_, ?_⟩
  · intro x1 x2 hx1 hx2 hoff
    obtain ⟨g, hg, h1, h2, h3⟩ := hsrc x2 hx2
    have := hagree x1 hx1 g hg (by rw [hoff, h1])
    exact ⟨by rw [this.1, h2], by rw [this.2, h3]⟩
  · intro x hx
    obtain ⟨g, hg, _, h2, _⟩ := hsrc x hx
    rw [h2]
    exact (tiles_lower _ _ htile g hg).2
  · constructor
    · rintro ⟨chain, hc, hall⟩
      by_contra hne
      obtain ⟨r, rs, hr⟩ := List.exists_cons_of_ne_nil hne
      have hrmem : r ∈ seen ++ rest := by
        rw [hr]; exact List.mem_append_right _ (List.mem_cons_self _ _)
      obtain ⟨x, hx, hxoff⟩ := tiles_chain_covers frags 0 chain htile hc
        (fun x hx f hf => hagree x (hall x hx) f hf) r.2 (hmem r hrmem)
      obtain ⟨p, hp, hxp⟩ := (hinv x).mp (hall x hx)
      have hpw : ((seen ++ rest).map Prod.snd).Pairwise
          (fun a b => a.fragmentOffset ≠ b.fragmentOffset) :=
        (hperm.pairwise_iff (fun {a b} (h : a.fragmentOffset ≠ b.fragmentOffset) =>
          (Ne.symm h : b.fragmentOffset ≠ a.fragmentOffset))).mpr (tiles_pairwise _ _ htile)
      rw [List.map_append, List.pairwise_append] at hpw
      have := hpw.2.2 p.2 (List.mem_map_of_mem Prod.snd hp) r.2
        (List.mem_map_of_mem Prod.snd (by rw [hr]; exact List.mem_cons_self _ _))
      apply this
      rw [← hxoff, hxp]
      rfl
    · intro hrest
      subst hrest
      rw [List.append_nil] at hperm
      apply tiles_chain_exists (Stored buf id) frags 0 htile
      intro f hf
      obtain ⟨p, hp, hpf⟩ := List.mem_map.mp (hperm.symm.subset hf)
      refine ⟨entryOf p.1 T p.2, (hinv _).mpr ⟨p, hp, rfl⟩, ?_, ?_, ?_⟩ <;> rw [← hpf] <;> rfl

/-- Inserting an arrival of the datagram extends the arrivals that the buffer holds. -/
theorem holds_insert {T : simtime_t} {buf : FragmentBuf} {id : Int}
    {seen : List (simtime_t × IPDatagram)} (hinv : Holds T buf id seen) (t : simtime_t)
    (d : IPDatagram) (hid : d.fragmentId = id) :
    Holds T (insertInFragmentBuf t T buf d) id (seen ++ [(t, d)]) := by
  intro x
  rw [stored_insert, hinv x]
  constructor
  · rintro (⟨h1, _⟩ | ⟨p, hp, hxp⟩)
    · exact ⟨(t, d), by simp, h1⟩
    · exact ⟨p, List.mem_append_left _ hp, hxp⟩
  · rintro ⟨p, hp, hxp⟩
    rcases List.mem_append.mp hp with hp | hp
    · exact Or.inr ⟨p, hp, hxp⟩
    · simp only [List.mem_singleton] at hp
      subst hp
      exact Or.inl ⟨hxp, hid⟩

/-- The arrival of one fragment of a tiling, when the call returns: it is reported
complete exactly when no fragment is still to arrive; otherwise it is stored. -/
theorem step_tiling {fuel : Nat} {T : simtime_t} {buf : FragmentBuf} {id : Int}
    {frags : List IPDatagram} {seen rest : List (simtime_t × IPDatagram)} {t : simtime_t}
    {d : IPDatagram} (htile : tiles 0 frags = true) (hids : ∀ f ∈ frags, f.fragmentId = id)
    (hinv : Holds T buf id seen)
    (hperm : ((seen ++ (t, d) :: rest).map Prod.snd).Perm frags)
    {buf' : FragmentBuf} {out : Option IPDatagram}
    (h : defragment fuel T t buf d = some (buf', out)) :
    (rest = [] → out = some (delivered d) ∧ ∀ x, ¬ Stored buf' id x) ∧
    (rest ≠ [] → out = none ∧ Holds T buf' id (seen ++ [(t, d)])) := by
  have hdmem : d ∈ frags :=
    hperm.subset (List.mem_map_of_mem Prod.snd (a := (t, d)) (by simp))
  have hid : d.fragmentId = id := hids d hdmem
  have hperm' : (((seen ++ [(t, d)]) ++ rest).map Prod.snd).Perm frags := by
    simpa using hperm
  rcases defragment_some h with ⟨hoff, hmf, hb, ho⟩ | ⟨_, hcase⟩
  · -- an unfragmented datagram is the whole tiling
    have hfr : frags = [d] := tiles_unfragmented htile hdmem hoff hmf
    have hlen := hperm.length_eq
    rw [hfr] at hlen
    simp only [List.map_append, List.map_cons, List.length_append, List.length_map,
      List.length_cons, List.length_nil] at hlen
    have hseen : seen = [] := List.length_eq_zero.mp (by omega)
    have hrest : rest = [] := List.length_eq_zero.mp (by omega)
    refine ⟨fun _ => ⟨ho, ?_⟩, fun hne => absurd hrest hne⟩
    intro x hx
    rw [hb] at hx
    obtain ⟨p, hp, _⟩ := (hinv x).mp hx
    rw [hseen] at hp
    simp at hp
  · have hinv1 := holds_insert hinv t d hid
    obtain ⟨hcons, _, hiff⟩ := holds_tiling htile hinv1 hperm'
    rw [hid] at hcase
    rcases hcase with ⟨hdc, hb, ho⟩ | ⟨hdc, hb, ho⟩
    · have hspec := completeLoop_spec hcons fuel 0 false hdc
      have hrest : rest ≠ [] := by
        intro hr
        have := hspec.mpr (hiff.mpr hr)
        cases this
      refine ⟨fun hr => absurd hr hrest, fun _ => ⟨ho, ?_⟩⟩
      rw [hb]
      exact hinv1
    · have hspec := completeLoop_spec hcons fuel 0 true hdc
      have hrest : rest = [] := hiff.mp (hspec.mp rfl)
      refine ⟨fun _ => ⟨ho, ?_⟩, fun hne => absurd hrest hne⟩
      intro x hx
      rw [hb, stored_remove] at hx
      exact hx.2 rfl

/-- The arrival of one fragment of a tiling returns when given more passes than the buffer
has slots after the insertion. -/
theorem step_tiling_returns {fuel : Nat} {T : simtime_t} {buf : FragmentBuf} {id : Int}
    {frags : List IPDatagram} {seen rest : List (simtime_t × IPDatagram)} {t : simtime_t}
    {d : IPDatagram} (htile : tiles 0 frags = true) (hids : ∀ f ∈ frags, f.fragmentId = id)
    (hinv : Holds T buf id seen)
    (hperm : ((seen ++ (t, d) :: rest).map Prod.snd).Perm frags)
    (hfuel : buf.length + 1 < fuel) :
    ∃ buf' out, defragment fuel T t buf d = some (buf', out) := by
  have hdmem : d ∈ frags :=
    hperm.subset (List.mem_map_of_mem Prod.snd (a := (t, d)) (by simp))
  have hid : d.fragmentId = id := hids d hdmem
  have hperm' : (((seen ++ [(t, d)]) ++ rest).map Prod.snd).Perm frags := by
    simpa using hperm
  by_cases hfrag : d.fragmentOffset ≠ 0 ∨ d.moreFragments = true
  · have hinv1 := holds_insert hinv t d hid
    obtain ⟨hcons, hpos, _⟩ := holds_tiling htile hinv1 hperm'
    have hins : (insertInFragmentBuf t T buf d).length ≤ buf.length + 1 :=
      length_insertEntry _ _
    have hf : (insertInFragmentBuf t T buf d).length < fuel := by omega
    obtain ⟨b, hb, _⟩ := datagramComplete_spec hcons hpos hf
    rw [defragment_fragment fuel T t buf d hfrag, hid, hb]
    cases b <;> simp
  · have hoff : d.fragmentOffset = 0 := by
      by_contra hne; exact hfrag (Or.inl hne)
    have hmf : d.moreFragments = false := by
      cases hm : d.moreFragments
      · rfl
      · exact absurd (Or.inr hm) hfrag
    exact ⟨_, _, defragment_unfragmented fuel T t buf d hoff hmf⟩


theorem arrivalsOf_cons_of_eq {id : Int} {t : simtime_t} {d : IPDatagram}
    (h : d.fragmentId = id) (rest : List (simtime_t × IPDatagram)) :
    arrivalsOf id ((t, d) :: rest) = (t, d) :: arrivalsOf id rest := by
  simp [arrivalsOf, h]

theorem arrivalsOf_cons_of_ne {id : Int} {t : simtime_t} {d : IPDatagram}
    (h : d.fragmentId ≠ id) (rest : List (simtime_t × IPDatagram)) :
    arrivalsOf id ((t, d) :: rest) = arrivalsOf id rest := by
  simp [arrivalsOf, h]

theorem arrivalsOf_append (id : Int) (l1 l2 : List (simtime_t × IPDatagram)) :
    arrivalsOf id (l1 ++ l2) = arrivalsOf id l1 ++ arrivalsOf id l2 := by
  simp [arrivalsOf]

theorem holds_nil_of_free {T : simtime_t} {buf : FragmentBuf} {id : Int}
    (h0 : ∀ x ∈ buf, x.isFree = false → x.fragmentId ≠ id) : Holds T buf id [] := by
  intro x
  constructor
  · rintro ⟨h1, h2, h3⟩
    exact absurd h3 (h0 x h1 h2)
  · rintro ⟨p, hp, _⟩
    simp at hp

/-- A returning run over arrivals that leave some fragment of the tiling outstanding ends
with exactly the arrived fragments stored. -/
theorem run_tiling_incomplete {fuel : Nat} {T : simtime_t} {id : Int}
    {frags : List IPDatagram} (htile : tiles 0 frags = true)
    (hids : ∀ f ∈ frags, f.fragmentId = id) {rest : List (simtime_t × IPDatagram)}
    (hrest : rest ≠ []) :
    ∀ (pre seen : List (simtime_t × IPDatagram)) (buf0 buf : FragmentBuf)
      (outs : List (Option IPDatagram)),
      Holds T buf0 id seen →
      ((seen ++ (arrivalsOf id pre ++ rest)).map Prod.snd).Perm frags →
      defragmentAll fuel T buf0 pre = some (buf, outs) →
      Holds T buf id (seen ++ arrivalsOf id pre) := by
  intro pre
  induction pre with
  | nil =>
    intro seen buf0 buf outs hinv _ hrun
    simp only [defragmentAll, Option.some.injEq, Prod.mk.injEq] at hrun
    rw [← hrun.1]
    simpa [arrivalsOf] using hinv
  | cons p pre' ih =>
    intro seen buf0 buf outs hinv hperm hrun
    obtain ⟨t, d⟩ := p
    obtain ⟨buf1, out, outs1, h1, h2, _⟩ := defragmentAll_cons_some hrun
    by_cases hd : d.fragmentId = id
    · rw [arrivalsOf_cons_of_eq hd] at hperm ⊢
      have hne : arrivalsOf id pre' ++ rest ≠ [] := by
        intro h
        exact hrest (List.append_eq_nil.mp h).2
      have hstep := (step_tiling htile hids hinv
        (by simpa using hperm) h1).2 hne
      have := ih (seen ++ [(t, d)]) buf1 buf outs1 hstep.2 (by simpa using hperm) h2
      simpa using this
    · rw [arrivalsOf_cons_of_ne hd] at hperm ⊢
      have hinv1 : Holds T buf1 id seen := by
        intro x
        rw [defragment_other hd h1 x]
        exact hinv x
      exact ih seen buf1 buf outs1 hinv1 hperm h2

theorem complete_congr {b1 b2 : FragmentBuf} {id : Int}
    (hsame : ∀ x, Stored b1 id x ↔ Stored b2 id x) (next : Int) :
    Complete b1 id next ↔ Complete b2 id next := by
  constructor
  · rintro ⟨chain, hc, hall⟩
    exact ⟨chain, hc, fun e he => (hsame e).mp (hall e he)⟩
  · rintro ⟨chain, hc, hall⟩
    exact ⟨chain, hc, fun e he => (hsame e).mpr (hall e he)⟩

theorem consistent_congr {b1 b2 : FragmentBuf} {id : Int}
    (hsame : ∀ x, Stored b1 id x ↔ Stored b2 id x) (h : Consistent b1 id) :
    Consistent b2 id :=
  fun e1 e2 h1 h2 hoff => h e1 e2 ((hsame e1).mpr h1) ((hsame e2).mpr h2) hoff

theorem outputsFor_cons_of_eq {id : Int} {t : simtime_t} {d : IPDatagram}
    (h : d.fragmentId = id) (rest : List (simtime_t × IPDatagram)) (out : Option IPDatagram)
    (outs : List (Option IPDatagram)) :
    outputsFor id ((t, d) :: rest) (out :: outs) = out :: outputsFor id rest outs := by
  simp [outputsFor, h]

theorem outputsFor_cons_of_ne {id : Int} {t : simtime_t} {d : IPDatagram}
    (h : d.fragmentId ≠ id) (rest : List (simtime_t × IPDatagram)) (out : Option IPDatagram)
    (outs : List (Option IPDatagram)) :
    outputsFor id ((t, d) :: rest) (out :: outs) = outputsFor id rest outs := by
  simp [outputsFor, h]

/-- Two runs from buffers with the same stored fragments of datagram `id`, one over all
arrivals and one over the arrivals of `id` only, give the same results for `id`, provided
the fragments of `id` have positive lengths and agree wherever they share an offset. -/
theorem run_same_stored {fuel : Nat} {T : simtime_t} {id : Int}
    (U : List (simtime_t × IPDatagram))
    (hposU : ∀ p ∈ U, 0 < payloadBytes p.2)
    (hconsU : ∀ p ∈ U, ∀ q ∈ U, p.2.fragmentOffset = q.2.fragmentOffset →
      payloadBytes p.2 = payloadBytes q.2 ∧ p.2.moreFragments = q.2.moreFragments) :
    ∀ (arrivals : List (simtime_t × IPDatagram)) (b1 b2 buf : FragmentBuf)
      (outs : List (Option IPDatagram)),
      (∀ x, Stored b1 id x ↔ Stored b2 id x) →
      (∀ x, Stored b1 id x → ∃ p ∈ U, x.fragmentOffset = p.2.fragmentOffset ∧
        x.length = payloadBytes p.2 ∧ x.moreFragments = p.2.moreFragments) →
      (∀ p ∈ arrivals, p.2.fragmentId = id → p ∈ U) →
      b1.length + (arrivalsOf id arrivals).length < fuel →
      defragmentAll fuel T b2 arrivals = some (buf, outs) →
      ∃ buf', defragmentAll fuel T b1 (arrivalsOf id arrivals) =
        some (buf', outputsFor id arrivals outs) := by
  intro arrivals
  induction arrivals with
  | nil =>
    intro b1 b2 buf outs _ _ _ _ hrun
    simp only [defragmentAll, Option.some.injEq, Prod.mk.injEq] at hrun
    rw [← hrun.2]
    exact ⟨b1, rfl⟩
  | cons p rest ih =>
    intro b1 b2 buf outs hsame hfrom hsub hfuel hrun
    obtain ⟨t, d⟩ := p
    obtain ⟨buf1, out, outs1, h1, h2, h3⟩ := defragmentAll_cons_some hrun
    have hsub' : ∀ p ∈ rest, p.2.fragmentId = id → p ∈ U :=
      fun p hp => hsub p (List.mem_cons_of_mem _ hp)
    subst h3
    by_cases hd : d.fragmentId = id
    · rw [arrivalsOf_cons_of_eq hd] at hfuel ⊢
      rw [outputsFor_cons_of_eq hd]
      simp only [List.length_cons] at hfuel
      have hdU : (t, d) ∈ U := hsub (t, d) (List.mem_cons_self _ _) hd
      rcases defragment_some h1 with ⟨hoff, hmf, hb, ho⟩ | ⟨hfrag, hcase⟩
      · -- unfragmented: both runs pass the datagram on and leave the buffer alone
        rw [hb] at h2
        obtain ⟨buf', hrec⟩ := ih b1 b2 buf outs1 hsame hfrom hsub' (by omega) h2
        refine ⟨buf', ?_⟩
        rw [defragmentAll_cons, defragment_unfragmented fuel T t b1 d hoff hmf]
        simp only [hrec, ho]
      · have hsame1 : ∀ x, Stored (insertInFragmentBuf t T b1 d) id x ↔
            Stored (insertInFragmentBuf t T b2 d) id x := by
          intro x
          rw [stored_insert, stored_insert, hsame x]
        have hfrom1 : ∀ x, Stored (insertInFragmentBuf t T b1 d) id x →
            ∃ p ∈ U, x.fragmentOffset = p.2.fragmentOffset ∧
              x.length = payloadBytes p.2 ∧ x.moreFragments = p.2.moreFragments := by
          intro x hx
          rcases (stored_insert t T b1 d id x).mp hx with ⟨hxe, _⟩ | hx
          · exact ⟨(t, d), hdU, by rw [hxe]; rfl, by rw [hxe]; rfl, by rw [hxe]; rfl⟩
          · exact hfrom x hx
        have hcons1 : Consistent (insertInFragmentBuf t T b1 d) id := by
          intro e1 e2 he1 he2 hoff
          obtain ⟨p1, hp1, a1, a2, a3⟩ := hfrom1 e1 he1
          obtain ⟨p2, hp2, c1, c2, c3⟩ := hfrom1 e2 he2
          have := hconsU p1 hp1 p2 hp2 (by rw [← a1, ← c1, hoff])
          exact ⟨by rw [a2, c2, this.1], by rw [a3, c3, this.2]⟩
        have hpos1 : Positive (insertInFragmentBuf t T b1 d) id := by
          intro e he
          obtain ⟨p1, hp1, _, a2, _⟩ := hfrom1 e he
          rw [a2]
          exact hposU p1 hp1
        have hins : (insertInFragmentBuf t T b1 d).length ≤ b1.length + 1 :=
          length_insertEntry _ _
        have hf : (insertInFragmentBuf t T b1 d).length < fuel := by omega
        obtain ⟨b, hb, hspec⟩ := datagramComplete_spec hcons1 hpos1 hf
        have hcons2 := consistent_congr hsame1 hcons1
        rw [hd] at hcase
        rcases hcase with ⟨hdc, hbuf, ho⟩ | ⟨hdc, hbuf, ho⟩
        · have h2f := completeLoop_spec hcons2 fuel 0 false hdc
          have hbf : b = false := by
            cases b
            · rfl
            · have := h2f.mpr ((complete_congr hsame1 0).mp (hspec.mp rfl))
              cases this
          subst hbf
          rw [hbuf] at h2
          obtain ⟨buf', hrec⟩ := ih _ _ buf outs1 hsame1 hfrom1 hsub' (by omega) h2
          refine ⟨buf', ?_⟩
          rw [defragmentAll_cons, defragment_fragment fuel T t b1 d hfrag, hd, hb]
          simp only [hrec, ho]
        · have h2t := completeLoop_spec hcons2 fuel 0 true hdc
          have hbt : b = true :=
            hspec.mpr ((complete_congr hsame1 0).mpr (h2t.mp rfl))
          subst hbt
          rw [hbuf] at h2
          have hsame2 : ∀ x,
              Stored (removeFragmentFromBuf (insertInFragmentBuf t T b1 d) id) id x ↔
              Stored (removeFragmentFromBuf (insertInFragmentBuf t T b2 d) id) id x := by
            intro x
            rw [stored_remove, stored_remove, hsame1 x]
          have hfrom2 : ∀ x,
              Stored (removeFragmentFromBuf (insertInFragmentBuf t T b1 d) id) id x →
              ∃ p ∈ U, x.fragmentOffset = p.2.fragmentOffset ∧
                x.length = payloadBytes p.2 ∧ x.moreFragments = p.2.moreFragments := by
            intro x hx
            rw [stored_remove] at hx
            exact absurd rfl hx.2
          obtain ⟨buf', hrec⟩ := ih _ _ buf outs1 hsame2 hfrom2 hsub'
            (by rw [length_removeFragmentFromBuf]; omega) h2
          refine ⟨buf', ?_⟩
          rw [defragmentAll_cons, defragment_fragment fuel T t b1 d hfrag, hd, hb]
          simp only [hrec, ho]
    · rw [arrivalsOf_cons_of_ne hd] at hfuel ⊢
      rw [outputsFor_cons_of_ne hd]
      have hsame1 : ∀ x, Stored b1 id x ↔ Stored buf1 id x := by
        intro x
        rw [defragment_other hd h1 x]
        exact hsame x
      exact ih b1 buf1 buf outs1 hsame1 hfrom hsub' hfuel h2


/-- A pass of the completion loop that matches a slot without advancing the offset is
repeated for ever: the loop returns for no number of passes. -/
theorem completeLoop_stuck (buf : FragmentBuf) (id : Int) (next : Int)
    (h : scanBuf id buf next false = some (next, true)) :
    ∀ fuel : Nat, completeLoop buf id fuel next = none := by
  intro fuel
  induction fuel with
  | zero => rfl
  | succ n ih =>
    rw [completeLoop_succ, h]
    exact ih

/-- Every fragment of a tiling has a positive payload length. -/
theorem tiles_pos : ∀ (frags : List IPDatagram) (next : Int), tiles next frags = true →
    ∀ f ∈ frags, 0 < payloadBytes f := by
  intro frags
  induction frags with
  | nil => intro next h; simp [tiles] at h
  | cons d rest ih =>
    intro next h f hf
    cases rest with
    | nil =>
      simp only [List.mem_singleton] at hf
      subst hf
      simp only [tiles, Bool.and_eq_true, decide_eq_true_eq] at h
      exact h.1.2
    | cons d' rest' =>
      simp only [tiles, Bool.and_eq_true, decide_eq_true_eq] at h
      rcases List.mem_cons.mp hf with hf | hf
      · subst hf
        exact h.1.1.2
      · exact ih _ h.2 f hf

/-- One arrival at the defragmentation block returns when every stored fragment and the
arriving one have positive lengths, and the stored lengths stay positive. -/
theorem defragment_returns {fuel : Nat} (T t : simtime_t) {buf : FragmentBuf} {d : IPDatagram}
    (hbuf : ∀ x ∈ buf, x.isFree = false → 0 < x.length) (hd : 0 < payloadBytes d)
    (hfuel : buf.length + 1 < fuel) :
    ∃ buf1 out, defragment fuel T t buf d = some (buf1, out) ∧
      ∀ x ∈ buf1, x.isFree = false → 0 < x.length := by
  by_cases hfrag : d.fragmentOffset ≠ 0 ∨ d.moreFragments = true
  · have hins : ∀ x ∈ insertInFragmentBuf t T buf d, x.isFree = false → 0 < x.length := by
      intro x hx hfree
      rcases (mem_insertEntry _ x hfree buf).mp hx with h | h
      · rw [h]
        exact hd
      · exact hbuf x h hfree
    have hlen : (insertInFragmentBuf t T buf d).length ≤ buf.length + 1 :=
      length_insertEntry _ _
    have hle : (insertInFragmentBuf t T buf d).countP (ahead d.fragmentId 0) ≤
        (insertInFragmentBuf t T buf d).length := List.countP_le_length _
    have hposd : Positive (insertInFragmentBuf t T buf d) d.fragmentId :=
      fun e he => hins e he.1 he.2.1
    obtain ⟨b, hb⟩ := completeLoop_terminates hposd fuel 0 (by omega)
    have hb' : datagramComplete fuel (insertInFragmentBuf t T buf d) d.fragmentId = some b :=
      hb
    rw [defragment_fragment fuel T t buf d hfrag, hb']
    cases b with
    | false => exact ⟨_, _, rfl, hins⟩
    | true =>
      refine ⟨_, _, rfl, ?_⟩
      intro x hx hfree
      unfold removeFragmentFromBuf at hx
      obtain ⟨y, hy, hxy⟩ := List.mem_map.mp hx
      by_cases hc : (!y.isFree && y.fragmentId == d.fragmentId) = true
      · rw [if_pos hc] at hxy
        rw [← hxy] at hfree
        cases hfree
      · rw [if_neg hc] at hxy
        subst hxy
        exact hins _ hy hfree
  · have hoff : d.fragmentOffset = 0 := by
      by_contra hne; exact hfrag (Or.inl hne)
    have hmf : d.moreFragments = false := by
      cases hm : d.moreFragments
      · rfl
      · exact absurd (Or.inr hm) hfrag
    rw [defragment_unfragmented fuel T t buf d hoff hmf]
    exact ⟨_, _, rfl, hbuf⟩

/-- A run over arrivals of positive payload length, started with positive stored lengths,
returns. -/
theorem defragmentAll_returns (fuel : Nat) (T : simtime_t) :
    ∀ (arrivals : List (simtime_t × IPDatagram)) (buf : FragmentBuf),
      (∀ x ∈ buf, x.isFree = false → 0 < x.length) →
      (∀ p ∈ arrivals, 0 < payloadBytes p.2) →
      buf.length + arrivals.length < fuel →
      ∃ buf' outs, defragmentAll fuel T buf arrivals = some (buf', outs) := by
  intro arrivals
  induction arrivals with
  | nil => intro buf _ _ _; exact ⟨buf, [], rfl⟩
  | cons p rest ih =>
    intro buf hbuf hpos hfuel
    obtain ⟨t, d⟩ := p
    simp only [List.length_cons] at hfuel
    obtain ⟨buf1, out, h1, hbuf1⟩ := defragment_returns T t hbuf
      (hpos (t, d) (List.mem_cons_self _ _)) (by omega : buf.length + 1 < fuel)
    have hl := defragment_length h1
    obtain ⟨buf2, outs, h2⟩ := ih buf1 hbuf1
      (fun q hq => hpos q (List.mem_cons_of_mem _ hq)) (by omega)
    exact ⟨buf2, out :: outs, by rw [defragmentAll_cons, h1]; simp only; rw [h2]⟩


/-- Claim C9. Whenever `datagramComplete(id)` returns true, the occupied buffer entries
with that identification contain a chain `f_0 ... f_n` with `f_0.offset = 0`,
`f_{i+1}.offset = f_i.offset + f_i.length`, moreFragments set on `f_0 ... f_{n-1}` and clear
on `f_n`, and every byte of `[0, f_n.offset + f_n.length)` lies in the byte range of a
stored fragment of the chain. -/
theorem datagramComplete_true_chain (fuel : Nat) (fragmentBuf : FragmentBuf)
    (fragmentId : Int) (h : datagramComplete fuel fragmentBuf fragmentId = some true) :
    ∃ chain : List FragmentationBufferEntry,
      IsChain 0 chain ∧
      (∀ e ∈ chain, e ∈ fragmentBuf ∧ e.isFree = false ∧ e.fragmentId = fragmentId) ∧
      ∀ l, chain.getLast? = some l → ∀ b : Int, 0 ≤ b → b < l.fragmentOffset + l.length →
        ∃ e ∈ chain, (e ∈ fragmentBuf ∧ e.isFree = false ∧ e.fragmentId = fragmentId) ∧
          e.fragmentOffset ≤ b ∧ b < e.fragmentOffset + e.length := by
  obtain ⟨chain, hc, hall⟩ := completeLoop_true fragmentBuf fragmentId fuel 0 h
  refine ⟨chain, hc, hall, ?_⟩
  intro l hl b hb1 hb2
  obtain ⟨e, he, h1, h2⟩ := isChain_cover chain 0 hc l hl b hb1 hb2
  exact ⟨e, he, hall e he, h1, h2⟩

/-- Witness for `datagramComplete_true_chain`: a buffer holding the two halves of
datagram 1, the second half in the first slot. -/
theorem datagramComplete_true_chain_witness :
    datagramComplete 3 bufTwoHalves 1 = some true ∧
    ∃ chain : List FragmentationBufferEntry,
      IsChain 0 chain ∧
      (∀ e ∈ chain, e ∈ bufTwoHalves ∧ e.isFree = false ∧ e.fragmentId = 1) ∧
      ∀ l, chain.getLast? = some l → ∀ b : Int, 0 ≤ b → b < l.fragmentOffset + l.length →
        ∃ e ∈ chain, (e ∈ bufTwoHalves ∧ e.isFree = false ∧ e.fragmentId = 1) ∧
          e.fragmentOffset ≤ b ∧ b < e.fragmentOffset + e.length :=
  ⟨by decide, datagramComplete_true_chain 3 bufTwoHalves 1 (by decide)⟩


/-- Claim C10, counterexample. With a fragment timeout of 60, the first half of datagram 1
is inserted at time 0 and the second half at time 50. The sweep at time 61, later than
first insertion + timeout, frees the slot of the first half only: the second half stays
stored, so the sweep removed only some of the datagram's fragments. -/
theorem eraseTimeoutFragmentsFromBuf_partial_counterexample :
    bufInsertedAt0And50 =
      [{ isFree := false, fragmentId := 1, fragmentOffset := 0, moreFragments := true,
         length := 16, timeout := 60 },
       { isFree := false, fragmentId := 1, fragmentOffset := 16, moreFragments := false,
         length := 8, timeout := 110 }] ∧
    eraseTimeoutFragmentsFromBuf 61 bufInsertedAt0And50 =
      [{ isFree := true, fragmentId := 1, fragmentOffset := 0, moreFragments := true,
         length := 16, timeout := 60 },
       { isFree := false, fragmentId := 1, fragmentOffset := 16, moreFragments := false,
         length := 8, timeout := 110 }] := by
  constructor <;> decide

/-- Claim C10, amended. The reassembly timeout is measured for every fragment on its own,
from the insertion of that fragment: `insertInFragmentBuf` at time `now` stores the entry
with `timeout = now + fragmentTimeout`, and after a sweep at time `curTime` the stored
fragments of a datagram are exactly the ones stored before whose own timeout is not
earlier than `curTime`; the sweep changes no field but `isFree` and does not move
entries. -/
theorem eraseTimeoutFragmentsFromBuf_per_fragment (now fragmentTimeout curTime : simtime_t)
    (fragmentBuf : FragmentBuf) (d : IPDatagram) (fragmentId : Int)
    (e : FragmentationBufferEntry) :
    (Stored (insertInFragmentBuf now fragmentTimeout fragmentBuf d) d.fragmentId
        (entryOf now fragmentTimeout d) ∧
      (entryOf now fragmentTimeout d).timeout = now + fragmentTimeout) ∧
    (Stored (eraseTimeoutFragmentsFromBuf curTime fragmentBuf) fragmentId e ↔
      Stored fragmentBuf fragmentId e ∧ curTime ≤ e.timeout) ∧
    (eraseTimeoutFragmentsFromBuf curTime fragmentBuf).length = fragmentBuf.length ∧
    ∀ (i : Nat) (x : FragmentationBufferEntry), fragmentBuf[i]? = some x →
      (eraseTimeoutFragmentsFromBuf curTime fragmentBuf)[i]? =
        some { x with isFree := x.isFree || decide (x.timeout < curTime) } := by
  refine ⟨⟨(stored_insert now fragmentTimeout fragmentBuf d d.fragmentId _).mpr
    (Or.inl ⟨rfl, rfl⟩), rfl⟩, stored_erase curTime fragmentBuf fragmentId e, ?_, ?_⟩
  · simp [eraseTimeoutFragmentsFromBuf]
  · intro i x hx
    simp only [eraseTimeoutFragmentsFromBuf, List.getElem?_map, hx, Option.map_some']
    congr 1
    obtain ⟨xfree, xid, xoff, xmf, xlen, xto⟩ := x
    cases xfree <;> by_cases ht : xto < curTime <;> simp [ht]


/-- Claim C8, the code at the failing input. The two halves of datagram 1 tile `[0, 24)`
and arrive second half first; between them arrives `emptyFragment`, a fragment of
datagram 2 with moreFragments set and an empty payload. The completion check made for that
fragment matches its slot on every pass without advancing the offset, so it returns for no
number of passes: the run never reaches the arrival of the first half and never reports
datagram 1 complete. Without the interleaved fragment, completion is reported on the
arrival of the first half, the last-arriving fragment. -/
theorem defragmentAll_empty_fragment_stalls :
    tiles 0 [firstHalf, secondHalf] = true ∧
    emptyFragment.fragmentId ≠ firstHalf.fragmentId ∧
    emptyFragment.moreFragments = true ∧ payloadBytes emptyFragment = 0 ∧
    (∀ fuel, datagramComplete fuel
        (insertInFragmentBuf 1 60 (insertInFragmentBuf 0 60 [] secondHalf) emptyFragment)
        emptyFragment.fragmentId = none) ∧
    (∀ fuel, defragmentAll fuel 60 [] stalledArrivals = none) ∧
    (defragmentAll 10 60 [] [(0, secondHalf), (2, firstHalf)]).map Prod.snd =
      some [none, some (delivered firstHalf)] := by
  have hstuck : ∀ fuel, datagramComplete fuel
      (insertInFragmentBuf 1 60 (insertInFragmentBuf 0 60 [] secondHalf) emptyFragment)
      emptyFragment.fragmentId = none :=
    completeLoop_stuck _ _ 0 (by decide)
  refine ⟨by decide, by decide, rfl, by decide, hstuck, ?_, by decide⟩
  intro fuel
  cases fuel with
  | zero => rfl
  | succ n =>
    have h1 : defragment (n + 1) 60 0 [] secondHalf =
        some (insertInFragmentBuf 0 60 [] secondHalf, none) := rfl
    have h2 : defragment (n + 1) 60 1 (insertInFragmentBuf 0 60 [] secondHalf)
        emptyFragment = none := by
      rw [defragment_fragment _ _ _ _ _ (Or.inr rfl), hstuck]
    unfold stalledArrivals
    rw [defragmentAll_cons, h1]
    simp only
    rw [defragmentAll_cons, h2]


/-- Order independence at one arrival of a run. Let `frags` tile `[0, total)` exactly, all
with identification `id`, and let `arrivals` contain them in any order, with fragments of
other identifications interleaved; the buffer starts with no stored fragment of `id`. At
the arrival `(t, d)` of a fragment of the datagram, when the run over the earlier arrivals
`pre` has returned with buffer `buf`, `datagramComplete` on the buffer after
`insertInFragmentBuf` returns, and it returns true exactly when no fragment of the datagram
arrives later. -/
theorem defragment_at_arrival (fuel : Nat) (T : simtime_t) (id : Int)
    (frags : List IPDatagram) (buf0 : FragmentBuf) (arrivals : List (simtime_t × IPDatagram))
    (htile : tiles 0 frags = true) (hids : ∀ f ∈ frags, f.fragmentId = id)
    (hperm : ((arrivalsOf id arrivals).map Prod.snd).Perm frags)
    (h0 : ∀ x ∈ buf0, x.isFree = false → x.fragmentId ≠ id)
    (hfuel : buf0.length + arrivals.length < fuel)
    (pre suf : List (simtime_t × IPDatagram)) (t : simtime_t) (d : IPDatagram)
    (hsplit : arrivals = pre ++ (t, d) :: suf) (hd : d.fragmentId = id)
    (buf : FragmentBuf) (outs : List (Option IPDatagram))
    (hrun : defragmentAll fuel T buf0 pre = some (buf, outs)) :
    (∃ b, datagramComplete fuel (insertInFragmentBuf t T buf d) id = some b ∧
      (b = true ↔ ∀ p ∈ suf, p.2.fragmentId ≠ id)) ∧
    (∃ buf1 out, defragment fuel T t buf d = some (buf1, out) ∧
      (out.isSome = true ↔ ∀ p ∈ suf, p.2.fragmentId ≠ id)) := by
  subst hsplit
  rw [arrivalsOf_append, arrivalsOf_cons_of_eq hd] at hperm
  have hlast : arrivalsOf id suf = [] ↔ ∀ p ∈ suf, p.2.fragmentId ≠ id := by
    simp [arrivalsOf, List.filter_eq_nil_iff]
  have hinv0 : Holds T buf0 id [] := holds_nil_of_free h0
  have hinv : Holds T buf id (arrivalsOf id pre) := by
    have hne : (t, d) :: arrivalsOf id suf ≠ [] := by simp
    have hperm0 : (([] ++ (arrivalsOf id pre ++ (t, d) :: arrivalsOf id suf)).map
        Prod.snd).Perm frags := by simpa using hperm
    have := run_tiling_incomplete htile hids hne pre [] buf0 buf outs hinv0 hperm0 hrun
    simpa using this
  have hlen := (defragmentAll_length pre buf0 buf outs hrun).1
  simp only [List.length_append, List.length_cons] at hfuel
  have hins : (insertInFragmentBuf t T buf d).length ≤ buf.length + 1 :=
    length_insertEntry _ _
  constructor
  · have hinv1 := holds_insert hinv t d hd
    have hperm1 : (((arrivalsOf id pre ++ [(t, d)]) ++ arrivalsOf id suf).map
        Prod.snd).Perm frags := by simpa using hperm
    obtain ⟨hcons, hpos, hiff⟩ := holds_tiling htile hinv1 hperm1
    have hf : (insertInFragmentBuf t T buf d).length < fuel := by omega
    obtain ⟨b, hb, hspec⟩ := datagramComplete_spec hcons hpos hf
    exact ⟨b, hb, by rw [hspec, hiff, hlast]⟩
  · have hf : buf.length + 1 < fuel := by omega
    obtain ⟨buf1, out, h1⟩ := step_tiling_returns htile hids hinv hperm hf
    obtain ⟨hyes, hno⟩ := step_tiling htile hids hinv hperm h1
    refine ⟨buf1, out, h1, ?_⟩
    rw [← hlast]
    constructor
    · intro hsome
      by_contra hne
      rw [(hno hne).1] at hsome
      simp at hsome
    · intro hnil
      rw [(hyes hnil).1]
      rfl

/-- Order independence of reassembly when every interleaved fragment of another
identification has a positive payload length, and so has every fragment already stored.
Let `frags` tile `[0, total)` exactly (first at offset 0, each next one starting where the
previous ends, positive lengths, moreFragments clear only on the final one), all with
identification `id`, and let `arrivals` contain them in any order, with the other fragments
interleaved arbitrarily; the buffer starts with no stored fragment of `id`. Then the run
returns, and at the arrival `(t, d)` of any fragment of the datagram `datagramComplete`
returns true exactly when no fragment of the datagram arrives later; the defragmentation
block of `handleMessage` passes a datagram on in exactly that case. -/
theorem defragment_order_independent (fuel : Nat) (T : simtime_t) (id : Int)
    (frags : List IPDatagram) (buf0 : FragmentBuf) (arrivals : List (simtime_t × IPDatagram))
    (htile : tiles 0 frags = true) (hids : ∀ f ∈ frags, f.fragmentId = id)
    (hperm : ((arrivalsOf id arrivals).map Prod.snd).Perm frags)
    (h0 : ∀ x ∈ buf0, x.isFree = false → x.fragmentId ≠ id)
    (hbuf : ∀ x ∈ buf0, x.isFree = false → 0 < x.length)
    (hothers : ∀ p ∈ arrivals, p.2.fragmentId ≠ id → 0 < payloadBytes p.2)
    (hfuel : buf0.length + arrivals.length < fuel)
    (pre suf : List (simtime_t × IPDatagram)) (t : simtime_t) (d : IPDatagram)
    (hsplit : arrivals = pre ++ (t, d) :: suf) (hd : d.fragmentId = id) :
    (∃ r, defragmentAll fuel T buf0 arrivals = some r) ∧
    ∃ buf outs, defragmentAll fuel T buf0 pre = some (buf, outs) ∧
      (∃ b, datagramComplete fuel (insertInFragmentBuf t T buf d) id = some b ∧
        (b = true ↔ ∀ p ∈ suf, p.2.fragmentId ≠ id)) ∧
      (∃ buf1 out, defragment fuel T t buf d = some (buf1, out) ∧
        (out.isSome = true ↔ ∀ p ∈ suf, p.2.fragmentId ≠ id)) := by
  have hpos : ∀ p ∈ arrivals, 0 < payloadBytes p.2 := by
    intro p hp
    by_cases hid : p.2.fragmentId = id
    · have hmem : p ∈ arrivalsOf id arrivals := by
        simp only [arrivalsOf, List.mem_filter, beq_iff_eq]
        exact ⟨hp, hid⟩
      have hmem2 : p.2 ∈ (arrivalsOf id arrivals).map Prod.snd :=
        List.mem_map_of_mem _ hmem
      exact tiles_pos frags 0 htile p.2 (hperm.mem_iff.mp hmem2)
    · exact hothers p hp hid
  obtain ⟨bufA, outsA, hall⟩ := defragmentAll_returns fuel T arrivals buf0
    hbuf hpos hfuel
  have hlenpre : buf0.length + pre.length < fuel := by
    rw [hsplit] at hfuel
    simp only [List.length_append, List.length_cons] at hfuel
    omega
  obtain ⟨buf, outs, hrun⟩ := defragmentAll_returns fuel T pre buf0 hbuf
    (fun p hp => hpos p (by rw [hsplit]; exact List.mem_append_left _ hp)) hlenpre
  exact ⟨⟨_, hall⟩, buf, outs, hrun,
    defragment_at_arrival fuel T id frags buf0 arrivals htile hids hperm h0 hfuel pre suf t d
      hsplit hd buf outs hrun⟩

/-- The two halves of datagram 1 arrive second half first, interleaved with the fragments
of datagram 2; at the last arrival, the first half, completion is reported. -/
theorem defragment_order_independent_example :
    ∃ buf outs,
      defragmentAll 10 60 []
        [(0, fragment 2 1 0 8 true), (1, secondHalf), (2, fragment 2 1 8 8 false)] =
        some (buf, outs) ∧
      (∃ b, datagramComplete 10 (insertInFragmentBuf 3 60 buf firstHalf) 1 = some b ∧
        (b = true ↔ ∀ p ∈ ([] : List (simtime_t × IPDatagram)), p.2.fragmentId ≠ 1)) ∧
      (∃ buf1 out, defragment 10 60 3 buf firstHalf = some (buf1, out) ∧
        (out.isSome = true ↔
          ∀ p ∈ ([] : List (simtime_t × IPDatagram)), p.2.fragmentId ≠ 1)) :=
  (defragment_order_independent 10 60 1 [firstHalf, secondHalf] [] interleavedArrivals
    (by decide) (by decide) (by decide) (by decide) (by decide) (by decide) (by decide)
    [(0, fragment 2 1 0 8 true), (1, secondHalf), (2, fragment 2 1 8 8 false)] []
    3 firstHalf (by decide) (by decide)).2


/-- Claim C7, counterexample. Stream A is `firstHalf`, `secondHalf` from source 1; stream B
is `intruder`, with the same identification 1 but source 5. Without B, the second fragment
of A completes A. With B's fragment interleaved, B's fragment is reported complete (on A's
first half) and A's second fragment, arriving afterwards, is not. -/
theorem defragmentAll_same_identification_counterexample :
    (intruder.fragmentId = firstHalf.fragmentId ∧
      intruder.srcAddress ≠ firstHalf.srcAddress) ∧
    (defragmentAll 10 60 [] [(0, firstHalf), (2, secondHalf)]).map Prod.snd =
      some [none, some (delivered secondHalf)] ∧
    (defragmentAll 10 60 [] [(0, firstHalf), (1, intruder), (2, secondHalf)]).map Prod.snd =
      some [none, some (delivered intruder), none] := by
  refine ⟨by decide, by decide, by decide⟩

/-- Claim C7, amended. The buffer is keyed by the identification alone. For a stream with
identification `id` whose fragments have positive payload lengths and agree in length and
moreFragments wherever two of them have the same offset, the fragments of streams with
other identifications never change whether or when the stream is reported complete: for
every insertion sequence whose run returns, starting with no stored fragment of `id`, the
results for the arrivals of `id` are the results of the run over the arrivals of `id`
alone, which returns as well. -/
theorem defragmentAll_other_identifications (fuel : Nat) (T : simtime_t) (id : Int)
    (arrivals : List (simtime_t × IPDatagram)) (buf0 : FragmentBuf)
    (hpos : ∀ p ∈ arrivals, p.2.fragmentId = id → 0 < payloadBytes p.2)
    (hcons : ∀ p ∈ arrivals, ∀ q ∈ arrivals, p.2.fragmentId = id → q.2.fragmentId = id →
      p.2.fragmentOffset = q.2.fragmentOffset →
      payloadBytes p.2 = payloadBytes q.2 ∧ p.2.moreFragments = q.2.moreFragments)
    (h0 : ∀ x ∈ buf0, x.isFree = false → x.fragmentId ≠ id)
    (hfuel : buf0.length + arrivals.length < fuel)
    (buf : FragmentBuf) (outs : List (Option IPDatagram))
    (hrun : defragmentAll fuel T buf0 arrivals = some (buf, outs)) :
    ∃ buf', defragmentAll fuel T buf0 (arrivalsOf id arrivals) =
      some (buf', outputsFor id arrivals outs) := by
  have hmemU : ∀ p, p ∈ arrivalsOf id arrivals ↔ p ∈ arrivals ∧ p.2.fragmentId = id := by
    intro p
    simp [arrivalsOf, List.mem_filter]
  have hlen : (arrivalsOf id arrivals).length ≤ arrivals.length := List.length_filter_le _ _
  apply run_same_stored (arrivalsOf id arrivals)
    (fun p hp => hpos p ((hmemU p).mp hp).1 ((hmemU p).mp hp).2)
    (fun p hp q hq => hcons p ((hmemU p).mp hp).1 q ((hmemU q).mp hq).1
      ((hmemU p).mp hp).2 ((hmemU q).mp hq).2)
    arrivals buf0 buf0 buf outs (fun _ => Iff.rfl)
  · intro x hx
    exact absurd hx.2.2 (h0 x hx.1 hx.2.1)
  · intro p hp hpid
    exact (hmemU p).mpr ⟨hp, hpid⟩
  · omega
  · exact hrun

/-- Witness for `defragmentAll_other_identifications`: the two halves of datagram 1
interleaved with the fragments of datagram 2. -/
theorem defragmentAll_other_identifications_witness :
    ∃ buf', defragmentAll 10 60 [] (arrivalsOf 1 interleavedArrivals) =
      some (buf', outputsFor 1 interleavedArrivals
        [none, none, some (delivered (fragment 2 1 8 8 false)), some (delivered firstHalf)]) :=
  defragmentAll_other_identifications 10 60 1 interleavedArrivals [] (by decide) (by decide)
    (by decide) (by decide) bufAfterFour
    [none, none, some (delivered (fragment 2 1 8 8 false)), some (delivered firstHalf)]
    (by decide)

/-- Streams with different identifications share the slots of the buffer, and the order of
the slots decides between stored fragments that disagree: in `conflictingArrivals`
datagram 1 has two fragments at offset 8 with different moreFragments flags. Alone, the
stream is never reported complete; interleaved with datagram 2 its last arrival is. -/
theorem defragmentAll_conflicting_duplicates :
    (defragmentAll 10 60 [] (arrivalsOf 1 conflictingArrivals)).map
        (fun r => r.2.map Option.isSome) = some [false, false, false] ∧
    (defragmentAll 10 60 [] conflictingArrivals).map
        (fun r => (outputsFor 1 conflictingArrivals r.2).map Option.isSome) =
      some [false, false, true] := by
  constructor <;> decide


/-- What `handleMessage` sends is the datagram that left the defragmentation block, with
the control info built from it. -/
theorem handleMessage_send_inv {prot : IPProtocolFieldId} {fuel : Nat} {simTime : simtime_t}
    {st : State} {d : IPDatagram} {st' : State} {gate : Gate} {dg : IPDatagram}
    {ci : IPControlInfo}
    (h : handleMessage prot fuel simTime st d = some (st', Action.send gate dg ci)) :
    dg = delivered d ∧ ci = decapsulateIP (delivered d) := by
  unfold handleMessage at h
  simp only at h
  split at h
  · simp at h
  · simp at h
  · rename_i buf dg' hdef
    have hout : dg' = delivered d := by
      rcases defragment_some hdef with ⟨_, _, _, ho⟩ | ⟨_, ⟨_, _, ho⟩ | ⟨_, _, ho⟩⟩
      · exact Option.some.inj ho
      · cases ho
      · exact Option.some.inj ho
    subst hout
    repeat' split at h
    all_goals
      simp only [Option.some.injEq, Prod.mk.injEq, Action.send.injEq] at h
    all_goals first
      | exact ⟨h.2.2.1.symm, h.2.2.2.symm⟩
      | exact absurd h.2 (by simp)

/-- Claim C11, counterexample. The two halves of datagram 1 complete in the buffer in
either order. When `firstHalf` arrives last, the datagram handed to decapsulation has
moreFragments set; when `secondHalf` arrives last, it has fragmentOffset 16. -/
theorem handleMessage_header_counterexample :
    (∃ st', handleMessage ianaProtocolFields 5 1 stateWithSecondHalf firstHalf =
      some (st', Action.send (Gate.transportOut 1) (delivered firstHalf)
        (decapsulateIP (delivered firstHalf)))) ∧
    (delivered firstHalf).moreFragments = true ∧
    (∃ st', handleMessage ianaProtocolFields 5 1 stateWithFirstHalf secondHalf =
      some (st', Action.send (Gate.transportOut 1) (delivered secondHalf)
        (decapsulateIP (delivered secondHalf)))) ∧
    (delivered secondHalf).fragmentOffset = 16 :=
  ⟨⟨_, rfl⟩, rfl, ⟨_, rfl⟩, rfl⟩

/-- Claim C11, amended. Whenever `handleMessage` delivers for an arriving datagram `d` (for
a fragment: the one whose arrival completes its fragment set), the datagram handed to
decapsulation is `d` itself, the last arrival: it keeps the header of `d`, with
moreFragments and fragmentOffset as `d` has them, and for a fragment its message length is
set to `headerLength*8 + encapsulatedMsg()->length()`; the control info of the delivered
packet carries the protocol, addresses and DSCP of `d`. -/
theorem handleMessage_delivers_last_arrival (prot : IPProtocolFieldId) (fuel : Nat)
    (simTime : simtime_t) (st : State) (d : IPDatagram) (st' : State) (gate : Gate)
    (dg : IPDatagram) (ci : IPControlInfo)
    (h : handleMessage prot fuel simTime st d = some (st', Action.send gate dg ci)) :
    dg.moreFragments = d.moreFragments ∧ dg.fragmentOffset = d.fragmentOffset ∧
    dg.fragmentId = d.fragmentId ∧ dg.headerLength = d.headerLength ∧
    dg.srcAddress = d.srcAddress ∧ dg.destAddress = d.destAddress ∧
    dg.transportProtocol = d.transportProtocol ∧
    dg.diffServCodePoint = d.diffServCodePoint ∧
    (d.fragmentOffset ≠ 0 ∨ d.moreFragments = true →
      dg.length = d.headerLength * 8 + d.encapsulatedLength) ∧
    ci = { protocol := d.transportProtocol, srcAddr := d.srcAddress,
           destAddr := d.destAddress, diffServCodePoint := d.diffServCodePoint } := by
  obtain ⟨hdg, hci⟩ := handleMessage_send_inv h
  subst hdg hci
  by_cases hfrag : (decide (d.fragmentOffset ≠ 0) || d.moreFragments) = true
  · have hdel : delivered d =
        { d with length := d.headerLength * 8 + d.encapsulatedLength } := by
      unfold delivered; rw [if_pos hfrag]
    rw [hdel]
    exact ⟨rfl, rfl, rfl, rfl, rfl, rfl, rfl, rfl, fun _ => rfl, rfl⟩
  · have hdel : delivered d = d := by
      unfold delivered; rw [if_neg hfrag]
    rw [hdel]
    refine ⟨rfl, rfl, rfl, rfl, rfl, rfl, rfl, rfl, ?_, rfl⟩
    intro hc
    exfalso
    apply hfrag
    rcases hc with hc | hc <;> simp [hc]

/-- Witness for `handleMessage_delivers_last_arrival`: `firstHalf` arrives after
`secondHalf` and completes datagram 1. -/
theorem handleMessage_delivers_last_arrival_witness :
    (delivered firstHalf).moreFragments = firstHalf.moreFragments ∧
    (delivered firstHalf).fragmentOffset = firstHalf.fragmentOffset ∧
    (delivered firstHalf).fragmentId = firstHalf.fragmentId ∧
    (delivered firstHalf).headerLength = firstHalf.headerLength ∧
    (delivered firstHalf).srcAddress = firstHalf.srcAddress ∧
    (delivered firstHalf).destAddress = firstHalf.destAddress ∧
    (delivered firstHalf).transportProtocol = firstHalf.transportProtocol ∧
    (delivered firstHalf).diffServCodePoint = firstHalf.diffServCodePoint ∧
    (firstHalf.fragmentOffset ≠ 0 ∨ firstHalf.moreFragments = true →
      (delivered firstHalf).length =
        firstHalf.headerLength * 8 + firstHalf.encapsulatedLength) ∧
    decapsulateIP (delivered firstHalf) =
      { protocol := firstHalf.transportProtocol, srcAddr := firstHalf.srcAddress,
        destAddr := firstHalf.destAddress,
        diffServCodePoint := firstHalf.diffServCodePoint } :=
  handleMessage_delivers_last_arrival ianaProtocolFields 5 1 stateWithSecondHalf firstHalf
    { stateWithSecondHalf with
      lastCheckTime := 1,
      fragmentBuf := removeFragmentFromBuf
        (insertInFragmentBuf 1 60 (eraseTimeoutFragmentsFromBuf 1
          stateWithSecondHalf.fragmentBuf) firstHalf) 1 }
    (Gate.transportOut 1) (delivered firstHalf) (decapsulateIP (delivered firstHalf)) rfl

end LocalDeliver
namespace LocalDeliver

/-! ## Termination of the completion check and the effect of a completion on the buffer -/

/-- A result of the completion loop does not change when more passes are allowed. -/
theorem completeLoop_mono (buf : FragmentBuf) (id : Int) :
    ∀ (fuel : Nat) (next : Int) (b : Bool), completeLoop buf id fuel next = some b →
      ∀ k : Nat, completeLoop buf id (fuel + k) next = some b := by
  intro fuel
  induction fuel with
  | zero =>
    intro next b h
    simp [completeLoop] at h
  | succ n ih =>
    intro next b h k
    have hk : n + 1 + k = (n + k) + 1 := by omega
    rw [hk, completeLoop_succ]
    rw [completeLoop_succ] at h
    split
    · rename_i hs
      rw [hs] at h
      exact h
    · rename_i next' hs
      rw [hs] at h
      exact ih next' b h k
    · rename_i next' hs
      rw [hs] at h
      exact h

/-- The effect of `removeFragmentFromBuf` slot by slot. -/
theorem removeFragmentFromBuf_getElem? (buf : FragmentBuf) (id : Int) (i : Nat) :
    (removeFragmentFromBuf buf id)[i]? =
      buf[i]?.map fun e =>
        if !e.isFree && e.fragmentId == id then { e with fragmentId := -1, isFree := true }
        else e := by
  unfold removeFragmentFromBuf
  exact List.getElem?_map _ _ _

/-- After `removeFragmentFromBuf`, no occupied slot has the removed identification, the
slots with another identification are as before, and the slots with the removed
identification are free. -/
theorem removeFragmentFromBuf_frame (buf : FragmentBuf) (id : Int) :
    (∀ e ∈ removeFragmentFromBuf buf id, e.isFree = false → e.fragmentId ≠ id) ∧
    (removeFragmentFromBuf buf id).length = buf.length ∧
    (∀ (i : Nat) (e : FragmentationBufferEntry), buf[i]? = some e → e.fragmentId ≠ id →
      (removeFragmentFromBuf buf id)[i]? = some e) ∧
    (∀ (i : Nat) (e : FragmentationBufferEntry), buf[i]? = some e → e.fragmentId = id →
      ∃ e', (removeFragmentFromBuf buf id)[i]? = some e' ∧ e'.isFree = true ∧
        e'.fragmentOffset = e.fragmentOffset ∧ e'.length = e.length ∧
        e'.moreFragments = e.moreFragments ∧ e'.timeout = e.timeout) := by
  refine ⟨?_, length_removeFragmentFromBuf buf id, ?_, ?_⟩
  · intro e he hfree hid
    unfold removeFragmentFromBuf at he
    obtain ⟨x, hx, hxe⟩ := List.mem_map.mp he
    by_cases hc : (!x.isFree && x.fragmentId == id) = true
    · rw [if_pos hc] at hxe
      subst hxe
      simp at hfree
    · rw [if_neg hc] at hxe
      subst hxe
      apply hc
      simp [hfree, hid]
  · intro i e hi hne
    rw [removeFragmentFromBuf_getElem?, hi]
    have hc : ¬ (!e.isFree && e.fragmentId == id) = true := by
      simp [hne]
    simp only [Option.map_some', if_neg hc]
  · intro i e hi hid
    rw [removeFragmentFromBuf_getElem?, hi]
    cases hf : e.isFree
    · refine ⟨_, rfl, ?_⟩
      simp [hf, hid]
    · refine ⟨_, rfl, ?_⟩
      simp [hf]

/-- Claim C33. For every reassembly-buffer state in which every occupied entry has
length > 0, `LocalDeliver::datagramComplete` terminates for every identification: it
returns the same answer whenever it is given more passes than the buffer has slots, and on
every pass that finds a fragment and goes on, the running offset `nextFragmentOffset` has
strictly increased. -/
theorem datagramComplete_terminates (fragmentBuf : FragmentBuf)
    (hpos : ∀ e ∈ fragmentBuf, e.isFree = false → 0 < e.length) (fragmentId : Int) :
    (∃ b, ∀ fuel, fragmentBuf.length < fuel →
      datagramComplete fuel fragmentBuf fragmentId = some b) ∧
    (∀ next next', scanBuf fragmentId fragmentBuf next false = some (next', true) →
      next < next') := by
  have hP : Positive fragmentBuf fragmentId := fun e he => hpos e he.1 he.2.1
  constructor
  · have hle : fragmentBuf.countP (ahead fragmentId 0) ≤ fragmentBuf.length :=
      List.countP_le_length _
    obtain ⟨b, hb⟩ := completeLoop_terminates hP (fragmentBuf.length + 1) 0 (by omega)
    refine ⟨b, ?_⟩
    intro fuel hfuel
    have hk : fuel = fragmentBuf.length + 1 + (fuel - (fragmentBuf.length + 1)) := by omega
    unfold datagramComplete
    rw [hk]
    exact completeLoop_mono fragmentBuf fragmentId _ 0 b hb _
  · intro next next' hs
    obtain ⟨-, h2⟩ := scanBuf_progress fragmentId fragmentBuf
      (fun e he hf _ => hpos e he hf) next false next' true hs
    rcases h2 rfl with h | ⟨hlt, -⟩
    · cases h
    · exact hlt

/-- Witness for `datagramComplete_terminates`: the buffer `bufTwoHalves` and datagram 1. -/
theorem datagramComplete_terminates_witness :
    (∃ b, ∀ fuel, bufTwoHalves.length < fuel →
      datagramComplete fuel bufTwoHalves 1 = some b) ∧
    (∀ next next', scanBuf 1 bufTwoHalves next false = some (next', true) →
      next < next') :=
  datagramComplete_terminates bufTwoHalves (by decide) 1

/-- Claim C34. When a fragment completes a datagram in `LocalDeliver::handleMessage` (the
handler does not return at line 65), the buffer left behind is the one that
`removeFragmentFromBuf` makes of the buffer `before` (after the timeout sweep and the
insertion of the fragment): no occupied entry has the completed identification, every entry
with that identification is free, and every entry with a different identification is
exactly as before, with its occupancy, offset, length, moreFragments and timeout. -/
theorem handleMessage_frees_completed (prot : IPProtocolFieldId) (fuel : Nat)
    (simTime : simtime_t) (st : State) (d : IPDatagram) (st' : State) (action : Action)
    (hfrag : d.fragmentOffset ≠ 0 ∨ d.moreFragments = true)
    (h : handleMessage prot fuel simTime st d = some (st', action))
    (hdone : action ≠ Action.stored) :
    ∃ before : FragmentBuf,
      before = insertInFragmentBuf simTime st.fragmentTimeoutTime
        (if simTime ≥ st.lastCheckTime + 1 then
          eraseTimeoutFragmentsFromBuf simTime st.fragmentBuf
        else st.fragmentBuf) d ∧
      datagramComplete fuel before d.fragmentId = some true ∧
      st'.fragmentBuf = removeFragmentFromBuf before d.fragmentId ∧
      (∀ e ∈ st'.fragmentBuf, e.isFree = false → e.fragmentId ≠ d.fragmentId) ∧
      st'.fragmentBuf.length = before.length ∧
      (∀ (i : Nat) (e : FragmentationBufferEntry), before[i]? = some e →
        e.fragmentId ≠ d.fragmentId → st'.fragmentBuf[i]? = some e) ∧
      (∀ (i : Nat) (e : FragmentationBufferEntry), before[i]? = some e →
        e.fragmentId = d.fragmentId →
        ∃ e', st'.fragmentBuf[i]? = some e' ∧ e'.isFree = true ∧
          e'.fragmentOffset = e.fragmentOffset ∧ e'.length = e.length ∧
          e'.moreFragments = e.moreFragments ∧ e'.timeout = e.timeout) := by
  refine ⟨_, rfl, ?_⟩
  have key : ∀ (buf0 : FragmentBuf) (T : simtime_t) (buf : FragmentBuf)
      (out : Option IPDatagram), defragment fuel T simTime buf0 d = some (buf, out) →
      out ≠ none →
      datagramComplete fuel (insertInFragmentBuf simTime T buf0 d) d.fragmentId = some true ∧
      buf = removeFragmentFromBuf (insertInFragmentBuf simTime T buf0 d) d.fragmentId := by
    intro buf0 T buf out hdef hout
    rcases defragment_some hdef with ⟨h0, h1, -, -⟩ | ⟨-, ⟨-, -, ho⟩ | ⟨hc, hb, -⟩⟩
    · rcases hfrag with hf | hf
      · exact absurd h0 hf
      · rw [h1] at hf; cases hf
    · exact absurd ho hout
    · exact ⟨hc, hb⟩
  have hbuf : datagramComplete fuel (insertInFragmentBuf simTime st.fragmentTimeoutTime
        (if simTime ≥ st.lastCheckTime + 1 then
          eraseTimeoutFragmentsFromBuf simTime st.fragmentBuf
        else st.fragmentBuf) d) d.fragmentId = some true ∧
      st'.fragmentBuf = removeFragmentFromBuf
        (insertInFragmentBuf simTime st.fragmentTimeoutTime
          (if simTime ≥ st.lastCheckTime + 1 then
            eraseTimeoutFragmentsFromBuf simTime st.fragmentBuf
          else st.fragmentBuf) d) d.fragmentId := by
    unfold handleMessage at h
    by_cases hc : simTime ≥ st.lastCheckTime + 1
    · simp only [hc, if_true] at h ⊢
      split at h
      · cases h
      · simp only [Option.some.injEq, Prod.mk.injEq] at h
        exact absurd h.2.symm hdone
      · rename_i buf dg hdef
        obtain ⟨k1, k2⟩ := key _ _ buf (some dg) hdef (by simp)
        refine ⟨k1, ?_⟩
        rw [← k2]
        repeat' split at h
        all_goals
          simp only [Option.some.injEq, Prod.mk.injEq] at h
          rw [← h.1]
    · simp only [hc, if_false] at h ⊢
      split at h
      · cases h
      · simp only [Option.some.injEq, Prod.mk.injEq] at h
        exact absurd h.2.symm hdone
      · rename_i buf dg hdef
        obtain ⟨k1, k2⟩ := key _ _ buf (some dg) hdef (by simp)
        refine ⟨k1, ?_⟩
        rw [← k2]
        repeat' split at h
        all_goals
          simp only [Option.some.injEq, Prod.mk.injEq] at h
          rw [← h.1]
  obtain ⟨hcomp, hrem⟩ := hbuf
  obtain ⟨f1, f2, f3, f4⟩ := removeFragmentFromBuf_frame
    (insertInFragmentBuf simTime st.fragmentTimeoutTime
      (if simTime ≥ st.lastCheckTime + 1 then
        eraseTimeoutFragmentsFromBuf simTime st.fragmentBuf
      else st.fragmentBuf) d) d.fragmentId
  rw [← hrem] at f1 f2 f3 f4
  exact ⟨hcomp, hrem, f1, f2, f3, f4⟩

/-- Witness for `handleMessage_frees_completed`: `firstHalf` arrives at time 1 while the
buffer holds the first fragment of datagram 2 and `secondHalf`; datagram 1 completes, its
two slots are freed and the slot of datagram 2 is untouched. -/
theorem handleMessage_frees_completed_witness :
    ∃ before : FragmentBuf,
      before = insertInFragmentBuf 1 stateWithOther.fragmentTimeoutTime
        (if (1 : simtime_t) ≥ stateWithOther.lastCheckTime + 1 then
          eraseTimeoutFragmentsFromBuf 1 stateWithOther.fragmentBuf
        else stateWithOther.fragmentBuf) firstHalf ∧
      datagramComplete 5 before firstHalf.fragmentId = some true ∧
      stateAfterCompletion.fragmentBuf = removeFragmentFromBuf before firstHalf.fragmentId ∧
      (∀ e ∈ stateAfterCompletion.fragmentBuf, e.isFree = false →
        e.fragmentId ≠ firstHalf.fragmentId) ∧
      stateAfterCompletion.fragmentBuf.length = before.length ∧
      (∀ (i : Nat) (e : FragmentationBufferEntry), before[i]? = some e →
        e.fragmentId ≠ firstHalf.fragmentId → stateAfterCompletion.fragmentBuf[i]? = some e) ∧
      (∀ (i : Nat) (e : FragmentationBufferEntry), before[i]? = some e →
        e.fragmentId = firstHalf.fragmentId →
        ∃ e', stateAfterCompletion.fragmentBuf[i]? = some e' ∧ e'.isFree = true ∧
          e'.fragmentOffset = e.fragmentOffset ∧ e'.length = e.length ∧
          e'.moreFragments = e.moreFragments ∧ e'.timeout = e.timeout) :=
  handleMessage_frees_completed ianaProtocolFields 5 1 stateWithOther firstHalf
    stateAfterCompletion
    (Action.send (Gate.transportOut 1) (delivered firstHalf)
      (decapsulateIP (delivered firstHalf)))
    (Or.inr rfl) (by decide) (by decide)

end LocalDeliver
